import Mathlib

/-!
# Verification of the Vela signal-evaluation and trade-simulation engine

Shallow embedding of `scripts/backtest.py` (signal evaluator, trade
simulator, portfolio circuit breaker, leverage simulator) over exact
rational arithmetic, together with theorems settling the frozen claims.

Conventions of the embedding:
* Python floats are modelled as `ℚ`; `round(x, n)` is modelled by
  `pyRound` (round half to even, as Python's `round` does).
* `NaN`-able indicator columns are modelled as `Option ℚ`; a comparison
  against `NaN` (which is `False` in Python) becomes a `match` that
  returns `false` on `none`.
* DataFrame dates are modelled by bar indices (the index is strictly
  increasing, so date order and bar order agree); `str(date)` keys become
  the bar index itself.
* Reason strings such as `"ladder_15pct"` or `"dca_tranche_2_of_4"` are
  modelled by constructors carrying the interpolated numbers; purely
  cosmetic formatted suffixes (the `btc_crash (…%)` percentage, the
  `rsi_velocity (…)` delta, the `circuit_breaker (…%)` total) are dropped.
-/

namespace Vela

/-- Round half to even on `ℤ` grid: the integer nearest to `q`, ties to
the even integer.  This is Python's `round` on exact values. -/
def roundHalfEven (q : ℚ) : ℤ :=
  let f : ℤ := ⌊q⌋
  let r : ℚ := q - f
  if r < 1/2 then f
  else if 1/2 < r then f + 1
  else if f % 2 = 0 then f else f + 1

/-- Python's `round(q, d)`. -/
def pyRound (q : ℚ) (d : ℕ) : ℚ :=
  (roundHalfEven (q * 10 ^ d) : ℚ) / 10 ^ d

/-- `round(q, 2)` as used for prices and USD amounts. -/
def round2 (q : ℚ) : ℚ := pyRound q 2

/-- `round(q, 1)` as used for displayed percentages. -/
def round1 (q : ℚ) : ℚ := pyRound q 1

/-- `round(q, 4)` as used for cascading trim fractions. -/
def round4 (q : ℚ) : ℚ := pyRound q 4

/-! ## Signal evaluator (`evaluate_signal`, backtest.py lines 854–981) -/

/-- Signal colors returned by the evaluator / recorded on trades. -/
inductive Color where
  | green | red | grey | yellow
deriving DecidableEq, Repr

/-- Reason codes: each constructor is one reason string of the source. -/
inductive Reason where
  | emaCrossUp | emaCrossDown
  | chop | rsiOutOfRange | trendDisagree | antiWhipsaw | lowVolume
  | noChange
  | atrStopLoss | fixedStopLoss   -- "atr_stop_loss" / "stop_loss"
  | trendBreak
  | trailingStop
  | btcCrash                       -- "btc_crash (…%)"
  | rsiVelocity                    -- "rsi_velocity (…)"
  | ladderLevel (level : ℚ)        -- "ladder_{level}pct"
  | takeProfit | strongTakeProfit  -- yellow events
  | emaCrossUpConfirmed | emaCrossDownConfirmed
  | dcaTranche (k n : ℕ)           -- "dca_tranche_{k}_of_{n}"
  | pullbackReentry
  | bbStop | bbExpiry | bbTarget
  | bb2Stop | bb2Expiry | bb2Target
  | rsiBbLower | rsiBbUpper | rsiBb2Lower | rsiBb2Upper
  | circuitBreaker                 -- "circuit_breaker (…%)"
deriving DecidableEq, Repr

/-- Direction of an open primary position, as read from the open-trade
dict's `"direction"` field. -/
inductive PrimDir where
  | long | short
deriving DecidableEq, Repr

/-- `trim_mode` configuration value. -/
inductive TrimMode where
  | pctOfRemaining | pctOfOriginal
deriving DecidableEq, Repr

/-- `rsi_velocity_action` configuration value. -/
inductive VelAction where
  | warn | close
deriving DecidableEq, Repr

/-- The configuration keys read by the engine (`SIGNAL_CONFIG` and its
variants).  Keys read through `.get(key, default)` whose default refers to
another key are `Option`s resolved at use sites, exactly as the source
resolves them. -/
structure Config where
  rsiLongEntryMin : ℚ
  rsiLongEntryMax : ℚ
  rsiShortEntryMin : ℚ
  rsiShortEntryMax : ℚ
  adxThreshold : ℚ
  stopLossPct : ℚ
  rsiYellowThreshold : ℚ
  rsiOrangeThreshold : ℚ
  trimPctYellow : ℚ
  trimPctOrange : ℚ
  gracePeriodDays : ℕ
  trendBreakConfirmDays : ℕ
  trimMode : TrimMode
  rsiShortYellowThreshold : ℚ
  rsiShortOrangeThreshold : ℚ
  volumeConfirm : Bool
  volumeEntryThreshold : ℚ
  atrStopLoss : Bool
  atrStopMultiplier : ℚ
  btcCrashFilter : Bool
  btcCrashThreshold : ℚ
  rsiBbComplementary : Bool
  rsiBbHoldDays : ℕ
  rsiBbStopPct : ℚ
  rsiBbTrendFilter : Bool
  rsiBbCooldownDays : ℕ
  confirmationBars : ℕ
  rsiVelocityEnabled : Bool
  rsiVelocityThreshold : ℚ
  rsiVelocityAction : VelAction
  profitLadderEnabled : Bool
  profitLadderLevels : List ℚ
  profitLadderFractions : List ℚ
  pullbackReentry : Bool
  pullbackEmaBufferPct : ℚ
  pullbackMinProfitPct : ℚ
  pullbackAddFrac : ℚ
  pullbackMaxAdds : ℕ
  dcaEnabled : Bool
  dcaTranches : List ℚ
  dcaIntervalBars : ℕ
  dcaMaxAdversePct : ℚ
  bbImproved : Bool
  bbImprovedHoldDays : ℕ
  bbImprovedStopPct : ℚ
  bbImprovedPositionMult : ℚ
  bbImprovedCooldownDays : ℕ
  trailingStopShort : Bool
  trailingStopLong : Bool
  trailingStopActivationPct : ℚ
  trailingStopTrailPct : ℚ
  portfolioCircuitBreaker : Bool
  circuitBreakerPct : ℚ
  shortLadderLevels : Option (List ℚ)      -- default: profitLadderLevels
  shortLadderFractions : Option (List ℚ)   -- default: profitLadderFractions
  pullbackReentryShort : Option Bool       -- default: pullbackReentry

/-- One indicator-annotated bar, the fields of a DataFrame row that the
engine reads.  `Option ℚ` fields are the columns the source guards with
`pd.isna`.  (`volumeRel` is the source's `volume_ratio` column.) -/
structure Bar where
  close : ℚ
  ema9 : ℚ
  ema21 : ℚ
  rsi14 : ℚ
  sma50 : Option ℚ
  adx : ℚ
  emaCrossedUp : Bool
  emaCrossedDown : Bool
  recentBearishCross : Bool
  recentBullishCross : Bool
  daysBelowSma50 : ℕ
  volumeRel : Option ℚ
  atrPct : Option ℚ
  rsiDelta : Option ℚ
  rsiBelowBb : Bool
  rsiAboveBb : Bool
  rsiBelowBb2 : Bool
  rsiAboveBb2 : Bool
  btcReturn : Option ℚ   -- btc_df.loc[date]["daily_return_pct"]; none = date
                         -- missing from btc_df or value NaN

/-- The open-trade context handed to `evaluate_signal`: the fields of the
open-position dict that the evaluator reads. -/
structure OpenTrade where
  dir : PrimDir
  entryPrice : ℚ
  entryBarIndex : ℕ
deriving DecidableEq, Repr

/-- Long-position override block of `evaluate_signal` (lines 887–911):
`some` is an early `return`, `none` falls through. -/
def longOverrideCheck (row : Bar) (openTrade : Option OpenTrade)
    (config : Config) (barIndex : ℕ) : Option (Color × Reason) :=
  match openTrade with
  | some ot =>
    if ot.dir = PrimDir.long then
      let daysInTrade : ℤ := (barIndex : ℤ) - (ot.entryBarIndex : ℤ)
      if (config.gracePeriodDays : ℤ) ≤ daysInTrade then
        let drawdown := (ot.entryPrice - row.close) / ot.entryPrice * 100
        let stopHit : Option (Color × Reason) :=
          match config.atrStopLoss, row.atrPct with
          | true, some atr =>
            if config.atrStopMultiplier * atr ≤ drawdown then
              some (Color.red, Reason.atrStopLoss)
            else none
          | _, _ =>
            if config.stopLossPct ≤ drawdown then
              some (Color.red, Reason.fixedStopLoss)
            else none
        match stopHit with
        | some cr => some cr
        | none =>
          if config.trendBreakConfirmDays ≤ row.daysBelowSma50 then
            some (Color.red, Reason.trendBreak)
          else none
      else none
    else none
  | none => none

/-- Short-position override block of `evaluate_signal` (lines 915–931):
only the stop-loss, no trend-break check exists for shorts. -/
def shortOverrideCheck (row : Bar) (openTrade : Option OpenTrade)
    (config : Config) (barIndex : ℕ) : Option (Color × Reason) :=
  match openTrade with
  | some ot =>
    if ot.dir = PrimDir.short then
      let daysInTrade : ℤ := (barIndex : ℤ) - (ot.entryBarIndex : ℤ)
      if (config.gracePeriodDays : ℤ) ≤ daysInTrade then
        let drawdown := (row.close - ot.entryPrice) / ot.entryPrice * 100
        match config.atrStopLoss, row.atrPct with
        | true, some atr =>
          if config.atrStopMultiplier * atr ≤ drawdown then
            some (Color.green, Reason.atrStopLoss)
          else none
        | _, _ =>
          if config.stopLossPct ≤ drawdown then
            some (Color.green, Reason.fixedStopLoss)
          else none
      else none
    else none
  | none => none

/-- Bullish entry block (lines 935–954). -/
def greenEntryEval (row : Bar) (config : Config) : Color × Reason :=
  if row.adx < config.adxThreshold then (Color.grey, Reason.chop)
  else if row.rsi14 < config.rsiLongEntryMin ∨ config.rsiLongEntryMax < row.rsi14 then
    (Color.grey, Reason.rsiOutOfRange)
  else if (match row.sma50 with
           | some s => decide (row.close < s)
           | none => false) then
    (Color.grey, Reason.trendDisagree)
  else if row.recentBearishCross then (Color.grey, Reason.antiWhipsaw)
  else if config.volumeConfirm &&
          (match row.volumeRel with
           | some v => decide (v < config.volumeEntryThreshold)
           | none => false) then
    (Color.grey, Reason.lowVolume)
  else (Color.green, Reason.emaCrossUp)

/-- Bearish entry block (lines 958–977). -/
def redEntryEval (row : Bar) (config : Config) : Color × Reason :=
  if row.adx < config.adxThreshold then (Color.grey, Reason.chop)
  else if row.rsi14 < config.rsiShortEntryMin ∨ config.rsiShortEntryMax < row.rsi14 then
    (Color.grey, Reason.rsiOutOfRange)
  else if (match row.sma50 with
           | some s => decide (s < row.close)
           | none => false) then
    (Color.grey, Reason.trendDisagree)
  else if row.recentBullishCross then (Color.grey, Reason.antiWhipsaw)
  else if config.volumeConfirm &&
          (match row.volumeRel with
           | some v => decide (v < config.volumeEntryThreshold)
           | none => false) then
    (Color.grey, Reason.lowVolume)
  else (Color.red, Reason.emaCrossDown)

/-- `evaluate_signal` (lines 854–981). -/
def evaluateSignal (row : Bar) (openTrade : Option OpenTrade)
    (config : Config) (barIndex : ℕ) : Color × Reason :=
  match longOverrideCheck row openTrade config barIndex with
  | some cr => cr
  | none =>
    match shortOverrideCheck row openTrade config barIndex with
    | some cr => cr
    | none =>
      if row.emaCrossedUp then greenEntryEval row config
      else if row.emaCrossedDown then redEntryEval row config
      else (Color.grey, Reason.noChange)

/-- `check_yellow_events` (lines 1019–1049). -/
def checkYellowEvents (rsi14 : ℚ) (direction : PrimDir) (config : Config) :
    Option Reason :=
  match direction with
  | PrimDir.long =>
    if config.rsiOrangeThreshold ≤ rsi14 then some Reason.strongTakeProfit
    else if config.rsiYellowThreshold ≤ rsi14 then some Reason.takeProfit
    else none
  | PrimDir.short =>
    if 0 < config.rsiShortOrangeThreshold ∧ rsi14 ≤ config.rsiShortOrangeThreshold then
      some Reason.strongTakeProfit
    else if 0 < config.rsiShortYellowThreshold ∧ rsi14 ≤ config.rsiShortYellowThreshold then
      some Reason.takeProfit
    else none


/-! ## Concrete configurations (from the named variants in backtest.py) -/

/-- `IMPROVED_CONFIG` ("Enhanced v3", lines 122–183), with the `.get`
defaults filled in for the keys it does not set. -/
def improvedConfig : Config where
  rsiLongEntryMin := 40
  rsiLongEntryMax := 70
  rsiShortEntryMin := 30
  rsiShortEntryMax := 60
  adxThreshold := 20
  stopLossPct := 8
  rsiYellowThreshold := 78
  rsiOrangeThreshold := 85
  trimPctYellow := 0.25
  trimPctOrange := 0.50
  gracePeriodDays := 5
  trendBreakConfirmDays := 1
  trimMode := TrimMode.pctOfOriginal
  rsiShortYellowThreshold := 22
  rsiShortOrangeThreshold := 15
  volumeConfirm := true
  volumeEntryThreshold := 0.8
  atrStopLoss := true
  atrStopMultiplier := 2.0
  btcCrashFilter := true
  btcCrashThreshold := -5.0
  rsiBbComplementary := true
  rsiBbHoldDays := 3
  rsiBbStopPct := 5.0
  rsiBbTrendFilter := true
  rsiBbCooldownDays := 3
  confirmationBars := 0
  rsiVelocityEnabled := false
  rsiVelocityThreshold := 15
  rsiVelocityAction := VelAction.warn
  profitLadderEnabled := false
  profitLadderLevels := [15, 25, 35]
  profitLadderFractions := [0.10, 0.10, 0.10]
  pullbackReentry := false
  pullbackEmaBufferPct := 0.5
  pullbackMinProfitPct := 5.0
  pullbackAddFrac := 0.25
  pullbackMaxAdds := 2
  dcaEnabled := false
  dcaTranches := [0.25, 0.25, 0.25, 0.25]
  dcaIntervalBars := 2
  dcaMaxAdversePct := 3.0
  bbImproved := false
  bbImprovedHoldDays := 2
  bbImprovedStopPct := 3.0
  bbImprovedPositionMult := 0.3
  bbImprovedCooldownDays := 2
  trailingStopShort := false
  trailingStopLong := false
  trailingStopActivationPct := 5.0
  trailingStopTrailPct := 2.5
  portfolioCircuitBreaker := true
  circuitBreakerPct := -10.0
  shortLadderLevels := none
  shortLadderFractions := none
  pullbackReentryShort := none

/-- A neutral bar template for concrete test inputs. -/
def plainBar : Bar where
  close := 100
  ema9 := 100
  ema21 := 100
  rsi14 := 55
  sma50 := some 90
  adx := 25
  emaCrossedUp := false
  emaCrossedDown := false
  recentBearishCross := false
  recentBullishCross := false
  daysBelowSma50 := 0
  volumeRel := some 1.5
  atrPct := some 3
  rsiDelta := some 0
  rsiBelowBb := false
  rsiAboveBb := false
  rsiBelowBb2 := false
  rsiAboveBb2 := false
  btcReturn := none

/-! ## Trade records and the portfolio circuit breaker
(`apply_circuit_breaker`, backtest.py lines 2708–2834) -/

/-- The `"direction"` strings written on trade records. -/
inductive TDir where
  | long | short | trim | reentry | dcaEntry
  | bbLong | bbShort | bb2Long | bb2Short
deriving DecidableEq, Repr

/-- The `"status"` strings written on trade records. -/
inductive TStatus where
  | stillOpen | closed
deriving DecidableEq, Repr

/-- One ledger entry (trade dict).  Keys a given record kind does not
carry are modelled by `none` / by the `dict.get` default the readers use
(`trim_pct` defaults to 0, `remaining_pct` to 100).  `trimFrac` is the
exact fraction a trim removed — `trimPct` is its rounded display value
`round(frac*100, 1)`; the source stores only the display value, the exact
one is kept alongside so that conservation sums can be stated exactly. -/
structure Trade where
  dir : TDir
  entryBar : ℕ
  entryPrice : ℚ
  entryColor : Color
  entryReason : Reason
  exitBar : Option ℕ       -- none = "exit_date": None (or missing)
  exitPrice : Option ℚ
  exitColor : Option Color
  exitReason : Option Reason
  pnlPct : ℚ
  pnlUsd : ℚ
  trimPct : ℚ
  trimFrac : ℚ
  remainingPct : ℚ
  status : TStatus
deriving DecidableEq, Repr

/-- Per-asset input to the portfolio post-processors: the asset's trade
list and its indicator DataFrame reduced to the `(date index, close)`
pairs the circuit breaker reads. -/
structure AssetData where
  trades : List Trade
  dates : List (ℕ × ℚ)

/-- `date in df.index` / `df.loc[date]["close"]`. -/
def dfClose (dates : List (ℕ × ℚ)) (dte : ℕ) : Option ℚ :=
  (dates.find? (fun p => p.1 == dte)).map (fun p => p.2)

/-- `direction in ("trim", "dca_entry", "reentry") or startswith bb_/bb2_`
(line 2764): supplementary records the breaker skips. -/
def cbSkip (d : TDir) : Bool :=
  match d with
  | TDir.trim | TDir.dcaEntry | TDir.reentry
  | TDir.bbLong | TDir.bbShort | TDir.bb2Long | TDir.bb2Short => true
  | _ => false

/-- Is this trade counted as open on date `dte` (lines 2762–2790):
not supplementary, `entry_dt <= date <= exit_dt` (missing exit date is
`"9999-12-31"`), and a primary long/short direction. -/
def cbCounted (dte : ℕ) (t : Trade) : Bool :=
  !cbSkip t.dir &&
  (t.entryBar ≤ dte) &&
  (match t.exitBar with
   | some e => decide (dte ≤ e)
   | none => true) &&
  (t.dir == TDir.long || t.dir == TDir.short)

/-- `unrealized * remaining` for a counted trade (lines 2781–2788). -/
def cbWeighted (price : ℚ) (t : Trade) : ℚ :=
  (if t.dir = TDir.long then (price - t.entryPrice) / t.entryPrice * 100
   else (t.entryPrice - price) / t.entryPrice * 100) *
  (t.remainingPct / 100)

/-- `total_unrealized_pct` on one date over all assets. -/
def cbDateTotal (assets : List AssetData) (dte : ℕ) : ℚ :=
  (assets.map (fun a =>
    match dfClose a.dates dte with
    | none => 0
    | some price => ((a.trades.filter (cbCounted dte)).map (cbWeighted price)).sum)).sum

/-- `len(open_positions)` on one date. -/
def cbOpenCount (assets : List AssetData) (dte : ℕ) : ℕ :=
  (assets.map (fun a =>
    match dfClose a.dates dte with
    | none => 0
    | some _ => (a.trades.filter (cbCounted dte)).length)).sum

/-- In-place force-close of one counted trade (lines 2808–2829). -/
def cbCloseTrade (dte : ℕ) (price : ℚ) (positionSize : ℚ) (t : Trade) : Trade :=
  let remaining := t.remainingPct / 100
  let pnlPct :=
    if t.dir = TDir.long then round2 ((price - t.entryPrice) / t.entryPrice * 100)
    else round2 ((t.entryPrice - price) / t.entryPrice * 100)
  { t with
    exitBar := some dte
    exitPrice := some (round2 price)
    exitColor := some (if t.dir = TDir.long then Color.red else Color.green)
    exitReason := some Reason.circuitBreaker
    pnlPct := pnlPct
    pnlUsd := round2 (remaining * pnlPct / 100 * positionSize)
    remainingPct := round1 (remaining * 100)
    status := TStatus.closed }

/-- Force-close every position counted open on `dte` (lines 2801–2829). -/
def cbCloseAll (dte : ℕ) (positionSize : ℚ) (assets : List AssetData) :
    List AssetData :=
  assets.map (fun a =>
    match dfClose a.dates dte with
    | none => a
    | some price =>
      { a with trades := a.trades.map (fun t =>
          if cbCounted dte t then cbCloseTrade dte price positionSize t else t) })

/-- The chronological walk (lines 2747–2829): on the first date where
positions are open and the aggregate weighted unrealized P&L is at or
below the threshold, close everything and stop (`tripped` breaks the
loop); no mutation happens before the trip. -/
def cbLoop (thresholdPct positionSize : ℚ) (assets : List AssetData) :
    List ℕ → List AssetData
  | [] => assets
  | dte :: rest =>
    if 0 < cbOpenCount assets dte ∧ cbDateTotal assets dte ≤ thresholdPct then
      cbCloseAll dte positionSize assets
    else cbLoop thresholdPct positionSize assets rest

/-- `sorted(set(all dates))` (lines 2737–2740). -/
def allDatesSorted (assets : List AssetData) : List ℕ :=
  ((assets.map (fun a => a.dates.map (fun p => p.1))).flatten.dedup).mergeSort
    (fun a b => a ≤ b)

/-- `apply_circuit_breaker` (lines 2708–2834). -/
def applyCircuitBreaker (assets : List AssetData) (config : Config)
    (positionSize : ℚ) : List AssetData :=
  if config.portfolioCircuitBreaker = false then assets
  else cbLoop config.circuitBreakerPct positionSize assets (allDatesSorted assets)

/-- Modelled from the claim's words, for refinement comparison with
`applyCircuitBreaker`: find the chronologically first date on which the
remaining-fraction-weighted sum of unrealized P&L across open primary
positions is at or below the threshold; force-close all open primary
positions there; if no date qualifies, change nothing. -/
def circuitBreakerSpecResult (assets : List AssetData)
    (thresholdPct positionSize : ℚ) : List AssetData :=
  match (allDatesSorted assets).find?
      (fun dte => decide (cbDateTotal assets dte ≤ thresholdPct)) with
  | some dte => cbCloseAll dte positionSize assets
  | none => assets

/-! ## Leverage / confidence-tier simulator
(`compute_confidence_tier` lines 443–518,
`simulate_leverage_scenario` lines 3784–3947) -/

/-- Confidence tiers. -/
inductive Tier where
  | A | B | C
deriving DecidableEq, Repr

/-- Per-tier leverage multipliers (`LEVERAGE_CONFIGS` entries; `.get`
default is 1.0 for each). -/
structure LeverageConfig where
  tierALeverage : ℚ
  tierBLeverage : ℚ
  tierCLeverage : ℚ

/-- `compute_confidence_tier` (lines 443–518). -/
def computeConfidenceTier (row : Bar) (direction : TDir) (config : Config) :
    Tier :=
  let adx := row.adx
  let rsi := row.rsi14
  let p1 : ℕ × ℕ :=
    if 25 ≤ adx then (1, 0) else if adx < 22 then (0, 1) else (0, 0)
  let p2 : ℕ × ℕ :=
    match row.volumeRel with
    | some v => if 1.2 ≤ v then (1, 0) else if v < 1 then (0, 1) else (0, 0)
    | none => (0, 0)
  let p3 : ℕ × ℕ :=
    match row.atrPct with
    | some atr => if atr < 3 then (1, 0) else if 5 < atr then (0, 1) else (0, 0)
    | none => (0, 0)
  let rsiMin :=
    if direction = TDir.long then config.rsiLongEntryMin else config.rsiShortEntryMin
  let rsiMax :=
    if direction = TDir.long then config.rsiLongEntryMax else config.rsiShortEntryMax
  let rsiMid := (rsiMin + rsiMax) / 2
  let p4 : ℕ × ℕ :=
    if |rsi - rsiMid| < 8 then (1, 0)
    else if rsi < rsiMin + 3 ∨ rsiMax - 3 < rsi then (0, 1) else (0, 0)
  let strongSignals := p1.1 + p2.1 + p3.1 + p4.1
  let weakSignals := p1.2 + p2.2 + p3.2 + p4.2
  if 3 ≤ strongSignals ∧ weakSignals = 0 then Tier.A
  else if 2 ≤ weakSignals then Tier.C
  else Tier.B

/-- Per-asset input of the leverage simulator: the asset's ledger and its
(possibly absent) indicator DataFrame. -/
structure LevAsset where
  trades : List Trade
  df : Option (List (ℕ × Bar))

/-- One ledger event of the leverage walk; `assetIdx` stands for the
asset's dict key `cg_id`. -/
structure LevEvent where
  assetIdx : ℕ
  trade : Trade

/-- Candidate events: every non-supplementary record of every asset
(lines 3810–3825; the skip test is the one shared with the circuit
breaker, line 3814 = line 2764). -/
def levEvents (assets : List LevAsset) : List LevEvent :=
  (assets.enum.map (fun ia =>
    (ia.2.trades.filter (fun t => !cbSkip t.dir)).map
      (fun t => LevEvent.mk ia.1 t))).flatten

/-- `"9999-12-31"`-padded exit-date order (`none` is the far-future
sentinel). -/
def exitDateLe (a b : Option ℕ) : Bool :=
  match a, b with
  | none, none => true
  | none, some _ => false
  | some _, none => true
  | some x, some y => x ≤ y

/-- `events.sort(key=(entry_date, exit_date))` order (line 3827); Python's
sort is stable, as is `mergeSort`. -/
def levEventLe (e1 e2 : LevEvent) : Bool :=
  if e1.trade.entryBar < e2.trade.entryBar then true
  else if e2.trade.entryBar < e1.trade.entryBar then false
  else exitDateLe e1.trade.exitBar e2.trade.exitBar

/-- A processed trade of the leverage scenario (the record appended at
lines 3908–3918: the original dict fields plus the leverage annotations). -/
structure LevTrade where
  base : Trade
  tier : Tier
  leverage : ℚ
  positionSize : ℚ
  effectiveExposure : ℚ
  pnlPctLeveraged : ℚ
  pnlUsdLeveraged : ℚ
  capitalBefore : ℚ
  liquidated : Bool

/-- Mutable state of the event walk.  `deployed_until` only ever holds
`None` or the sentinel `"9999-12-31"` (set for still-open trades), and
every real entry date precedes the sentinel, so it is a flag. -/
structure LevState where
  capital : ℚ
  peakCapital : ℚ
  maxDrawdownPct : ℚ
  deployedForever : Bool
  resultTrades : List LevTrade
  skipped : ℕ
  liquidations : ℕ
  tierACount : ℕ
  tierBCount : ℕ
  tierCCount : ℕ

/-- Tier lookup for one event (lines 3857–3868): `B` when the asset has
no DataFrame or the entry date is not in its index. -/
def levTier (assets : List LevAsset) (signalConfig : Config)
    (e : LevEvent) : Tier :=
  match (assets.get? e.assetIdx).bind (fun a => a.df) with
  | none => Tier.B
  | some df =>
    match (df.find? (fun p => p.1 == e.trade.entryBar)).map (fun p => p.2) with
    | none => Tier.B
    | some row => computeConfidenceTier row e.trade.dir signalConfig

/-- Leverage per tier (lines 3871–3877). -/
def levLeverage (levConfig : LeverageConfig) (tier : Tier) : ℚ :=
  match tier with
  | Tier.A => levConfig.tierALeverage
  | Tier.C => levConfig.tierCLeverage
  | Tier.B => levConfig.tierBLeverage

/-- The trims indexed under `(cg_id, entry_date)` (lines 3840–3845). -/
def levTrims (assets : List LevAsset) (e : LevEvent) : List Trade :=
  match assets.get? e.assetIdx with
  | none => []
  | some a => a.trades.filter
      (fun tr => tr.dir == TDir.trim && tr.entryBar == e.trade.entryBar)

/-- Leveraged trim P&L accumulation (lines 3899–3904). -/
def levTrimPnl (trims : List Trade) (leverage positionSize : ℚ) : ℚ :=
  (trims.map (fun tr =>
    round2 ((tr.trimPct / 100) * (tr.pnlPct * leverage) / 100 * positionSize))).sum

/-- One iteration of the event loop (lines 3847–3934). -/
def levStep (assets : List LevAsset) (levConfig : LeverageConfig)
    (signalConfig : Config) (s : LevState) (e : LevEvent) : LevState :=
  if s.deployedForever then { s with skipped := s.skipped + 1 }
  else
    let t := e.trade
    let tier := levTier assets signalConfig e
    let leverage := levLeverage levConfig tier
    let positionSize := s.capital
    let effectiveExposure := positionSize * leverage
    let remainingFrac := t.remainingPct / 100
    let leveragedPnlPct := t.pnlPct * leverage
    let isLiquidated : Bool := leveragedPnlPct * remainingFrac ≤ -100
    let pnlUsd :=
      if isLiquidated then -positionSize
      else round2 (remainingFrac * leveragedPnlPct / 100 * positionSize)
    let trimPnl := levTrimPnl (levTrims assets e) leverage positionSize
    let totalTradePnl := if isLiquidated then pnlUsd else pnlUsd + trimPnl
    let entryRec : LevTrade :=
      ⟨t, tier, leverage, round2 positionSize, round2 effectiveExposure,
       round2 leveragedPnlPct, round2 totalTradePnl, round2 s.capital,
       isLiquidated⟩
    let s' : LevState :=
      { s with
        resultTrades := s.resultTrades ++ [entryRec]
        liquidations := if isLiquidated then s.liquidations + 1 else s.liquidations
        tierACount := if tier = Tier.A then s.tierACount + 1 else s.tierACount
        tierBCount := if tier = Tier.B then s.tierBCount + 1 else s.tierBCount
        tierCCount := if tier = Tier.C then s.tierCCount + 1 else s.tierCCount }
    if t.status = TStatus.closed then
      let cap1 := s'.capital + totalTradePnl
      let cap2 := max cap1 0
      let cap3 := round2 cap2
      let peak := if s'.peakCapital < cap3 then cap3 else s'.peakCapital
      let mdd :=
        if 0 < peak then
          (if s'.maxDrawdownPct < (peak - cap3) / peak * 100
           then (peak - cap3) / peak * 100 else s'.maxDrawdownPct)
        else s'.maxDrawdownPct
      { s' with capital := cap3, peakCapital := peak, maxDrawdownPct := mdd,
                deployedForever := false }
    else { s' with deployedForever := true }

/-- Summary output of `simulate_leverage_scenario`. -/
structure LevResult where
  trades : List LevTrade
  finalCapital : ℚ
  peakCapital : ℚ
  maxDrawdownPct : ℚ
  skippedTrades : ℕ
  liquidations : ℕ
  totalReturnPct : ℚ

/-- `simulate_leverage_scenario` (lines 3784–3947). -/
def simulateLeverageScenario (assets : List LevAsset)
    (levConfig : LeverageConfig) (signalConfig : Config)
    (startingCapital : ℚ) : LevResult :=
  let events := (levEvents assets).mergeSort levEventLe
  let init : LevState :=
    ⟨startingCapital, startingCapital, 0, false, [], 0, 0, 0, 0, 0⟩
  let fin := events.foldl (levStep assets levConfig signalConfig) init
  ⟨fin.resultTrades, round2 fin.capital, round2 fin.peakCapital,
   round1 fin.maxDrawdownPct, fin.skipped, fin.liquidations,
   if 0 < startingCapital
   then round1 ((fin.capital - startingCapital) / startingCapital * 100)
   else 0⟩

/-! ## Position & trade simulator (`simulate_trades`, lines 1052–2192)

The walk is translated phase by phase in the source's order; each phase
is one commented block of the loop body.  Indicator-snapshot dicts
(`entry_indicators` / `exit_indicators`) are metadata-only and are not
modelled; the dead `pending_green_entry` / `pending_red_entry` locals
(written but never read) are likewise omitted. -/

/-- An open position slot (`open_long` / `open_short` / `bb_open_*`
dicts): the fields the simulator reads back. -/
structure Pos where
  entryBar : ℕ
  entryPrice : ℚ
  entryColor : Color
  entryReason : Reason
deriving DecidableEq, Repr

/-- One pullback re-entry child piece. -/
structure Piece where
  entryBar : ℕ
  entryPrice : ℚ
  frac : ℚ
deriving DecidableEq, Repr

/-- The simulator's mutable locals (lines 1095–1188). -/
structure SimState where
  trades : List Trade
  openLong : Option Pos
  openShort : Option Pos
  longRemaining : ℚ
  shortRemaining : ℚ
  ladderTrimsLong : List ℕ
  ladderTrimsShort : List ℕ
  consecutiveGreen : ℕ
  consecutiveRed : ℕ
  reentryPiecesLong : List Piece
  reentryPiecesShort : List Piece
  pullbackAddsLong : ℕ
  pullbackAddsShort : ℕ
  dcaActiveLong : Bool
  dcaActiveShort : Bool
  dcaTrancheIdxLong : ℕ
  dcaTrancheIdxShort : ℕ
  dcaLastFillBarLong : ℤ
  dcaLastFillBarShort : ℤ
  dcaFirstEntryPriceLong : ℚ
  dcaFirstEntryPriceShort : ℚ
  bbOpenLong : Option Pos
  bbOpenShort : Option Pos
  bbLongBars : ℕ
  bbShortBars : ℕ
  bbLongCooldownUntil : ℤ
  bbShortCooldownUntil : ℤ
  bb2OpenLong : Option Pos
  bb2OpenShort : Option Pos
  bb2LongBars : ℕ
  bb2ShortBars : ℕ
  bb2LongCooldownUntil : ℤ
  bb2ShortCooldownUntil : ℤ
  shortPeakProfit : ℚ
  longPeakProfit : ℚ

/-- Initial locals (lines 1095–1188). -/
def initState : SimState where
  trades := []
  openLong := none
  openShort := none
  longRemaining := 1
  shortRemaining := 1
  ladderTrimsLong := []
  ladderTrimsShort := []
  consecutiveGreen := 0
  consecutiveRed := 0
  reentryPiecesLong := []
  reentryPiecesShort := []
  pullbackAddsLong := 0
  pullbackAddsShort := 0
  dcaActiveLong := false
  dcaActiveShort := false
  dcaTrancheIdxLong := 0
  dcaTrancheIdxShort := 0
  dcaLastFillBarLong := -999
  dcaLastFillBarShort := -999
  dcaFirstEntryPriceLong := 0
  dcaFirstEntryPriceShort := 0
  bbOpenLong := none
  bbOpenShort := none
  bbLongBars := 0
  bbShortBars := 0
  bbLongCooldownUntil := -1
  bbShortCooldownUntil := -1
  bb2OpenLong := none
  bb2OpenShort := none
  bb2LongBars := 0
  bb2ShortBars := 0
  bb2LongCooldownUntil := -1
  bb2ShortCooldownUntil := -1
  shortPeakProfit := 0
  longPeakProfit := 0

/-- BTC crash filter (lines 1194–1218): on a qualifying crash bar the
open long is closed defensively and the rest of the bar is skipped
(`continue`); `some s'` models the `continue`, `none` falls through. -/
def btcCrashPhase (config : Config) (isBtc hasBtcDf : Bool)
    (positionSize : ℚ) (barIdx : ℕ) (row : Bar) (s : SimState) :
    Option SimState :=
  if config.btcCrashFilter && !isBtc && hasBtcDf then
    match s.openLong with
    | some p =>
      match row.btcReturn with
      | some ret =>
        if ret ≤ config.btcCrashThreshold then
          let pnlPct := round2 ((row.close - p.entryPrice) / p.entryPrice * 100)
          let pnlUsd := round2 (s.longRemaining * pnlPct / 100 * positionSize)
          some { s with
            trades := s.trades ++
              [⟨TDir.long, p.entryBar, p.entryPrice, p.entryColor, p.entryReason,
                some barIdx, some (round2 row.close), some Color.red,
                some Reason.btcCrash, pnlPct, pnlUsd, 0, 0,
                round1 (s.longRemaining * 100), TStatus.closed⟩]
            openLong := none
            longRemaining := 1
            longPeakProfit := 0 }
        else none
      | none => none
    | none => none
  else none

/-- Signal re-evaluation with the open long's context (lines 1220–1233),
then the short-position stop-loss merge. -/
def evalColorReason (config : Config) (barIdx : ℕ) (row : Bar)
    (s : SimState) : Color × Reason :=
  let cr := evaluateSignal row
    (s.openLong.map (fun p => OpenTrade.mk PrimDir.long p.entryPrice p.entryBar))
    config barIdx
  match s.openShort with
  | some p =>
    if cr.1 ≠ Color.green then
      let cr2 := evaluateSignal row
        (some (OpenTrade.mk PrimDir.short p.entryPrice p.entryBar)) config barIdx
      if cr2.1 = Color.green ∧
         (cr2.2 = Reason.atrStopLoss ∨ cr2.2 = Reason.fixedStopLoss) then cr2
      else cr
    else cr
  | none => cr

/-- V6 trailing stop for shorts (lines 1235–1248). -/
def trailingShortPhase (config : Config) (row : Bar) (s : SimState)
    (cr : Color × Reason) : SimState × (Color × Reason) :=
  if config.trailingStopShort = true then
    match s.openShort with
    | some p =>
      if cr.1 ≠ Color.green then
        let currentProfit := (p.entryPrice - row.close) / p.entryPrice * 100
        let peak := if s.shortPeakProfit < currentProfit then currentProfit
                    else s.shortPeakProfit
        let s' := { s with shortPeakProfit := peak }
        if config.trailingStopActivationPct ≤ peak ∧
           config.trailingStopTrailPct ≤ peak - currentProfit then
          (s', (Color.green, Reason.trailingStop))
        else (s', cr)
      else (s, cr)
    | none => (s, cr)
  else (s, cr)

/-- V6d trailing stop for longs (lines 1250–1260). -/
def trailingLongPhase (config : Config) (row : Bar) (s : SimState)
    (cr : Color × Reason) : SimState × (Color × Reason) :=
  if config.trailingStopLong = true then
    match s.openLong with
    | some p =>
      if cr.1 ≠ Color.red then
        let currentProfit := (row.close - p.entryPrice) / p.entryPrice * 100
        let peak := if s.longPeakProfit < currentProfit then currentProfit
                    else s.longPeakProfit
        let s' := { s with longPeakProfit := peak }
        if config.trailingStopActivationPct ≤ peak ∧
           config.trailingStopTrailPct ≤ peak - currentProfit then
          (s', (Color.red, Reason.trailingStop))
        else (s', cr)
      else (s, cr)
    | none => (s, cr)
  else (s, cr)

/-- A ladder trim record (lines 1275–1291 / 1304–1320). -/
def ladderTrimRec (entryC : Color) (entryR : Reason) (p : Pos)
    (barIdx : ℕ) (price : ℚ) (positionSize profitPct level trim : ℚ) : Trade :=
  ⟨TDir.trim, p.entryBar, p.entryPrice, entryC, entryR,
   some barIdx, some (round2 price), some Color.green,
   some (Reason.ladderLevel level), round2 profitPct,
   round2 (trim * positionSize * profitPct / 100), round1 (trim * 100),
   trim, 100, TStatus.closed⟩

/-- The ladder `for` loop (lines 1270–1294): walk `enumerate(zip(levels,
fractions))` accumulating trades, the remaining fraction, the executed
level indices and the `trimmed_this_bar` flag. -/
def ladderLoop (entryC : Color) (entryR : Reason) (p : Pos) (barIdx : ℕ)
    (price positionSize profitPct : ℚ) :
    List (ℕ × ℚ × ℚ) → List Trade × ℚ × List ℕ × Bool →
    List Trade × ℚ × List ℕ × Bool
  | [], acc => acc
  | (idx, level, frac) :: rest, (trades, rem, done, trimmed) =>
    if idx ∉ done ∧ level ≤ profitPct then
      let trim := min frac rem
      if 1/100 < trim then
        ladderLoop entryC entryR p barIdx price positionSize profitPct rest
          (trades ++ [ladderTrimRec entryC entryR p barIdx price positionSize
                        profitPct level trim],
           rem - trim, done ++ [idx], true)
      else
        ladderLoop entryC entryR p barIdx price positionSize profitPct rest
          (trades, rem, done, trimmed)
    else
      ladderLoop entryC entryR p barIdx price positionSize profitPct rest
        (trades, rem, done, trimmed)

/-- Ladder long sub-block (lines 1267–1294). -/
def ladderLongStep (config : Config) (positionSize : ℚ) (barIdx : ℕ)
    (row : Bar) (s : SimState) : SimState × Bool :=
  match s.openLong with
  | some p =>
    if config.profitLadderEnabled ∧ 1/10 < s.longRemaining then
      let profitPct := (row.close - p.entryPrice) / p.entryPrice * 100
      let (tr, rem, done, tb) :=
        ladderLoop Color.green Reason.emaCrossUp p barIdx row.close
          positionSize profitPct
          ((config.profitLadderLevels.zip config.profitLadderFractions).enum)
          (s.trades, s.longRemaining, s.ladderTrimsLong, false)
      ({ s with trades := tr, longRemaining := rem, ladderTrimsLong := done }, tb)
    else (s, false)
  | none => (s, false)

/-- Ladder short sub-block (lines 1296–1323), continuing the
`trimmed_this_bar` flag. -/
def ladderShortStep (config : Config) (positionSize : ℚ) (barIdx : ℕ)
    (row : Bar) (st : SimState × Bool) : SimState × Bool :=
  match st.1.openShort with
  | some p =>
    if config.profitLadderEnabled ∧ 1/10 < st.1.shortRemaining then
      let shortLevels := config.shortLadderLevels.getD config.profitLadderLevels
      let shortFractions :=
        config.shortLadderFractions.getD config.profitLadderFractions
      let profitPct := (p.entryPrice - row.close) / p.entryPrice * 100
      let (tr, rem, done, tb) :=
        ladderLoop Color.red Reason.emaCrossDown p barIdx row.close
          positionSize profitPct ((shortLevels.zip shortFractions).enum)
          (st.1.trades, st.1.shortRemaining, st.1.ladderTrimsShort, st.2)
      ({ st.1 with trades := tr, shortRemaining := rem,
                   ladderTrimsShort := done }, tb)
    else st
  | none => st

/-- V5 profit-taking ladder, long then short (lines 1262–1323).  Returns
the state and `trimmed_this_bar`. -/
def ladderPhase (config : Config) (positionSize : ℚ) (barIdx : ℕ)
    (row : Bar) (s : SimState) : SimState × Bool :=
  ladderShortStep config positionSize barIdx row
    (ladderLongStep config positionSize barIdx row s)

/-- A yellow-event trim record (lines 1350–1366 / 1390–1406). -/
def yellowTrimRec (entryC : Color) (entryR : Reason) (p : Pos)
    (barIdx : ℕ) (price : ℚ) (ev : Reason) (pnlAtTrim trimUsd trim : ℚ) : Trade :=
  ⟨TDir.trim, p.entryBar, p.entryPrice, entryC, entryR,
   some barIdx, some (round2 price), some Color.yellow, some ev,
   pnlAtTrim, trimUsd, round1 (trim * 100), trim, 100, TStatus.closed⟩

/-- Yellow event partial trim on the open long (lines 1325–1367). -/
def yellowLongPhase (config : Config) (positionSize : ℚ) (barIdx : ℕ)
    (row : Bar) (trimmed : Bool) (s : SimState) : SimState :=
  match s.openLong with
  | some p =>
    if 1/10 < s.longRemaining ∧ trimmed = false then
      match checkYellowEvents row.rsi14 PrimDir.long config with
      | some ev =>
        let pnlAtTrim := round2 ((row.close - p.entryPrice) / p.entryPrice * 100)
        let raw := if ev = Reason.strongTakeProfit then config.trimPctOrange
                   else config.trimPctYellow
        let trim :=
          match config.trimMode with
          | TrimMode.pctOfOriginal => min raw s.longRemaining
          | TrimMode.pctOfRemaining => round4 (s.longRemaining * raw)
        let trimUsd := round2 (trim * positionSize * pnlAtTrim / 100)
        if 1/20 < trim then
          { s with
            trades := s.trades ++
              [yellowTrimRec Color.green Reason.emaCrossUp p barIdx row.close
                 ev pnlAtTrim trimUsd trim]
            longRemaining := s.longRemaining - trim }
        else s
      | none => s
    else s
  | none => s

/-- Yellow event partial cover on the open short (lines 1369–1407). -/
def yellowShortPhase (config : Config) (positionSize : ℚ) (barIdx : ℕ)
    (row : Bar) (trimmed : Bool) (s : SimState) : SimState :=
  match s.openShort with
  | some p =>
    if 1/10 < s.shortRemaining ∧ trimmed = false then
      match checkYellowEvents row.rsi14 PrimDir.short config with
      | some ev =>
        let pnlAtTrim := round2 ((p.entryPrice - row.close) / p.entryPrice * 100)
        let raw := if ev = Reason.strongTakeProfit then config.trimPctOrange
                   else config.trimPctYellow
        let trim :=
          match config.trimMode with
          | TrimMode.pctOfOriginal => min raw s.shortRemaining
          | TrimMode.pctOfRemaining => round4 (s.shortRemaining * raw)
        let trimUsd := round2 (trim * positionSize * pnlAtTrim / 100)
        if 1/20 < trim then
          { s with
            trades := s.trades ++
              [yellowTrimRec Color.red Reason.emaCrossDown p barIdx row.close
                 ev pnlAtTrim trimUsd trim]
            shortRemaining := s.shortRemaining - trim }
        else s
      | none => s
    else s
  | none => s

/-- RSI velocity, long sub-block (lines 1415–1461). -/
def velocityLongStep (config : Config) (positionSize : ℚ) (barIdx : ℕ)
    (row : Bar) (delta : ℚ) (s : SimState) : SimState :=
  match s.openLong with
  | some p =>
    if 0 < delta ∧ 60 < row.rsi14 ∧ 1/10 < s.longRemaining then
      if config.rsiVelocityAction = VelAction.close then
        let pnlPct := round2 ((row.close - p.entryPrice) / p.entryPrice * 100)
        let pnlUsd := round2 (s.longRemaining * pnlPct / 100 * positionSize)
        { s with
          trades := s.trades ++
            [⟨TDir.long, p.entryBar, p.entryPrice, p.entryColor,
              p.entryReason, some barIdx, some (round2 row.close),
              some Color.yellow, some Reason.rsiVelocity, pnlPct, pnlUsd,
              0, 0, round1 (s.longRemaining * 100), TStatus.closed⟩]
          openLong := none
          longRemaining := 1
          longPeakProfit := 0 }
      else
        let pnlAtTrim := round2 ((row.close - p.entryPrice) / p.entryPrice * 100)
        let trim := min (1/4) s.longRemaining
        if 1/20 < trim then
          let trimUsd := round2 (trim * positionSize * pnlAtTrim / 100)
          { s with
            trades := s.trades ++
              [yellowTrimRec Color.green Reason.emaCrossUp p barIdx
                 row.close Reason.rsiVelocity pnlAtTrim trimUsd trim]
            longRemaining := s.longRemaining - trim }
        else s
    else s
  | none => s

/-- RSI velocity, short sub-block (lines 1463–1507). -/
def velocityShortStep (config : Config) (positionSize : ℚ) (barIdx : ℕ)
    (row : Bar) (delta : ℚ) (s : SimState) : SimState :=
  match s.openShort with
  | some p =>
    if delta < 0 ∧ row.rsi14 < 40 ∧ 1/10 < s.shortRemaining then
      if config.rsiVelocityAction = VelAction.close then
        let pnlPct := round2 ((p.entryPrice - row.close) / p.entryPrice * 100)
        let pnlUsd := round2 (s.shortRemaining * pnlPct / 100 * positionSize)
        { s with
          trades := s.trades ++
            [⟨TDir.short, p.entryBar, p.entryPrice, p.entryColor,
              p.entryReason, some barIdx, some (round2 row.close),
              some Color.yellow, some Reason.rsiVelocity, pnlPct, pnlUsd,
              0, 0, round1 (s.shortRemaining * 100), TStatus.closed⟩]
          openShort := none
          shortRemaining := 1
          shortPeakProfit := 0 }
      else
        let pnlAtTrim := round2 ((p.entryPrice - row.close) / p.entryPrice * 100)
        let trim := min (1/4) s.shortRemaining
        if 1/20 < trim then
          let trimUsd := round2 (trim * positionSize * pnlAtTrim / 100)
          { s with
            trades := s.trades ++
              [yellowTrimRec Color.red Reason.emaCrossDown p barIdx
                 row.close Reason.rsiVelocity pnlAtTrim trimUsd trim]
            shortRemaining := s.shortRemaining - trim }
        else s
    else s
  | none => s

/-- RSI velocity detection (lines 1409–1507): rapid RSI moves either
warn-trim or force-close the open position on the threatened side. -/
def velocityPhase (config : Config) (positionSize : ℚ) (barIdx : ℕ)
    (row : Bar) (trimmed : Bool) (s : SimState) : SimState :=
  if config.rsiVelocityEnabled ∧ trimmed = false then
    match row.rsiDelta with
    | some delta =>
      if config.rsiVelocityThreshold ≤ |delta| then
        velocityShortStep config positionSize barIdx row delta
          (velocityLongStep config positionSize barIdx row delta s)
      else s
    | none => s
  else s

/-- Close the open long on a red signal (lines 1509–1556), closing all
pullback re-entry pieces at the same price. -/
def closeLongPhase (positionSize : ℚ) (barIdx : ℕ) (row : Bar)
    (cr : Color × Reason) (s : SimState) : SimState :=
  match s.openLong with
  | some p =>
    if cr.1 = Color.red then
      let pnlPct := round2 ((row.close - p.entryPrice) / p.entryPrice * 100)
      let pnlUsd := round2 (s.longRemaining * pnlPct / 100 * positionSize)
      let closeRec : Trade :=
        ⟨TDir.long, p.entryBar, p.entryPrice, p.entryColor, p.entryReason,
         some barIdx, some (round2 row.close), some Color.red, some cr.2,
         pnlPct, pnlUsd, 0, 0, round1 (s.longRemaining * 100), TStatus.closed⟩
      let pieceRecs := s.reentryPiecesLong.map (fun piece =>
        let piecePnl := round2 ((row.close - piece.entryPrice) / piece.entryPrice * 100)
        (⟨TDir.reentry, piece.entryBar, piece.entryPrice, Color.green,
          Reason.pullbackReentry, some barIdx, some (round2 row.close),
          some Color.red, some cr.2, piecePnl,
          round2 (piece.frac * piecePnl / 100 * positionSize), 0, 0, 100,
          TStatus.closed⟩ : Trade))
      { s with
        trades := s.trades ++ [closeRec] ++ pieceRecs
        openLong := none
        longRemaining := 1
        longPeakProfit := 0
        ladderTrimsLong := []
        reentryPiecesLong := []
        pullbackAddsLong := 0
        dcaActiveLong := false
        dcaTrancheIdxLong := 0 }
    else s
  | none => s

/-- Close the open short on a green signal (lines 1558–1603). -/
def closeShortPhase (positionSize : ℚ) (barIdx : ℕ) (row : Bar)
    (cr : Color × Reason) (s : SimState) : SimState :=
  match s.openShort with
  | some p =>
    if cr.1 = Color.green then
      let pnlPct := round2 ((p.entryPrice - row.close) / p.entryPrice * 100)
      let pnlUsd := round2 (s.shortRemaining * pnlPct / 100 * positionSize)
      let closeRec : Trade :=
        ⟨TDir.short, p.entryBar, p.entryPrice, p.entryColor, p.entryReason,
         some barIdx, some (round2 row.close), some Color.green, some cr.2,
         pnlPct, pnlUsd, 0, 0, round1 (s.shortRemaining * 100), TStatus.closed⟩
      let pieceRecs := s.reentryPiecesShort.map (fun piece =>
        let piecePnl := round2 ((piece.entryPrice - row.close) / piece.entryPrice * 100)
        (⟨TDir.reentry, piece.entryBar, piece.entryPrice, Color.red,
          Reason.pullbackReentry, some barIdx, some (round2 row.close),
          some Color.green, some cr.2, piecePnl,
          round2 (piece.frac * piecePnl / 100 * positionSize), 0, 0, 100,
          TStatus.closed⟩ : Trade))
      { s with
        trades := s.trades ++ [closeRec] ++ pieceRecs
        openShort := none
        shortRemaining := 1
        ladderTrimsShort := []
        reentryPiecesShort := []
        pullbackAddsShort := 0
        dcaActiveShort := false
        dcaTrancheIdxShort := 0
        shortPeakProfit := 0 }
    else s
  | none => s

/-- Confirmation-gate green counter update (lines 1612–1623). -/
def confirmGreenStep (row : Bar) (cr : Color × Reason) (s : SimState) :
    SimState :=
  if cr.1 = Color.green ∧ cr.2 = Reason.emaCrossUp then
    { s with consecutiveGreen := 1, consecutiveRed := 0 }
  else if 0 < s.consecutiveGreen ∧ row.ema21 < row.ema9 then
    { s with consecutiveGreen := s.consecutiveGreen + 1 }
  else if 0 < s.consecutiveGreen then { s with consecutiveGreen := 0 }
  else s

/-- Confirmation-gate red counter update (lines 1625–1633). -/
def confirmRedStep (row : Bar) (cr : Color × Reason) (s : SimState) :
    SimState :=
  if cr.1 = Color.red ∧ cr.2 = Reason.emaCrossDown then
    { s with consecutiveRed := 1, consecutiveGreen := 0 }
  else if 0 < s.consecutiveRed ∧ row.ema9 < row.ema21 then
    { s with consecutiveRed := s.consecutiveRed + 1 }
  else if 0 < s.consecutiveRed then { s with consecutiveRed := 0 }
  else s

/-- Confirmation-gate counters (lines 1605–1633). -/
def confirmPhase (row : Bar) (cr : Color × Reason) (s : SimState) : SimState :=
  confirmRedStep row cr (confirmGreenStep row cr s)

/-- The informational `dca_entry` record (lines 1663–1676 / 1763–1776). -/
def dcaEntryRec (entryC : Color) (barIdx : ℕ) (price : ℚ) (k n : ℕ) : Trade :=
  ⟨TDir.dcaEntry, barIdx, round2 price, entryC, Reason.dcaTranche k n,
   some barIdx, some (round2 price), none, none, 0, 0, 0, 0, 100,
   TStatus.closed⟩

/-- Open a new long (lines 1637–1689): requires an empty slot, a live
green-cross streak, and either no confirmation gate (entry on the cross
bar itself) or a long-enough streak. -/
def openLongPhase (config : Config) (barIdx : ℕ) (row : Bar)
    (cr : Color × Reason) (s : SimState) : SimState :=
  if s.openLong = none ∧ 0 < s.consecutiveGreen then
    if config.confirmationBars = 0 ∨ config.confirmationBars ≤ s.consecutiveGreen then
      if config.confirmationBars = 0 ∧
         ¬(cr.1 = Color.green ∧ cr.2 = Reason.emaCrossUp) then s
      else
        let entryReason :=
          if 0 < config.confirmationBars then Reason.emaCrossUpConfirmed else cr.2
        let p : Pos := ⟨barIdx, round2 row.close, Color.green, entryReason⟩
        if config.dcaEnabled then
          let firstFrac := match config.dcaTranches with
                           | [] => 1
                           | f :: _ => f
          { s with
            openLong := some p
            longRemaining := firstFrac
            longPeakProfit := 0
            dcaActiveLong := true
            dcaTrancheIdxLong := 1
            dcaLastFillBarLong := (barIdx : ℤ)
            dcaFirstEntryPriceLong := row.close
            trades := s.trades ++
              [dcaEntryRec Color.green barIdx row.close 1 config.dcaTranches.length]
            consecutiveGreen := 0 }
        else
          { s with
            openLong := some p
            longRemaining := 1
            longPeakProfit := 0
            consecutiveGreen := 0 }
    else s
  else s

/-- Open a new short (lines 1691–1739). -/
def openShortPhase (config : Config) (barIdx : ℕ) (row : Bar)
    (cr : Color × Reason) (s : SimState) : SimState :=
  if s.openShort = none ∧ 0 < s.consecutiveRed then
    if config.confirmationBars = 0 ∨ config.confirmationBars ≤ s.consecutiveRed then
      if config.confirmationBars = 0 ∧
         ¬(cr.1 = Color.red ∧ cr.2 = Reason.emaCrossDown) then s
      else
        let entryReason :=
          if 0 < config.confirmationBars then Reason.emaCrossDownConfirmed else cr.2
        let p : Pos := ⟨barIdx, round2 row.close, Color.red, entryReason⟩
        if config.dcaEnabled then
          let firstFrac := match config.dcaTranches with
                           | [] => 1
                           | f :: _ => f
          { s with
            openShort := some p
            shortRemaining := firstFrac
            shortPeakProfit := 0
            dcaActiveShort := true
            dcaTrancheIdxShort := 1
            dcaLastFillBarShort := (barIdx : ℤ)
            dcaFirstEntryPriceShort := row.close
            trades := s.trades ++
              [dcaEntryRec Color.red barIdx row.close 1 config.dcaTranches.length]
            consecutiveRed := 0 }
        else
          { s with
            openShort := some p
            shortRemaining := 1
            shortPeakProfit := 0
            consecutiveRed := 0 }
    else s
  else s

/-- DCA long tranche fill (lines 1747–1780). -/
def dcaFillLongStep (config : Config) (barIdx : ℕ) (row : Bar)
    (s : SimState) : SimState :=
  match s.openLong with
  | some p =>
    if s.dcaActiveLong = true ∧ s.dcaTrancheIdxLong < config.dcaTranches.length ∧
       (config.dcaIntervalBars : ℤ) ≤ (barIdx : ℤ) - s.dcaLastFillBarLong then
      let adversePct := (s.dcaFirstEntryPriceLong - row.close) /
        s.dcaFirstEntryPriceLong * 100
      if row.ema21 < row.ema9 ∧ adversePct ≤ config.dcaMaxAdversePct then
        let trancheFrac := config.dcaTranches.getD s.dcaTrancheIdxLong 0
        let oldTotal := s.longRemaining * p.entryPrice
        let newTotal := oldTotal + trancheFrac * row.close
        let newRem := s.longRemaining + trancheFrac
        let newIdx := s.dcaTrancheIdxLong + 1
        { s with
          openLong := some { p with entryPrice := round2 (newTotal / newRem) }
          longRemaining := newRem
          dcaTrancheIdxLong := newIdx
          dcaLastFillBarLong := (barIdx : ℤ)
          trades := s.trades ++
            [dcaEntryRec Color.green barIdx row.close newIdx
               config.dcaTranches.length]
          dcaActiveLong := decide (newIdx < config.dcaTranches.length) }
      else if config.dcaMaxAdversePct < adversePct then
        { s with dcaActiveLong := false }
      else s
    else s
  | none => s

/-- DCA short tranche fill (lines 1782–1812). -/
def dcaFillShortStep (config : Config) (barIdx : ℕ) (row : Bar)
    (s : SimState) : SimState :=
  match s.openShort with
  | some p =>
    if s.dcaActiveShort = true ∧ s.dcaTrancheIdxShort < config.dcaTranches.length ∧
       (config.dcaIntervalBars : ℤ) ≤ (barIdx : ℤ) - s.dcaLastFillBarShort then
      let adversePct := (row.close - s.dcaFirstEntryPriceShort) /
        s.dcaFirstEntryPriceShort * 100
      if row.ema9 < row.ema21 ∧ adversePct ≤ config.dcaMaxAdversePct then
        let trancheFrac := config.dcaTranches.getD s.dcaTrancheIdxShort 0
        let oldTotal := s.shortRemaining * p.entryPrice
        let newTotal := oldTotal + trancheFrac * row.close
        let newRem := s.shortRemaining + trancheFrac
        let newIdx := s.dcaTrancheIdxShort + 1
        { s with
          openShort := some { p with entryPrice := round2 (newTotal / newRem) }
          shortRemaining := newRem
          dcaTrancheIdxShort := newIdx
          dcaLastFillBarShort := (barIdx : ℤ)
          trades := s.trades ++
            [dcaEntryRec Color.red barIdx row.close newIdx
               config.dcaTranches.length]
          dcaActiveShort := decide (newIdx < config.dcaTranches.length) }
      else if config.dcaMaxAdversePct < adversePct then
        { s with dcaActiveShort := false }
      else s
    else s
  | none => s

/-- V5 DCA tranche fills (lines 1741–1812). -/
def dcaFillPhase (config : Config) (barIdx : ℕ) (row : Bar)
    (trimmed : Bool) (s : SimState) : SimState :=
  if config.dcaEnabled ∧ trimmed = false then
    dcaFillShortStep config barIdx row (dcaFillLongStep config barIdx row s)
  else s

/-- Pullback re-entry for longs (lines 1821–1853). -/
def pullbackLongStep (config : Config) (barIdx : ℕ) (row : Bar)
    (s : SimState) : SimState :=
  match s.openLong with
  | some p =>
    if s.dcaActiveLong = false ∧ s.pullbackAddsLong < config.pullbackMaxAdds then
      let profitPct := (row.close - p.entryPrice) / p.entryPrice * 100
      let ema9DistancePct := |row.close - row.ema9| / row.ema9 * 100
      if config.pullbackMinProfitPct ≤ profitPct ∧
         ema9DistancePct ≤ config.pullbackEmaBufferPct ∧
         row.ema21 < row.ema9 then
        { s with
          reentryPiecesLong := s.reentryPiecesLong ++
            [⟨barIdx, round2 row.close, config.pullbackAddFrac⟩]
          pullbackAddsLong := s.pullbackAddsLong + 1
          trades := s.trades ++
            [⟨TDir.reentry, barIdx, round2 row.close, Color.green,
              Reason.pullbackReentry, none, some (round2 row.close), none,
              none, 0, 0, 0, 0, 100, TStatus.stillOpen⟩] }
      else s
    else s
  | none => s

/-- Pullback re-entry for shorts (lines 1855–1887), gated by the
per-direction toggle. -/
def pullbackShortStep (config : Config) (barIdx : ℕ) (row : Bar)
    (s : SimState) : SimState :=
  if (config.pullbackReentryShort.getD config.pullbackReentry) = true then
    match s.openShort with
    | some p =>
      if s.dcaActiveShort = false ∧
         s.pullbackAddsShort < config.pullbackMaxAdds then
        let profitPct := (p.entryPrice - row.close) / p.entryPrice * 100
        let ema9DistancePct := |row.close - row.ema9| / row.ema9 * 100
        if config.pullbackMinProfitPct ≤ profitPct ∧
           ema9DistancePct ≤ config.pullbackEmaBufferPct ∧
           row.ema9 < row.ema21 then
          { s with
            reentryPiecesShort := s.reentryPiecesShort ++
              [⟨barIdx, round2 row.close, config.pullbackAddFrac⟩]
            pullbackAddsShort := s.pullbackAddsShort + 1
            trades := s.trades ++
              [⟨TDir.reentry, barIdx, round2 row.close, Color.red,
                Reason.pullbackReentry, none, some (round2 row.close), none,
                none, 0, 0, 0, 0, 100, TStatus.stillOpen⟩] }
        else s
      else s
    | none => s
  else s

/-- V5 pullback re-entry (lines 1814–1887): add child pieces to a winner
near EMA-9 support. -/
def pullbackPhase (config : Config) (barIdx : ℕ) (row : Bar)
    (trimmed : Bool) (s : SimState) : SimState :=
  if config.pullbackReentry ∧ trimmed = false then
    pullbackShortStep config barIdx row (pullbackLongStep config barIdx row s)
  else s

/-- A complementary-track close record (lines 1910–1920 etc.). -/
def bbCloseRec (d : TDir) (p : Pos) (barIdx : ℕ) (price pnlPct pnlUsd : ℚ)
    (reason : Reason) : Trade :=
  ⟨d, p.entryBar, p.entryPrice, p.entryColor, p.entryReason, some barIdx,
   some (round2 price), some Color.grey, some reason, pnlPct, pnlUsd, 0, 0,
   100, TStatus.closed⟩

/-- BB long close check (lines 1901–1924). -/
def bbCloseLongStep (config : Config) (positionSize : ℚ) (barIdx : ℕ)
    (row : Bar) (s : SimState) : SimState :=
  match s.bbOpenLong with
  | some p =>
    let bars := s.bbLongBars + 1
    let pnlPct := round2 ((row.close - p.entryPrice) / p.entryPrice * 100)
    let stopped := pnlPct ≤ -config.rsiBbStopPct
    if config.rsiBbHoldDays ≤ bars ∨ 50 < row.rsi14 ∨ stopped then
      let pnlUsd := round2 (1/2 * pnlPct / 100 * positionSize)
      let reason :=
        if stopped then Reason.bbStop
        else if config.rsiBbHoldDays ≤ bars then Reason.bbExpiry
        else Reason.bbTarget
      { s with
        trades := s.trades ++
          [bbCloseRec TDir.bbLong p barIdx row.close pnlPct pnlUsd reason]
        bbOpenLong := none
        bbLongCooldownUntil :=
          if stopped ∧ 0 < config.rsiBbCooldownDays then
            (barIdx : ℤ) + config.rsiBbCooldownDays
          else s.bbLongCooldownUntil
        bbLongBars := 0 }
    else { s with bbLongBars := bars }
  | none => s

/-- BB short close check (lines 1926–1948). -/
def bbCloseShortStep (config : Config) (positionSize : ℚ) (barIdx : ℕ)
    (row : Bar) (s : SimState) : SimState :=
  match s.bbOpenShort with
  | some p =>
    let bars := s.bbShortBars + 1
    let pnlPct := round2 ((p.entryPrice - row.close) / p.entryPrice * 100)
    let stopped := pnlPct ≤ -config.rsiBbStopPct
    if config.rsiBbHoldDays ≤ bars ∨ row.rsi14 < 50 ∨ stopped then
      let pnlUsd := round2 (1/2 * pnlPct / 100 * positionSize)
      let reason :=
        if stopped then Reason.bbStop
        else if config.rsiBbHoldDays ≤ bars then Reason.bbExpiry
        else Reason.bbTarget
      { s with
        trades := s.trades ++
          [bbCloseRec TDir.bbShort p barIdx row.close pnlPct pnlUsd reason]
        bbOpenShort := none
        bbShortCooldownUntil :=
          if stopped ∧ 0 < config.rsiBbCooldownDays then
            (barIdx : ℤ) + config.rsiBbCooldownDays
          else s.bbShortCooldownUntil
        bbShortBars := 0 }
    else { s with bbShortBars := bars }
  | none => s

/-- BB long entry (lines 1950–1967): band extreme, empty BB slot, empty
primary long slot, trend filter, cooldown elapsed. -/
def bbOpenLongStep (config : Config) (barIdx : ℕ) (row : Bar)
    (s : SimState) : SimState :=
  let bbLongOk := config.rsiBbTrendFilter = false ∨
    (match row.sma50 with
     | some sma => decide (sma < row.close)
     | none => false) = true
  if row.rsiBelowBb = true ∧ s.bbOpenLong = none ∧ s.openLong = none ∧
     bbLongOk ∧ s.bbLongCooldownUntil < (barIdx : ℤ) then
    { s with
      bbOpenLong := some ⟨barIdx, round2 row.close, Color.green,
        Reason.rsiBbLower⟩
      bbLongBars := 0 }
  else s

/-- BB short entry (lines 1969–1980). -/
def bbOpenShortStep (config : Config) (barIdx : ℕ) (row : Bar)
    (s : SimState) : SimState :=
  let bbShortOk := config.rsiBbTrendFilter = false ∨
    (match row.sma50 with
     | some sma => decide (row.close < sma)
     | none => false) = true
  if row.rsiAboveBb = true ∧ s.bbOpenShort = none ∧ s.openShort = none ∧
     bbShortOk ∧ s.bbShortCooldownUntil < (barIdx : ℤ) then
    { s with
      bbOpenShort := some ⟨barIdx, round2 row.close, Color.red,
        Reason.rsiBbUpper⟩
      bbShortBars := 0 }
  else s

/-- RSI Bollinger-band complementary track (lines 1889–1980): close the
open BB positions on expiry / midline reversion / stop, then open new
ones on band extremes. -/
def bbPhase (config : Config) (positionSize : ℚ) (barIdx : ℕ) (row : Bar)
    (s : SimState) : SimState :=
  if config.rsiBbComplementary then
    bbOpenShortStep config barIdx row
      (bbOpenLongStep config barIdx row
        (bbCloseShortStep config positionSize barIdx row
          (bbCloseLongStep config positionSize barIdx row s)))
  else s

/-- BB2 long close check (lines 1989–2012). -/
def bb2CloseLongStep (config : Config) (positionSize : ℚ) (barIdx : ℕ)
    (row : Bar) (s : SimState) : SimState :=
  match s.bb2OpenLong with
  | some p =>
    let bars := s.bb2LongBars + 1
    let pnlPct := round2 ((row.close - p.entryPrice) / p.entryPrice * 100)
    let stopped := pnlPct ≤ -config.bbImprovedStopPct
    if config.bbImprovedHoldDays ≤ bars ∨ 50 < row.rsi14 ∨ stopped then
      let pnlUsd := round2 (config.bbImprovedPositionMult * pnlPct / 100 * positionSize)
      let reason :=
        if stopped then Reason.bb2Stop
        else if config.bbImprovedHoldDays ≤ bars then Reason.bb2Expiry
        else Reason.bb2Target
      { s with
        trades := s.trades ++
          [bbCloseRec TDir.bb2Long p barIdx row.close pnlPct pnlUsd reason]
        bb2OpenLong := none
        bb2LongCooldownUntil :=
          if stopped ∧ 0 < config.bbImprovedCooldownDays then
            (barIdx : ℤ) + config.bbImprovedCooldownDays
          else s.bb2LongCooldownUntil
        bb2LongBars := 0 }
    else { s with bb2LongBars := bars }
  | none => s

/-- BB2 short close check (lines 2014–2036). -/
def bb2CloseShortStep (config : Config) (positionSize : ℚ) (barIdx : ℕ)
    (row : Bar) (s : SimState) : SimState :=
  match s.bb2OpenShort with
  | some p =>
    let bars := s.bb2ShortBars + 1
    let pnlPct := round2 ((p.entryPrice - row.close) / p.entryPrice * 100)
    let stopped := pnlPct ≤ -config.bbImprovedStopPct
    if config.bbImprovedHoldDays ≤ bars ∨ row.rsi14 < 50 ∨ stopped then
      let pnlUsd := round2 (config.bbImprovedPositionMult * pnlPct / 100 * positionSize)
      let reason :=
        if stopped then Reason.bb2Stop
        else if config.bbImprovedHoldDays ≤ bars then Reason.bb2Expiry
        else Reason.bb2Target
      { s with
        trades := s.trades ++
          [bbCloseRec TDir.bb2Short p barIdx row.close pnlPct pnlUsd reason]
        bb2OpenShort := none
        bb2ShortCooldownUntil :=
          if stopped ∧ 0 < config.bbImprovedCooldownDays then
            (barIdx : ℤ) + config.bbImprovedCooldownDays
          else s.bb2ShortCooldownUntil
        bb2ShortBars := 0 }
    else { s with bb2ShortBars := bars }
  | none => s

/-- BB2 long entry (lines 2038–2053): trend filter is always on. -/
def bb2OpenLongStep (config : Config) (barIdx : ℕ) (row : Bar)
    (s : SimState) : SimState :=
  let bb2LongOk := (match row.sma50 with
     | some sma => decide (sma < row.close)
     | none => false) = true
  if row.rsiBelowBb2 = true ∧ s.bb2OpenLong = none ∧ s.openLong = none ∧
     bb2LongOk ∧ s.bb2LongCooldownUntil < (barIdx : ℤ) then
    { s with
      bb2OpenLong := some ⟨barIdx, round2 row.close, Color.green,
        Reason.rsiBb2Lower⟩
      bb2LongBars := 0 }
  else s

/-- BB2 short entry (lines 2055–2066). -/
def bb2OpenShortStep (config : Config) (barIdx : ℕ) (row : Bar)
    (s : SimState) : SimState :=
  let bb2ShortOk := (match row.sma50 with
     | some sma => decide (row.close < sma)
     | none => false) = true
  if row.rsiAboveBb2 = true ∧ s.bb2OpenShort = none ∧ s.openShort = none ∧
     bb2ShortOk ∧ s.bb2ShortCooldownUntil < (barIdx : ℤ) then
    { s with
      bb2OpenShort := some ⟨barIdx, round2 row.close, Color.red,
        Reason.rsiBb2Upper⟩
      bb2ShortBars := 0 }
  else s

/-- V5 improved BB track, BB2 (lines 1982–2066): tighter bands, its own
hold/stop/cooldown; trend filter always on. -/
def bb2Phase (config : Config) (positionSize : ℚ) (barIdx : ℕ) (row : Bar)
    (s : SimState) : SimState :=
  if config.bbImproved then
    bb2OpenShortStep config barIdx row
      (bb2OpenLongStep config barIdx row
        (bb2CloseShortStep config positionSize barIdx row
          (bb2CloseLongStep config positionSize barIdx row s)))
  else s

/-- One bar of the walk: the loop body (lines 1190–2066) in the source's
block order. -/
def simStep (config : Config) (positionSize : ℚ) (isBtc hasBtcDf : Bool)
    (s : SimState) (ib : ℕ × Bar) : SimState :=
  let barIdx := ib.1
  let row := ib.2
  match btcCrashPhase config isBtc hasBtcDf positionSize barIdx row s with
  | some skipped => skipped
  | none =>
    let cr0 := evalColorReason config barIdx row s
    let (sA, cr1) := trailingShortPhase config row s cr0
    let (sB, cr) := trailingLongPhase config row sA cr1
    let (sC, trimmed) := ladderPhase config positionSize barIdx row sB
    let sD := yellowLongPhase config positionSize barIdx row trimmed sC
    let sE := yellowShortPhase config positionSize barIdx row trimmed sD
    let sF := velocityPhase config positionSize barIdx row trimmed sE
    let sG := closeLongPhase positionSize barIdx row cr sF
    let sH := closeShortPhase positionSize barIdx row cr sG
    let sI := confirmPhase row cr sH
    let sJ := openLongPhase config barIdx row cr sI
    let sK := openShortPhase config barIdx row cr sJ
    let sL := dcaFillPhase config barIdx row trimmed sK
    let sM := pullbackPhase config barIdx row trimmed sL
    let sN := bbPhase config positionSize barIdx row sM
    bb2Phase config positionSize barIdx row sN

/-- Mark still-open positions at the end of the backtest
(lines 2068–2190): open-status records for the primary slots, the BB/BB2
slots and the re-entry pieces, at the last bar's close. -/
def endFlush (config : Config) (positionSize : ℚ) (lastRow : Bar)
    (s : SimState) : List Trade :=
  let t1 : List Trade :=
    match s.openLong with
    | some p =>
      let pnlPct := round2 ((lastRow.close - p.entryPrice) / p.entryPrice * 100)
      [⟨TDir.long, p.entryBar, p.entryPrice, p.entryColor, p.entryReason,
        none, some (round2 lastRow.close), none, none, pnlPct,
        round2 (s.longRemaining * pnlPct / 100 * positionSize), 0, 0,
        round1 (s.longRemaining * 100), TStatus.stillOpen⟩]
    | none => []
  let t2 : List Trade :=
    match s.openShort with
    | some p =>
      let pnlPct := round2 ((p.entryPrice - lastRow.close) / p.entryPrice * 100)
      [⟨TDir.short, p.entryBar, p.entryPrice, p.entryColor, p.entryReason,
        none, some (round2 lastRow.close), none, none, pnlPct,
        round2 (s.shortRemaining * pnlPct / 100 * positionSize), 0, 0,
        round1 (s.shortRemaining * 100), TStatus.stillOpen⟩]
    | none => []
  let t3 : List Trade :=
    match s.bbOpenLong with
    | some p =>
      let pnlPct := round2 ((lastRow.close - p.entryPrice) / p.entryPrice * 100)
      [⟨TDir.bbLong, p.entryBar, p.entryPrice, p.entryColor, p.entryReason,
        none, some (round2 lastRow.close), none, none, pnlPct,
        round2 (1/2 * pnlPct / 100 * positionSize), 0, 0, 100,
        TStatus.stillOpen⟩]
    | none => []
  let t4 : List Trade :=
    match s.bbOpenShort with
    | some p =>
      let pnlPct := round2 ((p.entryPrice - lastRow.close) / p.entryPrice * 100)
      [⟨TDir.bbShort, p.entryBar, p.entryPrice, p.entryColor, p.entryReason,
        none, some (round2 lastRow.close), none, none, pnlPct,
        round2 (1/2 * pnlPct / 100 * positionSize), 0, 0, 100,
        TStatus.stillOpen⟩]
    | none => []
  let t5 : List Trade :=
    match s.bb2OpenLong with
    | some p =>
      let pnlPct := round2 ((lastRow.close - p.entryPrice) / p.entryPrice * 100)
      [⟨TDir.bb2Long, p.entryBar, p.entryPrice, p.entryColor, p.entryReason,
        none, some (round2 lastRow.close), none, none, pnlPct,
        round2 (config.bbImprovedPositionMult * pnlPct / 100 * positionSize),
        0, 0, 100, TStatus.stillOpen⟩]
    | none => []
  let t6 : List Trade :=
    match s.bb2OpenShort with
    | some p =>
      let pnlPct := round2 ((p.entryPrice - lastRow.close) / p.entryPrice * 100)
      [⟨TDir.bb2Short, p.entryBar, p.entryPrice, p.entryColor, p.entryReason,
        none, some (round2 lastRow.close), none, none, pnlPct,
        round2 (config.bbImprovedPositionMult * pnlPct / 100 * positionSize),
        0, 0, 100, TStatus.stillOpen⟩]
    | none => []
  let t7 : List Trade := s.reentryPiecesLong.map (fun piece =>
    let pnlPct := round2 ((lastRow.close - piece.entryPrice) / piece.entryPrice * 100)
    ⟨TDir.reentry, piece.entryBar, piece.entryPrice, Color.green,
     Reason.pullbackReentry, none, some (round2 lastRow.close), none, none,
     pnlPct, round2 (piece.frac * pnlPct / 100 * positionSize), 0, 0, 100,
     TStatus.stillOpen⟩)
  let t8 : List Trade := s.reentryPiecesShort.map (fun piece =>
    let pnlPct := round2 ((piece.entryPrice - lastRow.close) / piece.entryPrice * 100)
    ⟨TDir.reentry, piece.entryBar, piece.entryPrice, Color.red,
     Reason.pullbackReentry, none, some (round2 lastRow.close), none, none,
     pnlPct, round2 (piece.frac * pnlPct / 100 * positionSize), 0, 0, 100,
     TStatus.stillOpen⟩)
  s.trades ++ t1 ++ t2 ++ t3 ++ t4 ++ t5 ++ t6 ++ t7 ++ t8

/-- `simulate_trades` (lines 1052–2192).  On an empty frame the source
would raise on `df.iloc[-1]`; the embedding returns the (empty) ledger. -/
def simulateTrades (df : List Bar) (positionSize : ℚ) (config : Config)
    (isBtc hasBtcDf : Bool) : List Trade :=
  let fin := df.enum.foldl (simStep config positionSize isBtc hasBtcDf) initState
  match df.getLast? with
  | some lastRow => endFlush config positionSize lastRow fin
  | none => fin.trades

/-- All intermediate states of the walk (for the "at any point of the
bar walk" invariants). -/
def simStates (df : List Bar) (positionSize : ℚ) (config : Config)
    (isBtc hasBtcDf : Bool) : List SimState :=
  df.enum.scanl (simStep config positionSize isBtc hasBtcDf) initState


/-- The per-record liquidation-accounting property of claim C2 (amended):
the record is flagged liquidated exactly when leveraged P&L times the
remaining fraction is at or below −100; a liquidated record's realized
loss is exactly the deployed position size; a non-liquidated record's
base realized P&L (excluding trim P&L) is bounded below by minus the
deployed size; deployed capital is never negative. -/
def LevTradeOk (r : LevTrade) : Prop :=
  (r.liquidated = true ↔ r.base.pnlPct * r.leverage * (r.base.remainingPct / 100) ≤ -100) ∧
  (r.liquidated = true → r.pnlUsdLeveraged = -r.positionSize) ∧
  (r.liquidated = false →
    -r.positionSize ≤
      round2 ((r.base.remainingPct / 100) * (r.base.pnlPct * r.leverage) / 100 * r.positionSize)) ∧
  0 ≤ r.capitalBefore ∧ r.positionSize = r.capitalBefore

/-- Walk invariant: capital is nonnegative, on the cent grid, and all
emitted records satisfy the liquidation-accounting property. -/
def LevInv (s : LevState) : Prop :=
  0 ≤ s.capital ∧ (∃ n : ℤ, s.capital = (n : ℚ) / 100) ∧
  ∀ r ∈ s.resultTrades, LevTradeOk r

/-- The long trade of the C2 counterexample: closed at −99% with full
remaining fraction (just above liquidation at 1× leverage). -/
def c2Long : Trade :=
  ⟨TDir.long, 0, 100, Color.green, Reason.emaCrossUp, some 9, some 1,
   some Color.red, some Reason.emaCrossDown, -99, -990, 0, 0, 100,
   TStatus.closed⟩

/-- A trim of the same position realized at a −30% loss (as a velocity
or yellow trim under water produces). -/
def c2Trim : Trade :=
  ⟨TDir.trim, 0, 100, Color.green, Reason.emaCrossUp, some 5, some 70,
   some Color.yellow, some Reason.takeProfit, -30, -150, 50, 0.5, 100,
   TStatus.closed⟩

/-- The concrete both-slots-occupied state for the C10 witness. -/
def c10State : SimState :=
  { initState with
      openLong := some ⟨0, 100, Color.green, Reason.emaCrossUp⟩
      openShort := some ⟨0, 100, Color.red, Reason.emaCrossDown⟩ }

/-- Config for the C8 run: the Enhanced-v3 variant with every optional
track and filter disabled, so a single crossover bar opens a plain long. -/
def c8Config : Config :=
  { improvedConfig with
      volumeConfirm := false
      atrStopLoss := false
      btcCrashFilter := false
      rsiBbComplementary := false }

/-- A bullish-crossover bar for the C8 run. -/
def c8Bar : Bar := { plainBar with emaCrossedUp := true }

/-- Claim C5's record property: a record of the long side (a primary
long, or a long-side re-entry piece) never carries the trailing-stop
exit reason. -/
def NoLongTrailing (t : Trade) : Prop :=
  (t.dir = TDir.long ∨ (t.dir = TDir.reentry ∧ t.entryColor = Color.green)) →
  t.exitReason ≠ some Reason.trailingStop

/-- Claim C5's walk invariant: all long-side records are trailing-free
and a closed direction's peak-profit marker is reset to zero. -/
def TrailInv (s : SimState) : Prop :=
  (∀ t ∈ s.trades, NoLongTrailing t) ∧
  (s.openLong = none → s.longPeakProfit = 0) ∧
  (s.openShort = none → s.shortPeakProfit = 0)

/-- Claim C9's per-side cooldown invariant over the record list, the
open BB slot and the cooldown marker of one direction `d`, with `n` a
strict upper bound on every bar index seen so far. -/
def C9Side (c : ℤ) (n : ℕ) (d : TDir) (trades : List Trade)
    (openP : Option Pos) (cool : ℤ) : Prop :=
  (∀ t ∈ trades, t.dir = d →
     t.entryBar < n ∧
     ∀ e, t.exitBar = some e → t.exitReason = some Reason.bbStop →
       (e : ℤ) + c ≤ cool ∧ e < n) ∧
  (∀ p, openP = some p → p.entryBar < n ∧ cool < (p.entryBar : ℤ)) ∧
  (∀ t1 ∈ trades, ∀ t2 ∈ trades, t1.dir = d → t2.dir = d →
     ∀ e, t1.exitBar = some e → t1.exitReason = some Reason.bbStop →
       (t2.entryBar : ℤ) ≤ (e : ℤ) ∨ (e : ℤ) + c < (t2.entryBar : ℤ))

/-- Claim C9's walk invariant: the cooldown invariant of both BB
directions. -/
def C9Inv (c : ℤ) (n : ℕ) (s : SimState) : Prop :=
  C9Side c n TDir.bbLong s.trades s.bbOpenLong s.bbLongCooldownUntil ∧
  C9Side c n TDir.bbShort s.trades s.bbOpenShort s.bbShortCooldownUntil

/-- Frame property for C9: a phase only appends non-BB records and
leaves the BB slots and cooldown markers untouched. -/
def BbFrame (s s' : SimState) : Prop :=
  (∃ new, s'.trades = s.trades ++ new ∧
     ∀ t ∈ new, t.dir ≠ TDir.bbLong ∧ t.dir ≠ TDir.bbShort) ∧
  s'.bbOpenLong = s.bbOpenLong ∧
  s'.bbLongCooldownUntil = s.bbLongCooldownUntil ∧
  s'.bbOpenShort = s.bbOpenShort ∧
  s'.bbShortCooldownUntil = s.bbShortCooldownUntil

/-- Claim C3: sum of the exact trimmed fractions carried by the trim
records keyed by a primary position's entry colour and entry bar. -/
def trimSum : List Trade → Color → ℕ → ℚ
  | [], _, _ => 0
  | t :: ts, c, b =>
    (if t.dir = TDir.trim ∧ t.entryColor = c ∧ t.entryBar = b
     then t.trimFrac else 0) + trimSum ts c b

/-- Fractions still to be deployed by pending DCA tranches on the long
side. -/
def futureL (cfg : Config) (s : SimState) : ℚ :=
  if s.dcaActiveLong = true then
    (cfg.dcaTranches.drop s.dcaTrancheIdxLong).sum
  else 0

/-- Fractions still to be deployed by pending DCA tranches on the short
side. -/
def futureS (cfg : Config) (s : SimState) : ℚ :=
  if s.dcaActiveShort = true then
    (cfg.dcaTranches.drop s.dcaTrancheIdxShort).sum
  else 0

/-- Claim C3's configuration sanity bounds: the yellow/orange trim
percentages are fractions at most 99%, and the DCA tranche fractions
are nonnegative and sum to at most the full position. -/
def TrimCfg (cfg : Config) : Prop :=
  0 ≤ cfg.trimPctYellow ∧ cfg.trimPctYellow ≤ 99/100 ∧
  0 ≤ cfg.trimPctOrange ∧ cfg.trimPctOrange ≤ 99/100 ∧
  (∀ q ∈ cfg.dcaTranches, 0 ≤ q) ∧ cfg.dcaTranches.sum ≤ 1

/-- Claim C3's walk invariant: remaining fractions are nonnegative, trim
records are fresh (entry bar strictly below `nT`), open positions are
fresh (entry bar strictly below `nP`), every key's trim sum is at most
1, and an open position's trims + remaining + pending DCA budget is at
most 1. -/
def TrimInv (cfg : Config) (nT nP : ℕ) (s : SimState) : Prop :=
  0 ≤ s.longRemaining ∧ 0 ≤ s.shortRemaining ∧
  (∀ t ∈ s.trades, t.dir = TDir.trim → t.entryBar < nT) ∧
  (∀ c b, trimSum s.trades c b ≤ 1) ∧
  (∀ p, s.openLong = some p → p.entryBar < nP ∧
     trimSum s.trades Color.green p.entryBar + s.longRemaining +
       futureL cfg s ≤ 1) ∧
  (∀ p, s.openShort = some p → p.entryBar < nP ∧
     trimSum s.trades Color.red p.entryBar + s.shortRemaining +
       futureS cfg s ≤ 1) ∧
  (cfg.dcaEnabled = false →
     s.dcaActiveLong = false ∧ s.dcaActiveShort = false)

/-- Frame property for C3: a phase only appends non-trim records and
leaves the slots, remaining fractions and DCA bookkeeping untouched. -/
def TrimFrame (s s' : SimState) : Prop :=
  (∃ new, s'.trades = s.trades ++ new ∧ ∀ t ∈ new, t.dir ≠ TDir.trim) ∧
  s'.openLong = s.openLong ∧ s'.openShort = s.openShort ∧
  s'.longRemaining = s.longRemaining ∧
  s'.shortRemaining = s.shortRemaining ∧
  s'.dcaActiveLong = s.dcaActiveLong ∧
  s'.dcaActiveShort = s.dcaActiveShort ∧
  s'.dcaTrancheIdxLong = s.dcaTrancheIdxLong ∧
  s'.dcaTrancheIdxShort = s.dcaTrancheIdxShort

/-- Frame property for C3 of a long-side close: the long slot empties,
the remaining fraction resets to 1, only non-trim records are appended
and the short-side bookkeeping is untouched. -/
def CloseLFrame (s s' : SimState) : Prop :=
  (∃ new, s'.trades = s.trades ++ new ∧ ∀ t ∈ new, t.dir ≠ TDir.trim) ∧
  s'.openLong = none ∧ s'.openShort = s.openShort ∧
  s'.longRemaining = 1 ∧ s'.shortRemaining = s.shortRemaining ∧
  (s'.dcaActiveLong = s.dcaActiveLong ∨ s'.dcaActiveLong = false) ∧
  s'.dcaActiveShort = s.dcaActiveShort ∧
  s'.dcaTrancheIdxShort = s.dcaTrancheIdxShort

/-- Frame property for C3 of a short-side close. -/
def CloseSFrame (s s' : SimState) : Prop :=
  (∃ new, s'.trades = s.trades ++ new ∧ ∀ t ∈ new, t.dir ≠ TDir.trim) ∧
  s'.openShort = none ∧ s'.openLong = s.openLong ∧
  s'.shortRemaining = 1 ∧ s'.longRemaining = s.longRemaining ∧
  (s'.dcaActiveShort = s.dcaActiveShort ∨ s'.dcaActiveShort = false) ∧
  s'.dcaActiveLong = s.dcaActiveLong ∧
  s'.dcaTrancheIdxLong = s.dcaTrancheIdxLong

/-! # THEOREMS -/

/-! ## Rounding bounds -/

theorem roundHalfEven_le (q : ℚ) : (roundHalfEven q : ℚ) ≤ q + 1/2 := by
  unfold roundHalfEven
  have h0 := Int.sub_one_lt_floor q
  have h1 := Int.floor_le q
  dsimp only
  split
  · linarith
  · split
    · push_cast; linarith
    · split
      · linarith
      · push_cast; linarith

theorem le_roundHalfEven (q : ℚ) : q - 1/2 ≤ (roundHalfEven q : ℚ) := by
  unfold roundHalfEven
  have h1 := Int.floor_le q
  have h2 := Int.lt_floor_add_one q
  dsimp only
  split
  · next h => linarith
  · split
    · push_cast; push_cast at h2; linarith
    · split
      · linarith
      · push_cast; push_cast at h2; linarith

theorem round4_le (q : ℚ) : round4 q ≤ q + 1/20000 := by
  unfold round4 pyRound
  have h := roundHalfEven_le (q * 10 ^ 4)
  rw [div_le_iff₀ (by norm_num : (0:ℚ) < 10 ^ 4)]
  linarith

theorem le_round4 (q : ℚ) : q - 1/20000 ≤ round4 q := by
  unfold round4 pyRound
  have h := le_roundHalfEven (q * 10 ^ 4)
  rw [le_div_iff₀ (by norm_num : (0:ℚ) < 10 ^ 4)]
  linarith

theorem roundHalfEven_nonneg {q : ℚ} (h : 0 ≤ q) : 0 ≤ (roundHalfEven q : ℚ) := by
  unfold roundHalfEven
  have h0 : (0:ℤ) ≤ ⌊q⌋ := Int.floor_nonneg.mpr h
  dsimp only
  split
  · exact_mod_cast h0
  · split
    · push_cast; exact_mod_cast by linarith
    · split
      · exact_mod_cast h0
      · push_cast; exact_mod_cast by linarith

theorem round4_nonneg {q : ℚ} (h : 0 ≤ q) : 0 ≤ round4 q := by
  unfold round4 pyRound
  have := roundHalfEven_nonneg (q := q * 10 ^ 4) (by positivity)
  positivity

/-- `roundHalfEven` fixes integers. -/
theorem roundHalfEven_intCast (n : ℤ) : roundHalfEven (n : ℚ) = n := by
  unfold roundHalfEven
  simp [Int.floor_intCast]

theorem round2_le (q : ℚ) : round2 q ≤ q + 1/200 := by
  unfold round2 pyRound
  have h := roundHalfEven_le (q * 10 ^ 2)
  rw [div_le_iff₀ (by norm_num : (0:ℚ) < 10 ^ 2)]
  linarith

theorem le_round2 (q : ℚ) : q - 1/200 ≤ round2 q := by
  unfold round2 pyRound
  have h := le_roundHalfEven (q * 10 ^ 2)
  rw [le_div_iff₀ (by norm_num : (0:ℚ) < 10 ^ 2)]
  linarith

theorem round2_nonneg {q : ℚ} (h : 0 ≤ q) : 0 ≤ round2 q := by
  unfold round2 pyRound
  have := roundHalfEven_nonneg (q := q * 10 ^ 2) (by positivity)
  positivity

/-- `round2` is the identity on the cent grid. -/
theorem round2_grid (n : ℤ) : round2 ((n : ℚ) / 100) = (n : ℚ) / 100 := by
  unfold round2 pyRound
  have h : ((n : ℚ) / 100) * 10 ^ 2 = (n : ℚ) := by
    rw [show ((10:ℚ) ^ 2) = 100 by norm_num]
    field_simp
  rw [h, roundHalfEven_intCast]
  rw [show ((10:ℚ) ^ 2) = 100 by norm_num]

/-- Every `round2` value lies on the cent grid. -/
theorem round2_mem_grid (q : ℚ) : ∃ n : ℤ, round2 q = (n : ℚ) / 100 := by
  exact ⟨roundHalfEven (q * 10 ^ 2), by unfold round2 pyRound; norm_num⟩

/-- A cent-grid lower bound survives `round2`. -/
theorem round2_ge_grid {g q : ℚ} (hg : ∃ k : ℤ, g = (k : ℚ) / 100)
    (h : g ≤ q) : g ≤ round2 q := by
  obtain ⟨k, hk⟩ := hg
  obtain ⟨m, hm⟩ := round2_mem_grid q
  have h1 : q - 1/200 ≤ round2 q := le_round2 q
  have h2 : (k : ℚ) / 100 - 1/200 ≤ (m : ℚ) / 100 := by
    rw [← hm]
    rw [hk] at h
    linarith
  have h3 : (2 * (k:ℚ)) - 1 ≤ 2 * (m:ℚ) := by
    have := mul_le_mul_of_nonneg_left h2 (by norm_num : (0:ℚ) ≤ 200)
    ring_nf at this ⊢
    linarith
  have h4 : k ≤ m := by
    have hz : (2*k - 1 : ℤ) ≤ 2*m := by exact_mod_cast h3
    omega
  rw [hk, hm]
  have : (k:ℚ) ≤ (m:ℚ) := by exact_mod_cast h4
  linarith

/-! ## C4: override checks beat opposing entry crossovers -/

/-- C4. For a bar that satisfies an open position's stop condition (fixed
or dynamic) while the opposing entry crossover flag is set on the same
bar, `evaluate_signal` returns the stop's exit reason, not the crossover
entry reason: the override blocks run before entry evaluation.  Four
cases: long/short position × dynamic/fixed stop. -/
theorem stop_overrides_beat_opposing_cross
    (row : Bar) (config : Config) (ot : OpenTrade) (barIndex : ℕ)
    (hgrace : (config.gracePeriodDays : ℤ) ≤ (barIndex : ℤ) - (ot.entryBarIndex : ℤ)) :
    (ot.dir = PrimDir.long → row.emaCrossedDown = true →
      (∀ atr, config.atrStopLoss = true → row.atrPct = some atr →
        config.atrStopMultiplier * atr ≤ (ot.entryPrice - row.close) / ot.entryPrice * 100 →
        evaluateSignal row (some ot) config barIndex = (Color.red, Reason.atrStopLoss)) ∧
      ((config.atrStopLoss = false ∨ row.atrPct = none) →
        config.stopLossPct ≤ (ot.entryPrice - row.close) / ot.entryPrice * 100 →
        evaluateSignal row (some ot) config barIndex = (Color.red, Reason.fixedStopLoss))) ∧
    (ot.dir = PrimDir.short → row.emaCrossedUp = true →
      (∀ atr, config.atrStopLoss = true → row.atrPct = some atr →
        config.atrStopMultiplier * atr ≤ (row.close - ot.entryPrice) / ot.entryPrice * 100 →
        evaluateSignal row (some ot) config barIndex = (Color.green, Reason.atrStopLoss)) ∧
      ((config.atrStopLoss = false ∨ row.atrPct = none) →
        config.stopLossPct ≤ (row.close - ot.entryPrice) / ot.entryPrice * 100 →
        evaluateSignal row (some ot) config barIndex = (Color.green, Reason.fixedStopLoss))) := by
  constructor
  · intro hdir _
    constructor
    · intro atr hatr hatrp hdd
      unfold evaluateSignal longOverrideCheck
      simp [hdir, hatr, hatrp, if_pos hgrace, hdd]
    · intro hfix hdd
      unfold evaluateSignal longOverrideCheck
      rcases hfix with h | h
      · simp only [hdir, if_pos hgrace, h]
        simp [hdd]
      · simp only [hdir, if_pos hgrace, h]
        cases hb : config.atrStopLoss <;> simp [hdd]
  · intro hdir _
    have hnl : ot.dir ≠ PrimDir.long := by simp [hdir]
    constructor
    · intro atr hatr hatrp hdd
      unfold evaluateSignal longOverrideCheck shortOverrideCheck
      simp [hnl, hdir, hatr, hatrp, if_pos hgrace, hdd]
    · intro hfix hdd
      unfold evaluateSignal longOverrideCheck shortOverrideCheck
      rcases hfix with h | h
      · simp [hnl, hdir, h, if_pos hgrace, hdd]
      · simp only [hnl, hdir, h, if_pos hgrace]
        cases hb : config.atrStopLoss <;> simp [hnl, hdir, if_pos hgrace, h, hdd, hb]

/-- Witness for C4: a long open at 100, price 90 (10% drawdown ≥ the 8%
fixed stop with ATR undefined), bearish cross on the same bar. -/
theorem stop_overrides_beat_opposing_cross_witness :
    evaluateSignal
      { plainBar with close := 90, emaCrossedDown := true, atrPct := none }
      (some ⟨PrimDir.long, 100, 0⟩) improvedConfig 10
      = (Color.red, Reason.fixedStopLoss) := by
  have h := stop_overrides_beat_opposing_cross
    { plainBar with close := 90, emaCrossedDown := true, atrPct := none }
    improvedConfig ⟨PrimDir.long, 100, 0⟩ 10 (by decide)
  exact h.1 rfl rfl |>.2 (Or.inr rfl) (by norm_num [improvedConfig, plainBar])

/-! ## C6: undefined volume ratio and the volume gate -/

/-- Counterexample to C6.  A bullish-crossover bar whose `volume_ratio`
is undefined (NaN), with volume confirmation enabled and every other gate
passing: `evaluate_signal` skips the volume gate and returns the bullish
entry signal instead of degrading to neutral. -/
theorem undefined_volume_skips_gate_counterexample :
    improvedConfig.volumeConfirm = true ∧
    ({ plainBar with emaCrossedUp := true, volumeRel := none } : Bar).volumeRel = none ∧
    evaluateSignal { plainBar with emaCrossedUp := true, volumeRel := none }
      none improvedConfig 0
      = (Color.green, Reason.emaCrossUp) := by
  refine ⟨rfl, rfl, ?_⟩
  decide

/-- C6 amended: when the bar's volume-vs-average ratio is undefined, the
volume gate is skipped (treated as passed), so a crossover whose other
gates all pass still yields the entry signal; only a defined ratio below
the threshold degrades the signal to neutral. -/
theorem undefined_volume_skips_gate
    (row : Bar) (config : Config) (barIndex : ℕ)
    (hvr : row.volumeRel = none)
    (hcross : row.emaCrossedUp = true)
    (hadx : ¬ row.adx < config.adxThreshold)
    (hrsi : ¬ (row.rsi14 < config.rsiLongEntryMin ∨ config.rsiLongEntryMax < row.rsi14))
    (hsma : (match row.sma50 with
             | some s => decide (row.close < s)
             | none => false) = false)
    (hwhip : row.recentBearishCross = false) :
    evaluateSignal row none config barIndex = (Color.green, Reason.emaCrossUp) := by
  unfold evaluateSignal longOverrideCheck shortOverrideCheck greenEntryEval
  simp [hvr, hcross, hadx, hrsi, hsma, hwhip]

/-- Witness for the amended C6. -/
theorem undefined_volume_skips_gate_witness :
    evaluateSignal { plainBar with emaCrossedUp := true, volumeRel := none }
      none improvedConfig 3 = (Color.green, Reason.emaCrossUp) :=
  undefined_volume_skips_gate _ improvedConfig 3 rfl rfl
    (by norm_num [plainBar, improvedConfig])
    (by norm_num [plainBar, improvedConfig])
    (by norm_num [plainBar]) rfl

/-! ## C7: short-position override checks -/

/-- Counterexample to C7.  An open short past its grace period, stop-loss
not hit, price above the SMA-50 trend average (the wrong side for a
short) — yet `evaluate_signal` returns `no_change`: no trend-break
override exists for shorts. -/
theorem no_short_trend_break_counterexample :
    (improvedConfig.gracePeriodDays : ℤ) ≤ 10 - 0 ∧
    (match plainBar.sma50 with
     | some s => decide (s < plainBar.close)
     | none => false) = true ∧
    evaluateSignal plainBar (some ⟨PrimDir.short, 100, 0⟩) improvedConfig 10
      = (Color.grey, Reason.noChange) := by
  refine ⟨by decide, rfl, ?_⟩
  unfold evaluateSignal longOverrideCheck shortOverrideCheck
  norm_num [plainBar, improvedConfig]

/-- C7 amended: for an open short past the grace period the stop-loss
override applies with inverted comparisons (dynamic ATR stop if enabled
and defined, else the fixed stop), but no trend-break override is ever
evaluated for shorts — the evaluator never returns the trend-break
reason when the open position is a short. -/
theorem short_override_is_stop_only
    (row : Bar) (config : Config) (ot : OpenTrade) (barIndex : ℕ)
    (hdir : ot.dir = PrimDir.short) :
    ((config.gracePeriodDays : ℤ) ≤ (barIndex : ℤ) - (ot.entryBarIndex : ℤ) →
      (∀ atr, config.atrStopLoss = true → row.atrPct = some atr →
        config.atrStopMultiplier * atr ≤ (row.close - ot.entryPrice) / ot.entryPrice * 100 →
        evaluateSignal row (some ot) config barIndex = (Color.green, Reason.atrStopLoss)) ∧
      ((config.atrStopLoss = false ∨ row.atrPct = none) →
        config.stopLossPct ≤ (row.close - ot.entryPrice) / ot.entryPrice * 100 →
        evaluateSignal row (some ot) config barIndex = (Color.green, Reason.fixedStopLoss))) ∧
    (evaluateSignal row (some ot) config barIndex).2 ≠ Reason.trendBreak := by
  have hnl : ot.dir ≠ PrimDir.long := by simp [hdir]
  constructor
  · intro hgrace
    constructor
    · intro atr hatr hatrp hdd
      unfold evaluateSignal longOverrideCheck shortOverrideCheck
      simp [hnl, hdir, hatr, hatrp, if_pos hgrace, hdd]
    · intro hfix hdd
      unfold evaluateSignal longOverrideCheck shortOverrideCheck
      rcases hfix with h | h
      · simp [hnl, hdir, h, if_pos hgrace, hdd]
      · simp only [hnl, hdir, h, if_pos hgrace]
        cases hb : config.atrStopLoss <;>
          simp [hnl, hdir, if_pos hgrace, h, hdd, hb]
  · have hso : ∀ cr, shortOverrideCheck row (some ot) config barIndex = some cr →
        cr.2 = Reason.atrStopLoss ∨ cr.2 = Reason.fixedStopLoss := by
      intro cr
      unfold shortOverrideCheck
      simp only [hdir, if_true]
      split
      · split
        · split
          · intro h; left; rw [← Option.some_inj.mp h]
          · intro h; exact absurd h (by simp)
        · split
          · intro h; right; rw [← Option.some_inj.mp h]
          · intro h; exact absurd h (by simp)
      · intro h; exact absurd h (by simp)
    have hge : ∀ c, (greenEntryEval row config) = c → c.2 ≠ Reason.trendBreak := by
      intro c hc
      unfold greenEntryEval at hc
      subst hc
      split
      · simp
      · split
        · simp
        · split
          · simp
          · split
            · simp
            · split <;> simp
    have hre : ∀ c, (redEntryEval row config) = c → c.2 ≠ Reason.trendBreak := by
      intro c hc
      unfold redEntryEval at hc
      subst hc
      split
      · simp
      · split
        · simp
        · split
          · simp
          · split
            · simp
            · split <;> simp
    unfold evaluateSignal longOverrideCheck
    simp only [hnl, if_false]
    rcases hoc : shortOverrideCheck row (some ot) config barIndex with _ | cr
    · simp only
      split
      · exact hge _ rfl
      · split
        · exact hre _ rfl
        · simp
    · simp only
      rcases hso cr hoc with h | h <;> simp [h]

/-- Witness for the amended C7: short at 100, price 120 (20% adverse move
≥ the dynamic stop 2×3%), stop fires. -/
theorem short_override_is_stop_only_witness :
    evaluateSignal { plainBar with close := 120 }
      (some ⟨PrimDir.short, 100, 0⟩) improvedConfig 10
      = (Color.green, Reason.atrStopLoss) ∧
    (evaluateSignal { plainBar with close := 120 }
      (some ⟨PrimDir.short, 100, 0⟩) improvedConfig 10).2 ≠ Reason.trendBreak := by
  have h := short_override_is_stop_only { plainBar with close := 120 }
    improvedConfig ⟨PrimDir.short, 100, 0⟩ 10 rfl
  exact ⟨h.1 (by decide) |>.1 3 rfl rfl (by norm_num [improvedConfig, plainBar]), h.2⟩

/-! ## C1: the portfolio circuit breaker -/

/-- If no position is counted open on a date, the weighted total is 0. -/
theorem cbDateTotal_eq_zero_of_count_zero (assets : List AssetData) (dte : ℕ)
    (h : cbOpenCount assets dte = 0) : cbDateTotal assets dte = 0 := by
  induction assets with
  | nil => rfl
  | cons a rest ih =>
    unfold cbOpenCount at h
    simp only [List.map_cons, List.sum_cons, Nat.add_eq_zero] at h
    obtain ⟨h1, h2⟩ := h
    have hrest : cbDateTotal rest dte = 0 := ih (by unfold cbOpenCount; exact h2)
    unfold cbDateTotal
    simp only [List.map_cons, List.sum_cons]
    unfold cbDateTotal at hrest
    rw [hrest, add_zero]
    rcases hdf : dfClose a.dates dte with _ | price
    · rfl
    · rw [hdf] at h1
      simp only at h1
      have he : a.trades.filter (cbCounted dte) = [] := List.length_eq_zero.mp h1
      show (List.map (cbWeighted price) (a.trades.filter (cbCounted dte))).sum = 0
      rw [he]
      rfl

/-- The dated walk with the `tripped` flag equals: close everything at
the first qualifying date of the list, else return the input unchanged. -/
theorem cbLoop_eq_find (thresholdPct positionSize : ℚ) (assets : List AssetData)
    (hneg : thresholdPct < 0) (dates : List ℕ) :
    cbLoop thresholdPct positionSize assets dates =
      (match dates.find? (fun dte => decide (cbDateTotal assets dte ≤ thresholdPct)) with
       | some dte => cbCloseAll dte positionSize assets
       | none => assets) := by
  induction dates with
  | nil => rfl
  | cons d rest ih =>
    by_cases h : cbDateTotal assets d ≤ thresholdPct
    · have hc : 0 < cbOpenCount assets d := by
        rcases Nat.eq_zero_or_pos (cbOpenCount assets d) with h0 | h0
        · exfalso
          have := cbDateTotal_eq_zero_of_count_zero assets d h0
          rw [this] at h
          linarith
        · exact h0
      rw [cbLoop, if_pos ⟨hc, h⟩, List.find?_cons_of_pos _ (by simpa using h)]
    · rw [cbLoop, if_neg (by tauto), List.find?_cons_of_neg _ (by simpa using h), ih]

/-- C1. With the portfolio circuit breaker enabled (and its threshold
negative, as configured), `apply_circuit_breaker` equals the claim's
specification: it force-closes all open primary positions (supplementary
trim / re-entry / DCA / complementary-track records excluded) exactly at
the chronologically first date whose remaining-fraction-weighted sum of
unrealized P&L over open primary positions is at or below the threshold,
fires at most once (one `cbCloseAll`), and modifies nothing when no date
qualifies; the walked date list is sorted ascending. -/
theorem circuit_breaker_first_breach
    (assets : List AssetData) (config : Config) (positionSize : ℚ)
    (hon : config.portfolioCircuitBreaker = true)
    (hneg : config.circuitBreakerPct < 0) :
    applyCircuitBreaker assets config positionSize =
      circuitBreakerSpecResult assets config.circuitBreakerPct positionSize ∧
    List.Sorted (· ≤ ·) (allDatesSorted assets) := by
  constructor
  · unfold applyCircuitBreaker circuitBreakerSpecResult
    rw [hon]
    simp only [Bool.true_eq_false, if_false]
    exact cbLoop_eq_find config.circuitBreakerPct positionSize assets hneg _
  · have h := @List.sorted_mergeSort ℕ (fun a b : ℕ => a ≤ b)
      (fun a b c hab hbc => by
        simp only [decide_eq_true_eq] at *
        omega)
      (fun a b => by
        simp only [Bool.or_eq_true, decide_eq_true_eq]
        omega)
      ((assets.map (fun a => a.dates.map (fun p => p.1))).flatten.dedup)
    unfold allDatesSorted
    exact h.imp (fun hab => by simpa using hab)

/-- Witness for C1 at a concrete two-asset portfolio. -/
theorem circuit_breaker_first_breach_witness :
    improvedConfig.portfolioCircuitBreaker = true ∧
    improvedConfig.circuitBreakerPct < 0 ∧
    (applyCircuitBreaker
        [⟨[], [(0, 100), (1, 94)]⟩, ⟨[], [(0, 50), (1, 55)]⟩]
        improvedConfig 1000 =
      circuitBreakerSpecResult
        [⟨[], [(0, 100), (1, 94)]⟩, ⟨[], [(0, 50), (1, 55)]⟩]
        improvedConfig.circuitBreakerPct 1000 ∧
    List.Sorted (· ≤ ·) (allDatesSorted
        [⟨[], [(0, 100), (1, 94)]⟩, ⟨[], [(0, 50), (1, 55)]⟩])) :=
  ⟨rfl, by norm_num [improvedConfig],
   circuit_breaker_first_breach _ improvedConfig 1000 rfl
     (by norm_num [improvedConfig])⟩

/-! ## C2: leverage liquidation accounting -/

theorem levStep_inv (assets : List LevAsset) (levConfig : LeverageConfig)
    (signalConfig : Config) (s : LevState) (e : LevEvent)
    (hs : LevInv s) : LevInv (levStep assets levConfig signalConfig s e) := by
  obtain ⟨hc0, ⟨n, hcg⟩, hrec⟩ := hs
  have hcapr : round2 s.capital = s.capital := by rw [hcg]; exact round2_grid n
  have hcaprn : round2 (-s.capital) = -s.capital := by
    rw [hcg, ← neg_div, ← Int.cast_neg]
    exact round2_grid (-n)
  unfold levStep
  by_cases hdep : s.deployedForever
  · simp only [hdep, if_true]
    exact ⟨hc0, ⟨n, hcg⟩, hrec⟩
  · rw [Bool.not_eq_true] at hdep
    simp only [hdep, Bool.false_eq_true, if_false]
    generalize levTier assets signalConfig e = tier
    generalize hLev : levLeverage levConfig tier = lev
    generalize levTrimPnl (levTrims assets e) lev s.capital = trimPnl
    by_cases hliq : e.trade.pnlPct * lev * (e.trade.remainingPct / 100) ≤ -100
    · have hd : (decide (e.trade.pnlPct * lev * (e.trade.remainingPct / 100) ≤ -100)) = true :=
        decide_eq_true hliq
      simp only [hd, if_true]
      have hok : LevTradeOk
          ⟨e.trade, tier, lev, round2 s.capital, round2 (s.capital * lev),
           round2 (e.trade.pnlPct * lev), round2 (-s.capital), round2 s.capital,
           true⟩ := by
        refine ⟨by simpa using hliq, ?_, by simp, ?_, rfl⟩
        · intro _
          simp only [hcaprn, hcapr]
        · rw [hcapr]; exact hc0
      split
      · refine ⟨round2_nonneg (le_max_right _ 0), round2_mem_grid _, ?_⟩
        intro r hr
        simp only [List.mem_append, List.mem_singleton] at hr
        rcases hr with hr | hr
        · exact hrec r hr
        · subst hr; exact hok
      · refine ⟨hc0, ⟨n, hcg⟩, ?_⟩
        intro r hr
        simp only [List.mem_append, List.mem_singleton] at hr
        rcases hr with hr | hr
        · exact hrec r hr
        · subst hr; exact hok
    · have hd : (decide (e.trade.pnlPct * lev * (e.trade.remainingPct / 100) ≤ -100)) = false :=
        decide_eq_false hliq
      simp only [hd, Bool.false_eq_true, if_false]
      have hok : LevTradeOk
          ⟨e.trade, tier, lev, round2 s.capital, round2 (s.capital * lev),
           round2 (e.trade.pnlPct * lev),
           round2 (round2 (e.trade.remainingPct / 100 * (e.trade.pnlPct * lev) / 100 * s.capital)
             + trimPnl),
           round2 s.capital, false⟩ := by
        refine ⟨by simpa using hliq, by simp, ?_, ?_, rfl⟩
        · intro _
          simp only
          rw [hcapr]
          have hc : -100 < e.trade.pnlPct * lev * (e.trade.remainingPct / 100) := by
            linarith [not_le.mp hliq]
          have hx : e.trade.remainingPct / 100 * (e.trade.pnlPct * lev) / 100 * s.capital
              = ((e.trade.pnlPct * lev * (e.trade.remainingPct / 100)) + 100) * s.capital / 100
                - s.capital := by ring
          have h2 : 0 ≤ ((e.trade.pnlPct * lev * (e.trade.remainingPct / 100)) + 100) * s.capital :=
            mul_nonneg (by linarith) hc0
          refine round2_ge_grid ⟨-n, by rw [hcg]; push_cast; ring⟩ ?_
          rw [hx]
          linarith
        · rw [hcapr]; exact hc0
      split
      · refine ⟨round2_nonneg (le_max_right _ 0), round2_mem_grid _, ?_⟩
        intro r hr
        simp only [List.mem_append, List.mem_singleton] at hr
        rcases hr with hr | hr
        · exact hrec r hr
        · subst hr; exact hok
      · refine ⟨hc0, ⟨n, hcg⟩, ?_⟩
        intro r hr
        simp only [List.mem_append, List.mem_singleton] at hr
        rcases hr with hr | hr
        · exact hrec r hr
        · subst hr; exact hok

theorem levFold_inv (assets : List LevAsset) (levConfig : LeverageConfig)
    (signalConfig : Config) :
    ∀ (events : List LevEvent) (s : LevState), LevInv s →
      LevInv (events.foldl (levStep assets levConfig signalConfig) s) := by
  intro events
  induction events with
  | nil => intro s hs; exact hs
  | cons e rest ih =>
    intro s hs
    exact ih _ (levStep_inv assets levConfig signalConfig s e hs)

/-- C2 (amended).  Every trade processed by the leverage scenario
satisfies the liquidation accounting: flagged liquidated exactly when
leveraged P&L times remaining fraction is at or below −100; a liquidated
trade's recorded loss is exactly the deployed position size; for a
non-liquidated trade the realized loss excluding trim P&L never exceeds
the deployed size; and deployed capital is never negative (floored at
zero). -/
theorem leverage_liquidation_accounting
    (assets : List LevAsset) (levConfig : LeverageConfig)
    (signalConfig : Config) (startingCapital : ℚ)
    (h0 : 0 ≤ startingCapital)
    (hg : ∃ n : ℤ, startingCapital = (n : ℚ) / 100) :
    ∀ r ∈ (simulateLeverageScenario assets levConfig signalConfig
            startingCapital).trades, LevTradeOk r := by
  intro r hr
  unfold simulateLeverageScenario at hr
  simp only at hr
  exact (levFold_inv assets levConfig signalConfig _
    ⟨startingCapital, startingCapital, 0, false, [], 0, 0, 0, 0, 0⟩
    ⟨h0, hg, by intro x hx; cases hx⟩).2.2 r hr

/-- Witness for C2's amended theorem at the concrete $1,000 portfolio. -/
theorem leverage_liquidation_accounting_witness :
    (0 : ℚ) ≤ 1000 ∧
    (∀ r ∈ (simulateLeverageScenario [] ⟨3, 1, 0.5⟩ improvedConfig
            1000).trades, LevTradeOk r) :=
  ⟨by norm_num,
   leverage_liquidation_accounting [] ⟨3, 1, 0.5⟩ improvedConfig 1000
     (by norm_num) ⟨100000, by norm_num⟩⟩

set_option maxRecDepth 8000 in
/-- Counterexample to C2 as stated: a non-liquidated trade whose trims
also lost money records a total realized loss of $1,140 on a deployed
position of $1,000 — the loss exceeds the deployed size. -/
theorem leverage_trim_loss_exceeds_deployed_counterexample :
    (simulateLeverageScenario [⟨[c2Long, c2Trim], none⟩] ⟨1, 1, 1⟩
        improvedConfig 1000).trades
      = [⟨c2Long, Tier.B, 1, 1000, 1000, -99, -1140, 1000, false⟩] ∧
    ((-1140 : ℚ) < -(1000 : ℚ)) := by
  constructor
  · have r1 : round2 (-990 : ℚ) = -990 := by norm_num [round2, pyRound, roundHalfEven]
    have r2 : round2 (-150 : ℚ) = -150 := by norm_num [round2, pyRound, roundHalfEven]
    have r3 : round2 (-1140 : ℚ) = -1140 := by norm_num [round2, pyRound, roundHalfEven]
    have r4 : round2 (1000 : ℚ) = 1000 := by norm_num [round2, pyRound, roundHalfEven]
    have r5 : round2 (-99 : ℚ) = -99 := by norm_num [round2, pyRound, roundHalfEven]
    norm_num +decide [simulateLeverageScenario, levEvents, levStep, levTier,
      levLeverage, levTrims, levTrimPnl, c2Long, c2Trim, cbSkip,
      List.enum, List.filter, instBEqOfDecidableEq, BEq.beq,
      r1, r2, r3, r4, r5]
  · norm_num

/-! ## C10: complementary entries require an empty primary slot -/

theorem bbCloseLongStep_openLong (config : Config) (positionSize : ℚ)
    (barIdx : ℕ) (row : Bar) (s : SimState) :
    (bbCloseLongStep config positionSize barIdx row s).openLong = s.openLong := by
  unfold bbCloseLongStep
  split <;> (try rfl) <;> (dsimp only; split <;> rfl)

theorem bbCloseShortStep_openLong (config : Config) (positionSize : ℚ)
    (barIdx : ℕ) (row : Bar) (s : SimState) :
    (bbCloseShortStep config positionSize barIdx row s).openLong = s.openLong := by
  unfold bbCloseShortStep
  split <;> (try rfl) <;> (dsimp only; split <;> rfl)

theorem bbCloseLongStep_openShort (config : Config) (positionSize : ℚ)
    (barIdx : ℕ) (row : Bar) (s : SimState) :
    (bbCloseLongStep config positionSize barIdx row s).openShort = s.openShort := by
  unfold bbCloseLongStep
  split <;> (try rfl) <;> (dsimp only; split <;> rfl)

theorem bbCloseShortStep_openShort (config : Config) (positionSize : ℚ)
    (barIdx : ℕ) (row : Bar) (s : SimState) :
    (bbCloseShortStep config positionSize barIdx row s).openShort = s.openShort := by
  unfold bbCloseShortStep
  split <;> (try rfl) <;> (dsimp only; split <;> rfl)

theorem bbCloseLongStep_bbOpenLong (config : Config) (positionSize : ℚ)
    (barIdx : ℕ) (row : Bar) (s : SimState) :
    (bbCloseLongStep config positionSize barIdx row s).bbOpenLong = s.bbOpenLong ∨
    (bbCloseLongStep config positionSize barIdx row s).bbOpenLong = none := by
  unfold bbCloseLongStep
  split
  · dsimp only
    split
    · right; rfl
    · left; rfl
  · left; rfl

theorem bbCloseShortStep_bbOpenLong (config : Config) (positionSize : ℚ)
    (barIdx : ℕ) (row : Bar) (s : SimState) :
    (bbCloseShortStep config positionSize barIdx row s).bbOpenLong = s.bbOpenLong := by
  unfold bbCloseShortStep
  split <;> (try rfl) <;> (dsimp only; split <;> rfl)

theorem bbCloseLongStep_bbOpenShort (config : Config) (positionSize : ℚ)
    (barIdx : ℕ) (row : Bar) (s : SimState) :
    (bbCloseLongStep config positionSize barIdx row s).bbOpenShort = s.bbOpenShort := by
  unfold bbCloseLongStep
  split <;> (try rfl) <;> (dsimp only; split <;> rfl)

theorem bbCloseShortStep_bbOpenShort (config : Config) (positionSize : ℚ)
    (barIdx : ℕ) (row : Bar) (s : SimState) :
    (bbCloseShortStep config positionSize barIdx row s).bbOpenShort = s.bbOpenShort ∨
    (bbCloseShortStep config positionSize barIdx row s).bbOpenShort = none := by
  unfold bbCloseShortStep
  split
  · dsimp only
    split
    · right; rfl
    · left; rfl
  · left; rfl

theorem bbOpenLongStep_of_primary (config : Config) (barIdx : ℕ) (row : Bar)
    (s : SimState) (hl : s.openLong ≠ none) :
    bbOpenLongStep config barIdx row s = s := by
  unfold bbOpenLongStep
  dsimp only
  rw [if_neg]
  intro h
  exact hl h.2.2.1

theorem bbOpenShortStep_of_primary (config : Config) (barIdx : ℕ) (row : Bar)
    (s : SimState) (hs : s.openShort ≠ none) :
    bbOpenShortStep config barIdx row s = s := by
  unfold bbOpenShortStep
  dsimp only
  rw [if_neg]
  intro h
  exact hs h.2.2.1

theorem bbOpenLongStep_openLong (config : Config) (barIdx : ℕ) (row : Bar)
    (s : SimState) :
    (bbOpenLongStep config barIdx row s).openLong = s.openLong := by
  unfold bbOpenLongStep
  dsimp only
  split <;> rfl

theorem bbOpenLongStep_openShort (config : Config) (barIdx : ℕ) (row : Bar)
    (s : SimState) :
    (bbOpenLongStep config barIdx row s).openShort = s.openShort := by
  unfold bbOpenLongStep
  dsimp only
  split <;> rfl

theorem bbOpenLongStep_bbOpenShort (config : Config) (barIdx : ℕ) (row : Bar)
    (s : SimState) :
    (bbOpenLongStep config barIdx row s).bbOpenShort = s.bbOpenShort := by
  unfold bbOpenLongStep
  dsimp only
  split <;> rfl

theorem bbOpenShortStep_bbOpenLong (config : Config) (barIdx : ℕ) (row : Bar)
    (s : SimState) :
    (bbOpenShortStep config barIdx row s).bbOpenLong = s.bbOpenLong := by
  unfold bbOpenShortStep
  dsimp only
  split <;> rfl

theorem bb2CloseLongStep_openLong (config : Config) (positionSize : ℚ)
    (barIdx : ℕ) (row : Bar) (s : SimState) :
    (bb2CloseLongStep config positionSize barIdx row s).openLong = s.openLong := by
  unfold bb2CloseLongStep
  split <;> (try rfl) <;> (dsimp only; split <;> rfl)

theorem bb2CloseShortStep_openLong (config : Config) (positionSize : ℚ)
    (barIdx : ℕ) (row : Bar) (s : SimState) :
    (bb2CloseShortStep config positionSize barIdx row s).openLong = s.openLong := by
  unfold bb2CloseShortStep
  split <;> (try rfl) <;> (dsimp only; split <;> rfl)

theorem bb2CloseLongStep_openShort (config : Config) (positionSize : ℚ)
    (barIdx : ℕ) (row : Bar) (s : SimState) :
    (bb2CloseLongStep config positionSize barIdx row s).openShort = s.openShort := by
  unfold bb2CloseLongStep
  split <;> (try rfl) <;> (dsimp only; split <;> rfl)

theorem bb2CloseShortStep_openShort (config : Config) (positionSize : ℚ)
    (barIdx : ℕ) (row : Bar) (s : SimState) :
    (bb2CloseShortStep config positionSize barIdx row s).openShort = s.openShort := by
  unfold bb2CloseShortStep
  split <;> (try rfl) <;> (dsimp only; split <;> rfl)

theorem bb2CloseLongStep_bb2OpenLong (config : Config) (positionSize : ℚ)
    (barIdx : ℕ) (row : Bar) (s : SimState) :
    (bb2CloseLongStep config positionSize barIdx row s).bb2OpenLong = s.bb2OpenLong ∨
    (bb2CloseLongStep config positionSize barIdx row s).bb2OpenLong = none := by
  unfold bb2CloseLongStep
  split
  · dsimp only
    split
    · right; rfl
    · left; rfl
  · left; rfl

theorem bb2CloseShortStep_bb2OpenLong (config : Config) (positionSize : ℚ)
    (barIdx : ℕ) (row : Bar) (s : SimState) :
    (bb2CloseShortStep config positionSize barIdx row s).bb2OpenLong = s.bb2OpenLong := by
  unfold bb2CloseShortStep
  split <;> (try rfl) <;> (dsimp only; split <;> rfl)

theorem bb2CloseLongStep_bb2OpenShort (config : Config) (positionSize : ℚ)
    (barIdx : ℕ) (row : Bar) (s : SimState) :
    (bb2CloseLongStep config positionSize barIdx row s).bb2OpenShort = s.bb2OpenShort := by
  unfold bb2CloseLongStep
  split <;> (try rfl) <;> (dsimp only; split <;> rfl)

theorem bb2CloseShortStep_bb2OpenShort (config : Config) (positionSize : ℚ)
    (barIdx : ℕ) (row : Bar) (s : SimState) :
    (bb2CloseShortStep config positionSize barIdx row s).bb2OpenShort = s.bb2OpenShort ∨
    (bb2CloseShortStep config positionSize barIdx row s).bb2OpenShort = none := by
  unfold bb2CloseShortStep
  split
  · dsimp only
    split
    · right; rfl
    · left; rfl
  · left; rfl

theorem bb2OpenLongStep_of_primary (config : Config) (barIdx : ℕ) (row : Bar)
    (s : SimState) (hl : s.openLong ≠ none) :
    bb2OpenLongStep config barIdx row s = s := by
  unfold bb2OpenLongStep
  dsimp only
  rw [if_neg]
  intro h
  exact hl h.2.2.1

theorem bb2OpenShortStep_of_primary (config : Config) (barIdx : ℕ) (row : Bar)
    (s : SimState) (hs : s.openShort ≠ none) :
    bb2OpenShortStep config barIdx row s = s := by
  unfold bb2OpenShortStep
  dsimp only
  rw [if_neg]
  intro h
  exact hs h.2.2.1

theorem bb2OpenLongStep_openLong (config : Config) (barIdx : ℕ) (row : Bar)
    (s : SimState) :
    (bb2OpenLongStep config barIdx row s).openLong = s.openLong := by
  unfold bb2OpenLongStep
  dsimp only
  split <;> rfl

theorem bb2OpenLongStep_openShort (config : Config) (barIdx : ℕ) (row : Bar)
    (s : SimState) :
    (bb2OpenLongStep config barIdx row s).openShort = s.openShort := by
  unfold bb2OpenLongStep
  dsimp only
  split <;> rfl

theorem bb2OpenLongStep_bb2OpenShort (config : Config) (barIdx : ℕ) (row : Bar)
    (s : SimState) :
    (bb2OpenLongStep config barIdx row s).bb2OpenShort = s.bb2OpenShort := by
  unfold bb2OpenLongStep
  dsimp only
  split <;> rfl

theorem bb2OpenShortStep_bb2OpenLong (config : Config) (barIdx : ℕ) (row : Bar)
    (s : SimState) :
    (bb2OpenShortStep config barIdx row s).bb2OpenLong = s.bb2OpenLong := by
  unfold bb2OpenShortStep
  dsimp only
  split <;> rfl

/-- C10.  A complementary (BB or BB2) position in a given direction never
opens on a bar where the same-direction primary slot is occupied at the
entry check: with the primary long (resp. short) slot occupied, the BB and
BB2 phases leave the same-direction complementary slot unchanged or close
it — they never fill it. -/
theorem bb_entry_requires_empty_primary
    (config : Config) (positionSize : ℚ) (barIdx : ℕ) (row : Bar)
    (s : SimState) :
    (s.openLong ≠ none →
      ((bbPhase config positionSize barIdx row s).bbOpenLong = s.bbOpenLong ∨
       (bbPhase config positionSize barIdx row s).bbOpenLong = none) ∧
      ((bb2Phase config positionSize barIdx row s).bb2OpenLong = s.bb2OpenLong ∨
       (bb2Phase config positionSize barIdx row s).bb2OpenLong = none)) ∧
    (s.openShort ≠ none →
      ((bbPhase config positionSize barIdx row s).bbOpenShort = s.bbOpenShort ∨
       (bbPhase config positionSize barIdx row s).bbOpenShort = none) ∧
      ((bb2Phase config positionSize barIdx row s).bb2OpenShort = s.bb2OpenShort ∨
       (bb2Phase config positionSize barIdx row s).bb2OpenShort = none)) := by
  constructor
  · intro hl
    constructor
    · unfold bbPhase
      split
      · set s1 := bbCloseLongStep config positionSize barIdx row s with hs1
        set s2 := bbCloseShortStep config positionSize barIdx row s1 with hs2
        have h2l : s2.openLong ≠ none := by
          rw [hs2, bbCloseShortStep_openLong, hs1, bbCloseLongStep_openLong]
          exact hl
        rw [bbOpenShortStep_bbOpenLong,
            bbOpenLongStep_of_primary config barIdx row s2 h2l, hs2,
            bbCloseShortStep_bbOpenLong]
        exact bbCloseLongStep_bbOpenLong config positionSize barIdx row s
      · left; rfl
    · unfold bb2Phase
      split
      · set s1 := bb2CloseLongStep config positionSize barIdx row s with hs1
        set s2 := bb2CloseShortStep config positionSize barIdx row s1 with hs2
        have h2l : s2.openLong ≠ none := by
          rw [hs2, bb2CloseShortStep_openLong, hs1, bb2CloseLongStep_openLong]
          exact hl
        rw [bb2OpenShortStep_bb2OpenLong,
            bb2OpenLongStep_of_primary config barIdx row s2 h2l, hs2,
            bb2CloseShortStep_bb2OpenLong]
        exact bb2CloseLongStep_bb2OpenLong config positionSize barIdx row s
      · left; rfl
  · intro hs
    constructor
    · unfold bbPhase
      split
      · set s1 := bbCloseLongStep config positionSize barIdx row s with hs1
        set s2 := bbCloseShortStep config positionSize barIdx row s1 with hs2
        set s3 := bbOpenLongStep config barIdx row s2 with hs3
        have h3s : s3.openShort ≠ none := by
          rw [hs3, bbOpenLongStep_openShort, hs2, bbCloseShortStep_openShort,
              hs1, bbCloseLongStep_openShort]
          exact hs
        rw [bbOpenShortStep_of_primary config barIdx row s3 h3s, hs3,
            bbOpenLongStep_bbOpenShort, hs2]
        rcases bbCloseShortStep_bbOpenShort config positionSize barIdx row s1
          with h | h
        · rw [h, hs1, bbCloseLongStep_bbOpenShort]
          left; rfl
        · rw [h]; right; rfl
      · left; rfl
    · unfold bb2Phase
      split
      · set s1 := bb2CloseLongStep config positionSize barIdx row s with hs1
        set s2 := bb2CloseShortStep config positionSize barIdx row s1 with hs2
        set s3 := bb2OpenLongStep config barIdx row s2 with hs3
        have h3s : s3.openShort ≠ none := by
          rw [hs3, bb2OpenLongStep_openShort, hs2, bb2CloseShortStep_openShort,
              hs1, bb2CloseLongStep_openShort]
          exact hs
        rw [bb2OpenShortStep_of_primary config barIdx row s3 h3s, hs3,
            bb2OpenLongStep_bb2OpenShort, hs2]
        rcases bb2CloseShortStep_bb2OpenShort config positionSize barIdx row s1
          with h | h
        · rw [h, hs1, bb2CloseLongStep_bb2OpenShort]
          left; rfl
        · rw [h]; right; rfl
      · left; rfl

/-- Witness for C10 at a concrete occupied-slot state. -/
theorem bb_entry_requires_empty_primary_witness :
    c10State.openLong ≠ none ∧
    ((bbPhase improvedConfig 1000 3 plainBar c10State).bbOpenLong =
        c10State.bbOpenLong ∨
     (bbPhase improvedConfig 1000 3 plainBar c10State).bbOpenLong = none) :=
  ⟨by simp [c10State],
   ((bb_entry_requires_empty_primary improvedConfig 1000 3 plainBar
      c10State).1 (by simp [c10State])).1⟩

/-! ## C8: end-of-series handling of still-open positions -/

/-- C8 (amended).  Every primary position still open when the bar
sequence ends is emitted by the end-of-series flush as a trade record
whose status is "open" (not "closed"), with no exit date, no exit
reason, and the last bar's close as exit price. -/
theorem end_of_series_flush_marks_open
    (df : List Bar) (positionSize : ℚ) (config : Config)
    (isBtc hasBtcDf : Bool) (lastRow : Bar)
    (hlast : df.getLast? = some lastRow) :
    (∀ p, (df.enum.foldl (simStep config positionSize isBtc hasBtcDf)
             initState).openLong = some p →
       (⟨TDir.long, p.entryBar, p.entryPrice, p.entryColor, p.entryReason,
         none, some (round2 lastRow.close), none, none,
         round2 ((lastRow.close - p.entryPrice) / p.entryPrice * 100),
         round2 ((df.enum.foldl (simStep config positionSize isBtc hasBtcDf)
                    initState).longRemaining *
           round2 ((lastRow.close - p.entryPrice) / p.entryPrice * 100) / 100 *
           positionSize), 0, 0,
         round1 ((df.enum.foldl (simStep config positionSize isBtc hasBtcDf)
                    initState).longRemaining * 100),
         TStatus.stillOpen⟩ : Trade) ∈
         simulateTrades df positionSize config isBtc hasBtcDf) ∧
    (∀ p, (df.enum.foldl (simStep config positionSize isBtc hasBtcDf)
             initState).openShort = some p →
       (⟨TDir.short, p.entryBar, p.entryPrice, p.entryColor, p.entryReason,
         none, some (round2 lastRow.close), none, none,
         round2 ((p.entryPrice - lastRow.close) / p.entryPrice * 100),
         round2 ((df.enum.foldl (simStep config positionSize isBtc hasBtcDf)
                    initState).shortRemaining *
           round2 ((p.entryPrice - lastRow.close) / p.entryPrice * 100) / 100 *
           positionSize), 0, 0,
         round1 ((df.enum.foldl (simStep config positionSize isBtc hasBtcDf)
                    initState).shortRemaining * 100),
         TStatus.stillOpen⟩ : Trade) ∈
         simulateTrades df positionSize config isBtc hasBtcDf) := by
  constructor
  · intro p hp
    unfold simulateTrades
    dsimp only
    rw [hlast]
    unfold endFlush
    dsimp only
    rw [hp]
    dsimp only
    simp [List.mem_append]
  · intro p hp
    unfold simulateTrades
    dsimp only
    rw [hlast]
    unfold endFlush
    dsimp only
    rw [hp]
    dsimp only
    simp [List.mem_append]

set_option maxRecDepth 8000 in
/-- Counterexample to C8 as stated: a run ending with an open long emits
its final record with status "open" and no exit reason — not a closed
record with an end-of-series exit reason (no such reason exists). -/
theorem end_of_series_not_closed_counterexample :
    simulateTrades [c8Bar] 1000 c8Config false false =
      [⟨TDir.long, 0, 100, Color.green, Reason.emaCrossUp, none, some 100,
        none, none, 0, 0, 0, 0, 100, TStatus.stillOpen⟩] ∧
    TStatus.stillOpen ≠ TStatus.closed := by
  constructor
  · have r1 : round2 (100 : ℚ) = 100 := by norm_num [round2, pyRound, roundHalfEven]
    have r2 : round2 (0 : ℚ) = 0 := by norm_num [round2, pyRound, roundHalfEven]
    have r3 : round1 (100 : ℚ) = 100 := by norm_num [round1, pyRound, roundHalfEven]
    norm_num +decide [simulateTrades, simStep, btcCrashPhase, evalColorReason,
      evaluateSignal, longOverrideCheck, shortOverrideCheck, greenEntryEval,
      redEntryEval, trailingShortPhase, trailingLongPhase, ladderPhase,
      ladderLongStep, ladderShortStep, yellowLongPhase, yellowShortPhase,
      velocityPhase, closeLongPhase, closeShortPhase, confirmPhase,
      confirmGreenStep, confirmRedStep, openLongPhase, openShortPhase,
      dcaFillPhase, pullbackPhase, bbPhase, bb2Phase, endFlush, initState,
      c8Config, c8Bar, plainBar, improvedConfig, List.enum, r1, r2, r3]
  · simp

/-- Witness for C8's amended theorem on the one-bar run. -/
theorem end_of_series_flush_marks_open_witness :
    ([c8Bar].getLast? = some c8Bar) ∧
    ((∀ p, (([c8Bar] : List Bar).enum.foldl (simStep c8Config 1000 false false)
             initState).openLong = some p →
       (⟨TDir.long, p.entryBar, p.entryPrice, p.entryColor, p.entryReason,
         none, some (round2 c8Bar.close), none, none,
         round2 ((c8Bar.close - p.entryPrice) / p.entryPrice * 100),
         round2 ((([c8Bar] : List Bar).enum.foldl (simStep c8Config 1000 false false)
                    initState).longRemaining *
           round2 ((c8Bar.close - p.entryPrice) / p.entryPrice * 100) / 100 *
           1000), 0, 0,
         round1 ((([c8Bar] : List Bar).enum.foldl (simStep c8Config 1000 false false)
                    initState).longRemaining * 100),
         TStatus.stillOpen⟩ : Trade) ∈
         simulateTrades [c8Bar] 1000 c8Config false false) ∧
     (∀ p, (([c8Bar] : List Bar).enum.foldl (simStep c8Config 1000 false false)
             initState).openShort = some p →
       (⟨TDir.short, p.entryBar, p.entryPrice, p.entryColor, p.entryReason,
         none, some (round2 c8Bar.close), none, none,
         round2 ((p.entryPrice - c8Bar.close) / p.entryPrice * 100),
         round2 ((([c8Bar] : List Bar).enum.foldl (simStep c8Config 1000 false false)
                    initState).shortRemaining *
           round2 ((p.entryPrice - c8Bar.close) / p.entryPrice * 100) / 100 *
           1000), 0, 0,
         round1 ((([c8Bar] : List Bar).enum.foldl (simStep c8Config 1000 false false)
                    initState).shortRemaining * 100),
         TStatus.stillOpen⟩ : Trade) ∈
         simulateTrades [c8Bar] 1000 c8Config false false)) :=
  ⟨rfl, end_of_series_flush_marks_open [c8Bar] 1000 c8Config false false
    c8Bar rfl⟩

/-! ## C5: trailing-stop direction isolation -/

theorem longOverrideCheck_reasons (row : Bar) (ot : Option OpenTrade)
    (config : Config) (barIndex : ℕ) (cr : Color × Reason)
    (h : longOverrideCheck row ot config barIndex = some cr) :
    cr.2 = Reason.atrStopLoss ∨ cr.2 = Reason.fixedStopLoss ∨
    cr.2 = Reason.trendBreak := by
  unfold longOverrideCheck at h
  rcases ot with _ | ot
  · exact absurd h (by simp)
  · simp only at h
    split at h
    · split at h
      · split at h
        · rename_i cr2 heq
          rcases Option.some_inj.mp h with rfl
          split at heq
          · split at heq
            · rcases Option.some_inj.mp heq with rfl; simp
            · exact absurd heq (by simp)
          · split at heq
            · rcases Option.some_inj.mp heq with rfl; simp
            · exact absurd heq (by simp)
        · split at h
          · rcases Option.some_inj.mp h with rfl; simp
          · exact absurd h (by simp)
      · exact absurd h (by simp)
    · exact absurd h (by simp)

theorem shortOverrideCheck_reasons (row : Bar) (ot : Option OpenTrade)
    (config : Config) (barIndex : ℕ) (cr : Color × Reason)
    (h : shortOverrideCheck row ot config barIndex = some cr) :
    cr.2 = Reason.atrStopLoss ∨ cr.2 = Reason.fixedStopLoss := by
  unfold shortOverrideCheck at h
  rcases ot with _ | ot
  · exact absurd h (by simp)
  · simp only at h
    split at h
    · split at h
      · split at h
        · split at h
          · rcases Option.some_inj.mp h with rfl; simp
          · exact absurd h (by simp)
        · split at h
          · rcases Option.some_inj.mp h with rfl; simp
          · exact absurd h (by simp)
      · exact absurd h (by simp)
    · exact absurd h (by simp)

theorem greenEntryEval_reasons (row : Bar) (config : Config) :
    (greenEntryEval row config).2 ≠ Reason.trailingStop ∧
    (greenEntryEval row config).2 ≠ Reason.trendBreak := by
  unfold greenEntryEval
  split
  · simp
  · split
    · simp
    · split
      · simp
      · split
        · simp
        · split <;> simp

theorem redEntryEval_reasons (row : Bar) (config : Config) :
    (redEntryEval row config).2 ≠ Reason.trailingStop ∧
    (redEntryEval row config).2 ≠ Reason.trendBreak := by
  unfold redEntryEval
  split
  · simp
  · split
    · simp
    · split
      · simp
      · split
        · simp
        · split <;> simp

/-- `evaluate_signal` itself never returns the trailing-stop reason. -/
theorem evaluateSignal_ne_trailing (row : Bar) (ot : Option OpenTrade)
    (config : Config) (barIndex : ℕ) :
    (evaluateSignal row ot config barIndex).2 ≠ Reason.trailingStop := by
  unfold evaluateSignal
  rcases hl : longOverrideCheck row ot config barIndex with _ | cr
  · rcases hs : shortOverrideCheck row ot config barIndex with _ | cr
    · simp only
      split
      · exact (greenEntryEval_reasons row config).1
      · split
        · exact (redEntryEval_reasons row config).1
        · simp
    · simp only
      rcases shortOverrideCheck_reasons row ot config barIndex cr hs with h | h <;>
        simp [h]
  · simp only
    rcases longOverrideCheck_reasons row ot config barIndex cr hl with h | h | h <;>
      simp [h]

/-- The merged signal of the bar never carries the trailing-stop reason
either. -/
theorem evalColorReason_ne_trailing (config : Config) (barIdx : ℕ)
    (row : Bar) (s : SimState) :
    (evalColorReason config barIdx row s).2 ≠ Reason.trailingStop := by
  unfold evalColorReason
  rcases s.openShort with _ | p
  · exact evaluateSignal_ne_trailing row _ config barIdx
  · simp only
    split
    · split
      · exact evaluateSignal_ne_trailing row _ config barIdx
      · exact evaluateSignal_ne_trailing row _ config barIdx
    · exact evaluateSignal_ne_trailing row _ config barIdx

/-- The trailing-short phase only replaces the signal by a *green*
trailing-stop pair: if the outgoing color is red, the pair is unchanged. -/
theorem trailingShortPhase_red (config : Config) (row : Bar) (s : SimState)
    (cr : Color × Reason) :
    (trailingShortPhase config row s cr).2 = (Color.green, Reason.trailingStop) ∨
    (trailingShortPhase config row s cr).2 = cr := by
  unfold trailingShortPhase
  dsimp only
  repeat' split
  all_goals first | (left; rfl) | (right; rfl)

/-- With the long trailing stop disabled, the long trailing phase is the
identity on both the state and the signal. -/
theorem trailingLongPhase_disabled (config : Config) (row : Bar)
    (s : SimState) (cr : Color × Reason)
    (hTL : config.trailingStopLong = false) :
    trailingLongPhase config row s cr = (s, cr) := by
  unfold trailingLongPhase
  rw [if_neg (by simp [hTL])]

/-- Full specification of the ladder loop: it appends only positively
sized trim records of the walked position, and removes exactly the
appended fractions from the remaining fraction, which stays nonnegative. -/
theorem ladderLoop_spec (entryC : Color) (entryR : Reason) (p : Pos)
    (barIdx : ℕ) (price positionSize profitPct : ℚ) :
    ∀ (pairs : List (ℕ × ℚ × ℚ)) (trades : List Trade) (rem : ℚ)
      (done : List ℕ) (trimmed : Bool),
    ∃ added : List Trade,
      (ladderLoop entryC entryR p barIdx price positionSize profitPct pairs
        (trades, rem, done, trimmed)).1 = trades ++ added ∧
      (∀ t ∈ added, t.dir = TDir.trim ∧ t.entryColor = entryC ∧
        t.entryBar = p.entryBar ∧ 0 < t.trimFrac ∧
        (∃ lvl, t.exitReason = some (Reason.ladderLevel lvl))) ∧
      (ladderLoop entryC entryR p barIdx price positionSize profitPct pairs
        (trades, rem, done, trimmed)).2.1 =
        rem - (added.map (fun t => t.trimFrac)).sum ∧
      (0 ≤ rem →
        0 ≤ (ladderLoop entryC entryR p barIdx price positionSize profitPct
          pairs (trades, rem, done, trimmed)).2.1) := by
  intro pairs
  induction pairs with
  | nil =>
    intro trades rem done trimmed
    exact ⟨[], by simp [ladderLoop], by simp, by simp [ladderLoop], by
      intro h; simpa [ladderLoop] using h⟩
  | cons hd tl ih =>
    intro trades rem done trimmed
    rcases hd with ⟨idx, level, frac⟩
    simp only [ladderLoop]
    by_cases hc : idx ∉ done ∧ level ≤ profitPct
    · simp only [if_pos hc]
      by_cases ht : (1:ℚ)/100 < min frac rem
      · simp only [if_pos ht]
        obtain ⟨added, h1, h2, h3, h4⟩ :=
          ih (trades ++ [ladderTrimRec entryC entryR p barIdx price
            positionSize profitPct level (min frac rem)])
            (rem - min frac rem) (done ++ [idx]) true
        refine ⟨ladderTrimRec entryC entryR p barIdx price positionSize
          profitPct level (min frac rem) :: added, ?_, ?_, ?_, ?_⟩
        · rw [h1]; simp
        · intro t htm
          rcases List.mem_cons.mp htm with rfl | htm
          · refine ⟨rfl, rfl, rfl, ?_, ⟨level, rfl⟩⟩
            show 0 < min frac rem
            linarith
          · exact h2 t htm
        · rw [h3]
          simp only [List.map_cons, List.sum_cons]
          have hfr : (ladderTrimRec entryC entryR p barIdx price positionSize
              profitPct level (min frac rem)).trimFrac = min frac rem := rfl
          rw [hfr]
          ring
        · intro h0
          apply h4
          have hle : min frac rem ≤ rem := min_le_right _ _
          linarith
      · simp only [if_neg ht]
        exact ih trades rem done trimmed
    · simp only [if_neg hc]
      exact ih trades rem done trimmed

theorem noLongTrailing_of_dir {t : Trade} (h1 : t.dir ≠ TDir.long)
    (h2 : t.dir ≠ TDir.reentry) : NoLongTrailing t := by
  intro hc
  rcases hc with hl | ⟨hr, _⟩
  · exact absurd hl h1
  · exact absurd hr h2

theorem noLongTrailing_of_reason {t : Trade}
    (h : t.exitReason ≠ some Reason.trailingStop) : NoLongTrailing t :=
  fun _ => h

theorem trailInv_btcCrash (config : Config) (isBtc hasBtcDf : Bool)
    (positionSize : ℚ) (barIdx : ℕ) (row : Bar) (s : SimState)
    (hs : TrailInv s) (s' : SimState)
    (h : btcCrashPhase config isBtc hasBtcDf positionSize barIdx row s = some s') :
    TrailInv s' := by
  unfold btcCrashPhase at h
  split at h
  · split at h
    · split at h
      · split at h
        · rcases Option.some_inj.mp h with rfl
          refine ⟨List.forall_mem_append.mpr ⟨hs.1, ?_⟩, ?_, hs.2.2⟩
          · intro t ht
            rcases List.mem_singleton.mp ht with rfl
            exact noLongTrailing_of_reason (by simp)
          · intro _; rfl
        · exact absurd h (by simp)
      · exact absurd h (by simp)
    · exact absurd h (by simp)
  · exact absurd h (by simp)

theorem trailInv_trailingShort (config : Config) (row : Bar) (s : SimState)
    (cr : Color × Reason) (hs : TrailInv s) :
    TrailInv (trailingShortPhase config row s cr).1 := by
  unfold trailingShortPhase
  dsimp only
  repeat' split
  all_goals
    first
    | exact hs
    | (refine ⟨hs.1, hs.2.1, ?_⟩
       intro h
       simp_all)

theorem trailInv_ladderLong (config : Config) (positionSize : ℚ)
    (barIdx : ℕ) (row : Bar) (s : SimState) (hs : TrailInv s) :
    TrailInv (ladderLongStep config positionSize barIdx row s).1 := by
  unfold ladderLongStep
  rcases hl : s.openLong with _ | p
  · exact hs
  · dsimp only
    split
    · obtain ⟨added, h1, h2, h3, h4⟩ := ladderLoop_spec Color.green
        Reason.emaCrossUp p barIdx row.close positionSize
        ((row.close - p.entryPrice) / p.entryPrice * 100)
        ((config.profitLadderLevels.zip config.profitLadderFractions).enum)
        s.trades s.longRemaining s.ladderTrimsLong false
      refine ⟨?_, ?_, hs.2.2⟩
      · show ∀ t ∈ (ladderLoop _ _ _ _ _ _ _ _ _).1, NoLongTrailing t
        rw [h1]
        refine List.forall_mem_append.mpr ⟨hs.1, ?_⟩
        intro t ht
        exact noLongTrailing_of_dir (by rw [(h2 t ht).1]; simp)
          (by rw [(h2 t ht).1]; simp)
      · intro h
        exact Option.noConfusion (show some p = none from h)
    · exact hs

theorem trailInv_ladderShort (config : Config) (positionSize : ℚ)
    (barIdx : ℕ) (row : Bar) (st : SimState × Bool) (hs : TrailInv st.1) :
    TrailInv (ladderShortStep config positionSize barIdx row st).1 := by
  unfold ladderShortStep
  rcases hl : st.1.openShort with _ | p
  · exact hs
  · dsimp only
    split
    · obtain ⟨added, h1, h2, h3, h4⟩ := ladderLoop_spec Color.red
        Reason.emaCrossDown p barIdx row.close positionSize
        ((p.entryPrice - row.close) / p.entryPrice * 100)
        (((config.shortLadderLevels.getD config.profitLadderLevels).zip
          (config.shortLadderFractions.getD config.profitLadderFractions)).enum)
        st.1.trades st.1.shortRemaining st.1.ladderTrimsShort st.2
      refine ⟨?_, hs.2.1, ?_⟩
      · show ∀ t ∈ (ladderLoop _ _ _ _ _ _ _ _ _).1, NoLongTrailing t
        rw [h1]
        refine List.forall_mem_append.mpr ⟨hs.1, ?_⟩
        intro t ht
        exact noLongTrailing_of_dir (by rw [(h2 t ht).1]; simp)
          (by rw [(h2 t ht).1]; simp)
      · intro h
        exact Option.noConfusion (show some p = none from hl ▸ h)
    · exact hs

theorem trailInv_ladderPhase (config : Config) (positionSize : ℚ)
    (barIdx : ℕ) (row : Bar) (s : SimState) (hs : TrailInv s) :
    TrailInv (ladderPhase config positionSize barIdx row s).1 :=
  trailInv_ladderShort config positionSize barIdx row _
    (trailInv_ladderLong config positionSize barIdx row s hs)

theorem trailInv_yellowLong (config : Config) (positionSize : ℚ)
    (barIdx : ℕ) (row : Bar) (trimmed : Bool) (s : SimState)
    (hs : TrailInv s) :
    TrailInv (yellowLongPhase config positionSize barIdx row trimmed s) := by
  unfold yellowLongPhase
  repeat'
    first
    | split
    | (dsimp only; split)
  all_goals
    first
    | exact hs
    | (refine ⟨List.forall_mem_append.mpr ⟨hs.1, ?_⟩, hs.2.1, hs.2.2⟩
       intro t ht
       rcases List.mem_singleton.mp ht with rfl
       exact noLongTrailing_of_dir (by simp [yellowTrimRec])
         (by simp [yellowTrimRec]))

theorem trailInv_yellowShort (config : Config) (positionSize : ℚ)
    (barIdx : ℕ) (row : Bar) (trimmed : Bool) (s : SimState)
    (hs : TrailInv s) :
    TrailInv (yellowShortPhase config positionSize barIdx row trimmed s) := by
  unfold yellowShortPhase
  repeat'
    first
    | split
    | (dsimp only; split)
  all_goals
    first
    | exact hs
    | (refine ⟨List.forall_mem_append.mpr ⟨hs.1, ?_⟩, hs.2.1, hs.2.2⟩
       intro t ht
       rcases List.mem_singleton.mp ht with rfl
       exact noLongTrailing_of_dir (by simp [yellowTrimRec])
         (by simp [yellowTrimRec]))

theorem trailInv_velocityLong (config : Config) (positionSize : ℚ)
    (barIdx : ℕ) (row : Bar) (delta : ℚ) (s : SimState) (hs : TrailInv s) :
    TrailInv (velocityLongStep config positionSize barIdx row delta s) := by
  unfold velocityLongStep
  repeat'
    first
    | split
    | (dsimp only; split)
  all_goals
    first
    | exact hs
    | (refine ⟨List.forall_mem_append.mpr ⟨hs.1, ?_⟩, ?_, ?_⟩ <;>
       first
       | (intro t ht
          rcases List.mem_singleton.mp ht with rfl
          first
          | (apply noLongTrailing_of_reason; simp; done)
          | (apply noLongTrailing_of_dir <;> simp [yellowTrimRec]))
       | exact hs.2.1
       | exact hs.2.2
       | (intro h; rfl))

theorem trailInv_velocityShort (config : Config) (positionSize : ℚ)
    (barIdx : ℕ) (row : Bar) (delta : ℚ) (s : SimState) (hs : TrailInv s) :
    TrailInv (velocityShortStep config positionSize barIdx row delta s) := by
  unfold velocityShortStep
  repeat'
    first
    | split
    | (dsimp only; split)
  all_goals
    first
    | exact hs
    | (refine ⟨List.forall_mem_append.mpr ⟨hs.1, ?_⟩, ?_, ?_⟩ <;>
       first
       | (intro t ht
          rcases List.mem_singleton.mp ht with rfl
          apply noLongTrailing_of_dir <;> simp [yellowTrimRec])
       | exact hs.2.1
       | exact hs.2.2
       | (intro h; rfl))

theorem trailInv_velocityPhase (config : Config) (positionSize : ℚ)
    (barIdx : ℕ) (row : Bar) (trimmed : Bool) (s : SimState)
    (hs : TrailInv s) :
    TrailInv (velocityPhase config positionSize barIdx row trimmed s) := by
  unfold velocityPhase
  repeat'
    first
    | split
    | (dsimp only; split)
  all_goals
    first
    | exact hs
    | exact trailInv_velocityShort config positionSize barIdx row _ _
        (trailInv_velocityLong config positionSize barIdx row _ s hs)

theorem noLongTrailing_reentry_red {t : Trade} (hd : t.dir = TDir.reentry)
    (hc : t.entryColor = Color.red) : NoLongTrailing t := by
  intro h
  rcases h with h1 | ⟨_, h2⟩
  · rw [hd] at h1; cases h1
  · rw [hc] at h2; cases h2

theorem trailInv_closeLong (positionSize : ℚ) (barIdx : ℕ) (row : Bar)
    (cr : Color × Reason) (s : SimState)
    (hcr : cr.1 = Color.red → cr.2 ≠ Reason.trailingStop)
    (hs : TrailInv s) :
    TrailInv (closeLongPhase positionSize barIdx row cr s) := by
  unfold closeLongPhase
  rcases hl : s.openLong with _ | p
  · exact hs
  · dsimp only
    by_cases hred : cr.1 = Color.red
    · rw [if_pos hred]
      refine ⟨?_, fun _ => rfl, hs.2.2⟩
      intro t ht
      rcases List.mem_append.mp ht with ht1 | ht2
      · rcases List.mem_append.mp ht1 with ht3 | ht4
        · exact hs.1 t ht3
        · rcases List.mem_singleton.mp ht4 with rfl
          exact noLongTrailing_of_reason
            (fun hco => hcr hred (Option.some_inj.mp hco))
      · rcases List.mem_map.mp ht2 with ⟨piece, hp, rfl⟩
        exact noLongTrailing_of_reason
          (fun hco => hcr hred (Option.some_inj.mp hco))
    · rw [if_neg hred]; exact hs

theorem trailInv_closeShort (positionSize : ℚ) (barIdx : ℕ) (row : Bar)
    (cr : Color × Reason) (s : SimState) (hs : TrailInv s) :
    TrailInv (closeShortPhase positionSize barIdx row cr s) := by
  unfold closeShortPhase
  rcases hl : s.openShort with _ | p
  · exact hs
  · dsimp only
    by_cases hgreen : cr.1 = Color.green
    · rw [if_pos hgreen]
      refine ⟨?_, hs.2.1, fun _ => rfl⟩
      intro t ht
      rcases List.mem_append.mp ht with ht1 | ht2
      · rcases List.mem_append.mp ht1 with ht3 | ht4
        · exact hs.1 t ht3
        · rcases List.mem_singleton.mp ht4 with rfl
          exact noLongTrailing_of_dir (by simp) (by simp)
      · rcases List.mem_map.mp ht2 with ⟨piece, hp, rfl⟩
        exact noLongTrailing_reentry_red rfl rfl
    · rw [if_neg hgreen]; exact hs

theorem trailInv_confirm (row : Bar) (cr : Color × Reason) (s : SimState)
    (hs : TrailInv s) : TrailInv (confirmPhase row cr s) := by
  unfold confirmPhase confirmGreenStep confirmRedStep
  repeat'
    first
    | split
    | (dsimp only; split)
  all_goals exact hs

theorem trailInv_openLong (config : Config) (barIdx : ℕ) (row : Bar)
    (cr : Color × Reason) (s : SimState) (hs : TrailInv s) :
    TrailInv (openLongPhase config barIdx row cr s) := by
  unfold openLongPhase
  repeat'
    first
    | split
    | (dsimp only; split)
  all_goals
    first
    | exact hs
    | exact ⟨hs.1, fun _ => rfl, hs.2.2⟩
    | (refine ⟨List.forall_mem_append.mpr ⟨hs.1, ?_⟩, fun _ => rfl, hs.2.2⟩
       intro t ht
       rcases List.mem_singleton.mp ht with rfl
       exact noLongTrailing_of_dir (by simp [dcaEntryRec])
         (by simp [dcaEntryRec]))

theorem trailInv_openShort (config : Config) (barIdx : ℕ) (row : Bar)
    (cr : Color × Reason) (s : SimState) (hs : TrailInv s) :
    TrailInv (openShortPhase config barIdx row cr s) := by
  unfold openShortPhase
  repeat'
    first
    | split
    | (dsimp only; split)
  all_goals
    first
    | exact hs
    | exact ⟨hs.1, hs.2.1, fun _ => rfl⟩
    | (refine ⟨List.forall_mem_append.mpr ⟨hs.1, ?_⟩, hs.2.1, fun _ => rfl⟩
       intro t ht
       rcases List.mem_singleton.mp ht with rfl
       exact noLongTrailing_of_dir (by simp [dcaEntryRec])
         (by simp [dcaEntryRec]))

theorem trailInv_dcaFillLong (config : Config) (barIdx : ℕ) (row : Bar)
    (s : SimState) (hs : TrailInv s) :
    TrailInv (dcaFillLongStep config barIdx row s) := by
  unfold dcaFillLongStep
  repeat'
    first
    | split
    | (dsimp only; split)
  all_goals
    first
    | exact hs
    | (refine ⟨List.forall_mem_append.mpr ⟨hs.1, ?_⟩, ?_, hs.2.2⟩
       · intro t ht
         rcases List.mem_singleton.mp ht with rfl
         exact noLongTrailing_of_dir (by simp [dcaEntryRec])
           (by simp [dcaEntryRec])
       · intro h
         exact Option.noConfusion (show some _ = none from h))

theorem trailInv_dcaFillShort (config : Config) (barIdx : ℕ) (row : Bar)
    (s : SimState) (hs : TrailInv s) :
    TrailInv (dcaFillShortStep config barIdx row s) := by
  unfold dcaFillShortStep
  repeat'
    first
    | split
    | (dsimp only; split)
  all_goals
    first
    | exact hs
    | (refine ⟨List.forall_mem_append.mpr ⟨hs.1, ?_⟩, hs.2.1, ?_⟩
       · intro t ht
         rcases List.mem_singleton.mp ht with rfl
         exact noLongTrailing_of_dir (by simp [dcaEntryRec])
           (by simp [dcaEntryRec])
       · intro h
         exact Option.noConfusion (show some _ = none from h))

theorem trailInv_dcaFillPhase (config : Config) (barIdx : ℕ) (row : Bar)
    (trimmed : Bool) (s : SimState) (hs : TrailInv s) :
    TrailInv (dcaFillPhase config barIdx row trimmed s) := by
  unfold dcaFillPhase
  split
  · exact trailInv_dcaFillShort config barIdx row _
      (trailInv_dcaFillLong config barIdx row s hs)
  · exact hs

theorem trailInv_pullbackLong (config : Config) (barIdx : ℕ) (row : Bar)
    (s : SimState) (hs : TrailInv s) :
    TrailInv (pullbackLongStep config barIdx row s) := by
  unfold pullbackLongStep
  repeat'
    first
    | split
    | (dsimp only; split)
  all_goals
    first
    | exact hs
    | (refine ⟨List.forall_mem_append.mpr ⟨hs.1, ?_⟩, hs.2.1, hs.2.2⟩
       intro t ht
       rcases List.mem_singleton.mp ht with rfl
       exact noLongTrailing_of_reason (by simp))

theorem trailInv_pullbackShort (config : Config) (barIdx : ℕ) (row : Bar)
    (s : SimState) (hs : TrailInv s) :
    TrailInv (pullbackShortStep config barIdx row s) := by
  unfold pullbackShortStep
  repeat'
    first
    | split
    | (dsimp only; split)
  all_goals
    first
    | exact hs
    | (refine ⟨List.forall_mem_append.mpr ⟨hs.1, ?_⟩, hs.2.1, hs.2.2⟩
       intro t ht
       rcases List.mem_singleton.mp ht with rfl
       exact noLongTrailing_of_reason (by simp))

theorem trailInv_pullbackPhase (config : Config) (barIdx : ℕ) (row : Bar)
    (trimmed : Bool) (s : SimState) (hs : TrailInv s) :
    TrailInv (pullbackPhase config barIdx row trimmed s) := by
  unfold pullbackPhase
  split
  · exact trailInv_pullbackShort config barIdx row _
      (trailInv_pullbackLong config barIdx row s hs)
  · exact hs

theorem trailInv_bbCloseLong (config : Config) (positionSize : ℚ)
    (barIdx : ℕ) (row : Bar) (s : SimState) (hs : TrailInv s) :
    TrailInv (bbCloseLongStep config positionSize barIdx row s) := by
  unfold bbCloseLongStep
  repeat'
    first
    | split
    | (dsimp only; split)
  all_goals
    first
    | exact hs
    | (refine ⟨List.forall_mem_append.mpr ⟨hs.1, ?_⟩, hs.2.1, hs.2.2⟩
       intro t ht
       rcases List.mem_singleton.mp ht with rfl
       exact noLongTrailing_of_dir (by simp [bbCloseRec])
         (by simp [bbCloseRec]))

theorem trailInv_bbCloseShort (config : Config) (positionSize : ℚ)
    (barIdx : ℕ) (row : Bar) (s : SimState) (hs : TrailInv s) :
    TrailInv (bbCloseShortStep config positionSize barIdx row s) := by
  unfold bbCloseShortStep
  repeat'
    first
    | split
    | (dsimp only; split)
  all_goals
    first
    | exact hs
    | (refine ⟨List.forall_mem_append.mpr ⟨hs.1, ?_⟩, hs.2.1, hs.2.2⟩
       intro t ht
       rcases List.mem_singleton.mp ht with rfl
       exact noLongTrailing_of_dir (by simp [bbCloseRec])
         (by simp [bbCloseRec]))

theorem trailInv_bbOpenLong (config : Config) (barIdx : ℕ) (row : Bar)
    (s : SimState) (hs : TrailInv s) :
    TrailInv (bbOpenLongStep config barIdx row s) := by
  unfold bbOpenLongStep
  dsimp only
  split <;> exact hs

theorem trailInv_bbOpenShort (config : Config) (barIdx : ℕ) (row : Bar)
    (s : SimState) (hs : TrailInv s) :
    TrailInv (bbOpenShortStep config barIdx row s) := by
  unfold bbOpenShortStep
  dsimp only
  split <;> exact hs

theorem trailInv_bbPhase (config : Config) (positionSize : ℚ)
    (barIdx : ℕ) (row : Bar) (s : SimState) (hs : TrailInv s) :
    TrailInv (bbPhase config positionSize barIdx row s) := by
  unfold bbPhase
  split
  · exact trailInv_bbOpenShort config barIdx row _
      (trailInv_bbOpenLong config barIdx row _
        (trailInv_bbCloseShort config positionSize barIdx row _
          (trailInv_bbCloseLong config positionSize barIdx row s hs)))
  · exact hs

theorem trailInv_bb2CloseLong (config : Config) (positionSize : ℚ)
    (barIdx : ℕ) (row : Bar) (s : SimState) (hs : TrailInv s) :
    TrailInv (bb2CloseLongStep config positionSize barIdx row s) := by
  unfold bb2CloseLongStep
  repeat'
    first
    | split
    | (dsimp only; split)
  all_goals
    first
    | exact hs
    | (refine ⟨List.forall_mem_append.mpr ⟨hs.1, ?_⟩, hs.2.1, hs.2.2⟩
       intro t ht
       rcases List.mem_singleton.mp ht with rfl
       exact noLongTrailing_of_dir (by simp [bbCloseRec])
         (by simp [bbCloseRec]))

theorem trailInv_bb2CloseShort (config : Config) (positionSize : ℚ)
    (barIdx : ℕ) (row : Bar) (s : SimState) (hs : TrailInv s) :
    TrailInv (bb2CloseShortStep config positionSize barIdx row s) := by
  unfold bb2CloseShortStep
  repeat'
    first
    | split
    | (dsimp only; split)
  all_goals
    first
    | exact hs
    | (refine ⟨List.forall_mem_append.mpr ⟨hs.1, ?_⟩, hs.2.1, hs.2.2⟩
       intro t ht
       rcases List.mem_singleton.mp ht with rfl
       exact noLongTrailing_of_dir (by simp [bbCloseRec])
         (by simp [bbCloseRec]))

theorem trailInv_bb2OpenLong (config : Config) (barIdx : ℕ) (row : Bar)
    (s : SimState) (hs : TrailInv s) :
    TrailInv (bb2OpenLongStep config barIdx row s) := by
  unfold bb2OpenLongStep
  dsimp only
  split <;> exact hs

theorem trailInv_bb2OpenShort (config : Config) (barIdx : ℕ) (row : Bar)
    (s : SimState) (hs : TrailInv s) :
    TrailInv (bb2OpenShortStep config barIdx row s) := by
  unfold bb2OpenShortStep
  dsimp only
  split <;> exact hs

theorem trailInv_bb2Phase (config : Config) (positionSize : ℚ)
    (barIdx : ℕ) (row : Bar) (s : SimState) (hs : TrailInv s) :
    TrailInv (bb2Phase config positionSize barIdx row s) := by
  unfold bb2Phase
  split
  · exact trailInv_bb2OpenShort config barIdx row _
      (trailInv_bb2OpenLong config barIdx row _
        (trailInv_bb2CloseShort config positionSize barIdx row _
          (trailInv_bb2CloseLong config positionSize barIdx row s hs)))
  · exact hs

theorem trailInv_simStep (config : Config) (positionSize : ℚ)
    (isBtc hasBtcDf : Bool) (s : SimState) (ib : ℕ × Bar)
    (hTL : config.trailingStopLong = false) (hs : TrailInv s) :
    TrailInv (simStep config positionSize isBtc hasBtcDf s ib) := by
  unfold simStep
  dsimp only
  rcases hb : btcCrashPhase config isBtc hasBtcDf positionSize ib.1 ib.2 s
    with _ | s'
  · dsimp only
    rw [trailingLongPhase_disabled config ib.2
      (trailingShortPhase config ib.2 s
        (evalColorReason config ib.1 ib.2 s)).1
      (trailingShortPhase config ib.2 s
        (evalColorReason config ib.1 ib.2 s)).2 hTL]
    dsimp only
    have hsA : TrailInv (trailingShortPhase config ib.2 s
        (evalColorReason config ib.1 ib.2 s)).1 :=
      trailInv_trailingShort config ib.2 s
        (evalColorReason config ib.1 ib.2 s) hs
    have hsC : TrailInv (ladderPhase config positionSize ib.1 ib.2
        (trailingShortPhase config ib.2 s
          (evalColorReason config ib.1 ib.2 s)).1).1 :=
      trailInv_ladderPhase config positionSize ib.1 ib.2 _ hsA
    have hcr : (trailingShortPhase config ib.2 s
          (evalColorReason config ib.1 ib.2 s)).2.1 = Color.red →
        (trailingShortPhase config ib.2 s
          (evalColorReason config ib.1 ib.2 s)).2.2 ≠
          Reason.trailingStop := by
      rcases trailingShortPhase_red config ib.2 s
          (evalColorReason config ib.1 ib.2 s) with hg | hsame
      · intro hred
        rw [hg] at hred
        cases hred
      · intro _ hco
        rw [hsame] at hco
        exact evalColorReason_ne_trailing config ib.1 ib.2 s hco
    exact trailInv_bb2Phase _ _ _ _ _
      (trailInv_bbPhase _ _ _ _ _
        (trailInv_pullbackPhase _ _ _ _ _
          (trailInv_dcaFillPhase _ _ _ _ _
            (trailInv_openShort _ _ _ _ _
              (trailInv_openLong _ _ _ _ _
                (trailInv_confirm _ _ _
                  (trailInv_closeShort _ _ _ _ _
                    (trailInv_closeLong _ _ _ _ _ hcr
                      (trailInv_velocityPhase _ _ _ _ _ _
                        (trailInv_yellowShort _ _ _ _ _ _
                          (trailInv_yellowLong _ _ _ _ _ _ hsC)))))))))))
  · dsimp only
    exact trailInv_btcCrash config isBtc hasBtcDf positionSize ib.1 ib.2 s
      hs s' hb

theorem trailInv_fold (config : Config) (positionSize : ℚ)
    (isBtc hasBtcDf : Bool) (hTL : config.trailingStopLong = false)
    (l : List (ℕ × Bar)) (s : SimState) (hs : TrailInv s) :
    TrailInv (l.foldl (simStep config positionSize isBtc hasBtcDf) s) := by
  induction l generalizing s with
  | nil => exact hs
  | cons ib l ih =>
    exact ih _ (trailInv_simStep config positionSize isBtc hasBtcDf s ib
      hTL hs)

theorem trailInv_scanl (config : Config) (positionSize : ℚ)
    (isBtc hasBtcDf : Bool) (hTL : config.trailingStopLong = false)
    (l : List (ℕ × Bar)) (s : SimState) (hs : TrailInv s) :
    ∀ s' ∈ l.scanl (simStep config positionSize isBtc hasBtcDf) s,
      TrailInv s' := by
  induction l generalizing s with
  | nil =>
    intro s' hmem
    rcases List.mem_singleton.mp hmem with rfl
    exact hs
  | cons ib l ih =>
    intro s' hmem
    rw [List.scanl_cons] at hmem
    rcases List.mem_cons.mp hmem with rfl | hmem2
    · exact hs
    · exact ih _ (trailInv_simStep config positionSize isBtc hasBtcDf s ib
        hTL hs) s' hmem2

theorem endFlush_mem (config : Config) (positionSize : ℚ) (lastRow : Bar)
    (s : SimState) :
    ∀ t ∈ endFlush config positionSize lastRow s,
      t ∈ s.trades ∨ t.exitReason = none := by
  intro t ht
  unfold endFlush at ht
  dsimp only at ht
  simp only [List.append_assoc, List.mem_append] at ht
  rcases ht with h | ht
  · exact Or.inl h
  right
  rcases ht with h | h | h | h | h | h | h | h <;>
    first
    | (split at h <;>
       first
       | (rcases List.mem_singleton.mp h with rfl; rfl)
       | cases h)
    | (rcases List.mem_map.mp h with ⟨piece, hp, rfl⟩; rfl)

/-- **C5** (trailing-stop direction isolation, confirmed).  With the
short-side trailing stop enabled and the long-side one disabled — the
claim's configuration — no long-side record (a primary long, or a
pullback re-entry piece on the long side) ever carries the
trailing-stop exit reason, and at every point of the bar walk a
direction with an empty slot has its peak-profit marker reset to zero,
so a later position of either direction starts from a fresh peak. -/
theorem trailing_stop_direction_isolation
    (df : List Bar) (positionSize : ℚ) (config : Config)
    (isBtc hasBtcDf : Bool)
    (hTS : config.trailingStopShort = true)
    (hTL : config.trailingStopLong = false) :
    (∀ t ∈ simulateTrades df positionSize config isBtc hasBtcDf,
       (t.dir = TDir.long ∨ (t.dir = TDir.reentry ∧
         t.entryColor = Color.green)) →
       t.exitReason ≠ some Reason.trailingStop) ∧
    (∀ s ∈ simStates df positionSize config isBtc hasBtcDf,
       (s.openLong = none → s.longPeakProfit = 0) ∧
       (s.openShort = none → s.shortPeakProfit = 0)) := by
  have hinit : TrailInv initState := by
    refine ⟨?_, fun _ => rfl, fun _ => rfl⟩
    intro t ht
    cases ht
  have hfin : TrailInv (df.enum.foldl
      (simStep config positionSize isBtc hasBtcDf) initState) :=
    trailInv_fold config positionSize isBtc hasBtcDf hTL df.enum
      initState hinit
  constructor
  · intro t ht hdir
    unfold simulateTrades at ht
    dsimp only at ht
    rcases hlast : df.getLast? with _ | lastRow
    · rw [hlast] at ht
      dsimp only at ht
      exact hfin.1 t ht hdir
    · rw [hlast] at ht
      dsimp only at ht
      rcases endFlush_mem config positionSize lastRow _ t ht with h | h
      · exact hfin.1 t h hdir
      · intro hco
        rw [h] at hco
        cases hco
  · intro s hsmem
    have h0 := trailInv_scanl config positionSize isBtc hasBtcDf hTL
      df.enum initState hinit s hsmem
    exact ⟨h0.2.1, h0.2.2⟩

/-- Witness for C5 at a concrete one-bar frame and the improved config
with the claim's trailing-stop toggles. -/
theorem trailing_stop_direction_isolation_witness :
    (∀ t ∈ simulateTrades [plainBar] 1000
        { improvedConfig with trailingStopShort := true,
                              trailingStopLong := false } false false,
       (t.dir = TDir.long ∨ (t.dir = TDir.reentry ∧
         t.entryColor = Color.green)) →
       t.exitReason ≠ some Reason.trailingStop) ∧
    (∀ s ∈ simStates [plainBar] 1000
        { improvedConfig with trailingStopShort := true,
                              trailingStopLong := false } false false,
       (s.openLong = none → s.longPeakProfit = 0) ∧
       (s.openShort = none → s.shortPeakProfit = 0)) :=
  trailing_stop_direction_isolation [plainBar] 1000 _ false false rfl rfl

theorem bbFrame_refl (s : SimState) : BbFrame s s :=
  ⟨⟨[], (List.append_nil _).symm, by intro t ht; cases ht⟩, rfl, rfl, rfl, rfl⟩

theorem bbFrame_trans {s1 s2 s3 : SimState} (h12 : BbFrame s1 s2)
    (h23 : BbFrame s2 s3) : BbFrame s1 s3 := by
  obtain ⟨⟨n1, e1, hp1⟩, f1, f2, f3, f4⟩ := h12
  obtain ⟨⟨n2, e2, hp2⟩, g1, g2, g3, g4⟩ := h23
  refine ⟨⟨n1 ++ n2, ?_, ?_⟩, g1.trans f1, g2.trans f2, g3.trans f3,
    g4.trans f4⟩
  · rw [e2, e1, List.append_assoc]
  · intro t ht
    rcases List.mem_append.mp ht with h | h
    exacts [hp1 t h, hp2 t h]

theorem bbFrame_btcCrash (config : Config) (isBtc hasBtcDf : Bool)
    (positionSize : ℚ) (barIdx : ℕ) (row : Bar) (s s' : SimState)
    (h : btcCrashPhase config isBtc hasBtcDf positionSize barIdx row s =
      some s') : BbFrame s s' := by
  unfold btcCrashPhase at h
  split at h
  · split at h
    · split at h
      · split at h
        · rcases Option.some_inj.mp h with rfl
          refine ⟨⟨_, rfl, ?_⟩, rfl, rfl, rfl, rfl⟩
          intro t ht
          rcases List.mem_singleton.mp ht with rfl
          exact ⟨by simp, by simp⟩
        · exact absurd h (by simp)
      · exact absurd h (by simp)
    · exact absurd h (by simp)
  · exact absurd h (by simp)

theorem bbFrame_trailingShort (config : Config) (row : Bar) (s : SimState)
    (cr : Color × Reason) :
    BbFrame s (trailingShortPhase config row s cr).1 := by
  unfold trailingShortPhase
  dsimp only
  repeat' split
  all_goals exact bbFrame_refl s

theorem bbFrame_trailingLong (config : Config) (row : Bar) (s : SimState)
    (cr : Color × Reason) :
    BbFrame s (trailingLongPhase config row s cr).1 := by
  unfold trailingLongPhase
  dsimp only
  repeat' split
  all_goals exact bbFrame_refl s

theorem bbFrame_ladderLong (config : Config) (positionSize : ℚ)
    (barIdx : ℕ) (row : Bar) (s : SimState) :
    BbFrame s (ladderLongStep config positionSize barIdx row s).1 := by
  unfold ladderLongStep
  rcases hl : s.openLong with _ | p
  · exact bbFrame_refl s
  · dsimp only
    split
    · obtain ⟨added, h1, h2, h3, h4⟩ := ladderLoop_spec Color.green
        Reason.emaCrossUp p barIdx row.close positionSize
        ((row.close - p.entryPrice) / p.entryPrice * 100)
        ((config.profitLadderLevels.zip config.profitLadderFractions).enum)
        s.trades s.longRemaining s.ladderTrimsLong false
      exact ⟨⟨added, h1, fun t ht =>
        ⟨by rw [(h2 t ht).1]; simp, by rw [(h2 t ht).1]; simp⟩⟩,
        rfl, rfl, rfl, rfl⟩
    · exact bbFrame_refl s

theorem bbFrame_ladderShort (config : Config) (positionSize : ℚ)
    (barIdx : ℕ) (row : Bar) (st : SimState × Bool) :
    BbFrame st.1 (ladderShortStep config positionSize barIdx row st).1 := by
  unfold ladderShortStep
  rcases hl : st.1.openShort with _ | p
  · exact bbFrame_refl st.1
  · dsimp only
    split
    · obtain ⟨added, h1, h2, h3, h4⟩ := ladderLoop_spec Color.red
        Reason.emaCrossDown p barIdx row.close positionSize
        ((p.entryPrice - row.close) / p.entryPrice * 100)
        (((config.shortLadderLevels.getD config.profitLadderLevels).zip
          (config.shortLadderFractions.getD config.profitLadderFractions)).enum)
        st.1.trades st.1.shortRemaining st.1.ladderTrimsShort st.2
      exact ⟨⟨added, h1, fun t ht =>
        ⟨by rw [(h2 t ht).1]; simp, by rw [(h2 t ht).1]; simp⟩⟩,
        rfl, rfl, rfl, rfl⟩
    · exact bbFrame_refl st.1

theorem bbFrame_ladderPhase (config : Config) (positionSize : ℚ)
    (barIdx : ℕ) (row : Bar) (s : SimState) :
    BbFrame s (ladderPhase config positionSize barIdx row s).1 :=
  bbFrame_trans (bbFrame_ladderLong config positionSize barIdx row s)
    (bbFrame_ladderShort config positionSize barIdx row _)

theorem bbFrame_yellowLong (config : Config) (positionSize : ℚ)
    (barIdx : ℕ) (row : Bar) (trimmed : Bool) (s : SimState) :
    BbFrame s (yellowLongPhase config positionSize barIdx row trimmed s) := by
  unfold yellowLongPhase
  repeat'
    first
    | split
    | (dsimp only; split)
  all_goals
    first
    | exact bbFrame_refl s
    | (refine ⟨⟨_, rfl, ?_⟩, rfl, rfl, rfl, rfl⟩
       intro t ht
       rcases List.mem_singleton.mp ht with rfl
       exact ⟨by simp [yellowTrimRec], by simp [yellowTrimRec]⟩)

theorem bbFrame_yellowShort (config : Config) (positionSize : ℚ)
    (barIdx : ℕ) (row : Bar) (trimmed : Bool) (s : SimState) :
    BbFrame s (yellowShortPhase config positionSize barIdx row trimmed s) := by
  unfold yellowShortPhase
  repeat'
    first
    | split
    | (dsimp only; split)
  all_goals
    first
    | exact bbFrame_refl s
    | (refine ⟨⟨_, rfl, ?_⟩, rfl, rfl, rfl, rfl⟩
       intro t ht
       rcases List.mem_singleton.mp ht with rfl
       exact ⟨by simp [yellowTrimRec], by simp [yellowTrimRec]⟩)

theorem bbFrame_velocityLong (config : Config) (positionSize : ℚ)
    (barIdx : ℕ) (row : Bar) (delta : ℚ) (s : SimState) :
    BbFrame s (velocityLongStep config positionSize barIdx row delta s) := by
  unfold velocityLongStep
  repeat'
    first
    | split
    | (dsimp only; split)
  all_goals
    first
    | exact bbFrame_refl s
    | (refine ⟨⟨_, rfl, ?_⟩, rfl, rfl, rfl, rfl⟩
       intro t ht
       rcases List.mem_singleton.mp ht with rfl
       exact ⟨by simp [yellowTrimRec], by simp [yellowTrimRec]⟩)

theorem bbFrame_velocityShort (config : Config) (positionSize : ℚ)
    (barIdx : ℕ) (row : Bar) (delta : ℚ) (s : SimState) :
    BbFrame s (velocityShortStep config positionSize barIdx row delta s) := by
  unfold velocityShortStep
  repeat'
    first
    | split
    | (dsimp only; split)
  all_goals
    first
    | exact bbFrame_refl s
    | (refine ⟨⟨_, rfl, ?_⟩, rfl, rfl, rfl, rfl⟩
       intro t ht
       rcases List.mem_singleton.mp ht with rfl
       exact ⟨by simp [yellowTrimRec], by simp [yellowTrimRec]⟩)

theorem bbFrame_velocityPhase (config : Config) (positionSize : ℚ)
    (barIdx : ℕ) (row : Bar) (trimmed : Bool) (s : SimState) :
    BbFrame s (velocityPhase config positionSize barIdx row trimmed s) := by
  unfold velocityPhase
  repeat'
    first
    | split
    | (dsimp only; split)
  all_goals
    first
    | exact bbFrame_refl s
    | exact bbFrame_trans
        (bbFrame_velocityLong config positionSize barIdx row _ s)
        (bbFrame_velocityShort config positionSize barIdx row _ _)

theorem bbFrame_closeLong (positionSize : ℚ) (barIdx : ℕ) (row : Bar)
    (cr : Color × Reason) (s : SimState) :
    BbFrame s (closeLongPhase positionSize barIdx row cr s) := by
  unfold closeLongPhase
  repeat'
    first
    | split
    | (dsimp only; split)
  all_goals
    first
    | exact bbFrame_refl s
    | (refine ⟨⟨_, List.append_assoc _ _ _, ?_⟩, rfl, rfl, rfl, rfl⟩
       intro t ht
       rcases List.mem_append.mp ht with h | h
       · rcases List.mem_singleton.mp h with rfl
         exact ⟨by simp, by simp⟩
       · rcases List.mem_map.mp h with ⟨piece, hp, rfl⟩
         exact ⟨by simp, by simp⟩)

theorem bbFrame_closeShort (positionSize : ℚ) (barIdx : ℕ) (row : Bar)
    (cr : Color × Reason) (s : SimState) :
    BbFrame s (closeShortPhase positionSize barIdx row cr s) := by
  unfold closeShortPhase
  repeat'
    first
    | split
    | (dsimp only; split)
  all_goals
    first
    | exact bbFrame_refl s
    | (refine ⟨⟨_, List.append_assoc _ _ _, ?_⟩, rfl, rfl, rfl, rfl⟩
       intro t ht
       rcases List.mem_append.mp ht with h | h
       · rcases List.mem_singleton.mp h with rfl
         exact ⟨by simp, by simp⟩
       · rcases List.mem_map.mp h with ⟨piece, hp, rfl⟩
         exact ⟨by simp, by simp⟩)

theorem bbFrame_confirm (row : Bar) (cr : Color × Reason) (s : SimState) :
    BbFrame s (confirmPhase row cr s) := by
  unfold confirmPhase confirmGreenStep confirmRedStep
  repeat' split
  all_goals exact bbFrame_refl s

theorem bbFrame_openLong (config : Config) (barIdx : ℕ) (row : Bar)
    (cr : Color × Reason) (s : SimState) :
    BbFrame s (openLongPhase config barIdx row cr s) := by
  unfold openLongPhase
  repeat'
    first
    | split
    | (dsimp only; split)
  all_goals
    first
    | exact bbFrame_refl s
    | (refine ⟨⟨_, rfl, ?_⟩, rfl, rfl, rfl, rfl⟩
       intro t ht
       rcases List.mem_singleton.mp ht with rfl
       exact ⟨by simp [dcaEntryRec], by simp [dcaEntryRec]⟩)

theorem bbFrame_openShort (config : Config) (barIdx : ℕ) (row : Bar)
    (cr : Color × Reason) (s : SimState) :
    BbFrame s (openShortPhase config barIdx row cr s) := by
  unfold openShortPhase
  repeat'
    first
    | split
    | (dsimp only; split)
  all_goals
    first
    | exact bbFrame_refl s
    | (refine ⟨⟨_, rfl, ?_⟩, rfl, rfl, rfl, rfl⟩
       intro t ht
       rcases List.mem_singleton.mp ht with rfl
       exact ⟨by simp [dcaEntryRec], by simp [dcaEntryRec]⟩)

theorem bbFrame_dcaFillLong (config : Config) (barIdx : ℕ) (row : Bar)
    (s : SimState) : BbFrame s (dcaFillLongStep config barIdx row s) := by
  unfold dcaFillLongStep
  repeat'
    first
    | split
    | (dsimp only; split)
  all_goals
    first
    | exact bbFrame_refl s
    | (refine ⟨⟨_, rfl, ?_⟩, rfl, rfl, rfl, rfl⟩
       intro t ht
       rcases List.mem_singleton.mp ht with rfl
       exact ⟨by simp [dcaEntryRec], by simp [dcaEntryRec]⟩)

theorem bbFrame_dcaFillShort (config : Config) (barIdx : ℕ) (row : Bar)
    (s : SimState) : BbFrame s (dcaFillShortStep config barIdx row s) := by
  unfold dcaFillShortStep
  repeat'
    first
    | split
    | (dsimp only; split)
  all_goals
    first
    | exact bbFrame_refl s
    | (refine ⟨⟨_, rfl, ?_⟩, rfl, rfl, rfl, rfl⟩
       intro t ht
       rcases List.mem_singleton.mp ht with rfl
       exact ⟨by simp [dcaEntryRec], by simp [dcaEntryRec]⟩)

theorem bbFrame_dcaFillPhase (config : Config) (barIdx : ℕ) (row : Bar)
    (trimmed : Bool) (s : SimState) :
    BbFrame s (dcaFillPhase config barIdx row trimmed s) := by
  unfold dcaFillPhase
  split
  · exact bbFrame_trans (bbFrame_dcaFillLong config barIdx row s)
      (bbFrame_dcaFillShort config barIdx row _)
  · exact bbFrame_refl s

theorem bbFrame_pullbackLong (config : Config) (barIdx : ℕ) (row : Bar)
    (s : SimState) : BbFrame s (pullbackLongStep config barIdx row s) := by
  unfold pullbackLongStep
  repeat'
    first
    | split
    | (dsimp only; split)
  all_goals
    first
    | exact bbFrame_refl s
    | (refine ⟨⟨_, rfl, ?_⟩, rfl, rfl, rfl, rfl⟩
       intro t ht
       rcases List.mem_singleton.mp ht with rfl
       exact ⟨by simp, by simp⟩)

theorem bbFrame_pullbackShort (config : Config) (barIdx : ℕ) (row : Bar)
    (s : SimState) : BbFrame s (pullbackShortStep config barIdx row s) := by
  unfold pullbackShortStep
  repeat'
    first
    | split
    | (dsimp only; split)
  all_goals
    first
    | exact bbFrame_refl s
    | (refine ⟨⟨_, rfl, ?_⟩, rfl, rfl, rfl, rfl⟩
       intro t ht
       rcases List.mem_singleton.mp ht with rfl
       exact ⟨by simp, by simp⟩)

theorem bbFrame_pullbackPhase (config : Config) (barIdx : ℕ) (row : Bar)
    (trimmed : Bool) (s : SimState) :
    BbFrame s (pullbackPhase config barIdx row trimmed s) := by
  unfold pullbackPhase
  split
  · exact bbFrame_trans (bbFrame_pullbackLong config barIdx row s)
      (bbFrame_pullbackShort config barIdx row _)
  · exact bbFrame_refl s

theorem bbFrame_bb2CloseLong (config : Config) (positionSize : ℚ)
    (barIdx : ℕ) (row : Bar) (s : SimState) :
    BbFrame s (bb2CloseLongStep config positionSize barIdx row s) := by
  unfold bb2CloseLongStep
  repeat'
    first
    | split
    | (dsimp only; split)
  all_goals
    first
    | exact bbFrame_refl s
    | (refine ⟨⟨_, rfl, ?_⟩, rfl, rfl, rfl, rfl⟩
       intro t ht
       rcases List.mem_singleton.mp ht with rfl
       exact ⟨by simp [bbCloseRec], by simp [bbCloseRec]⟩)

theorem bbFrame_bb2CloseShort (config : Config) (positionSize : ℚ)
    (barIdx : ℕ) (row : Bar) (s : SimState) :
    BbFrame s (bb2CloseShortStep config positionSize barIdx row s) := by
  unfold bb2CloseShortStep
  repeat'
    first
    | split
    | (dsimp only; split)
  all_goals
    first
    | exact bbFrame_refl s
    | (refine ⟨⟨_, rfl, ?_⟩, rfl, rfl, rfl, rfl⟩
       intro t ht
       rcases List.mem_singleton.mp ht with rfl
       exact ⟨by simp [bbCloseRec], by simp [bbCloseRec]⟩)

theorem bbFrame_bb2OpenLong (config : Config) (barIdx : ℕ) (row : Bar)
    (s : SimState) : BbFrame s (bb2OpenLongStep config barIdx row s) := by
  unfold bb2OpenLongStep
  dsimp only
  split <;> exact bbFrame_refl s

theorem bbFrame_bb2OpenShort (config : Config) (barIdx : ℕ) (row : Bar)
    (s : SimState) : BbFrame s (bb2OpenShortStep config barIdx row s) := by
  unfold bb2OpenShortStep
  dsimp only
  split <;> exact bbFrame_refl s

theorem bbFrame_bb2Phase (config : Config) (positionSize : ℚ)
    (barIdx : ℕ) (row : Bar) (s : SimState) :
    BbFrame s (bb2Phase config positionSize barIdx row s) := by
  unfold bb2Phase
  split
  · exact bbFrame_trans
      (bbFrame_trans
        (bbFrame_trans (bbFrame_bb2CloseLong config positionSize barIdx row s)
          (bbFrame_bb2CloseShort config positionSize barIdx row _))
        (bbFrame_bb2OpenLong config barIdx row _))
      (bbFrame_bb2OpenShort config barIdx row _)
  · exact bbFrame_refl s

theorem c9Side_mono {c : ℤ} {n m : ℕ} {d : TDir} {tr : List Trade}
    {op : Option Pos} {cool : ℤ} (h : C9Side c n d tr op cool)
    (hnm : n ≤ m) : C9Side c m d tr op cool := by
  obtain ⟨h1, h2, h3⟩ := h
  refine ⟨?_, ?_, h3⟩
  · intro t ht hd
    obtain ⟨he, hx⟩ := h1 t ht hd
    exact ⟨lt_of_lt_of_le he hnm, fun e h4 h5 =>
      ⟨(hx e h4 h5).1, lt_of_lt_of_le (hx e h4 h5).2 hnm⟩⟩
  · intro p hp
    exact ⟨lt_of_lt_of_le (h2 p hp).1 hnm, (h2 p hp).2⟩

theorem c9Side_append {c : ℤ} {n : ℕ} {d : TDir} {tr : List Trade}
    {op : Option Pos} {cool : ℤ} (new : List Trade)
    (hnew : ∀ t ∈ new, t.dir ≠ d) (h : C9Side c n d tr op cool) :
    C9Side c n d (tr ++ new) op cool := by
  obtain ⟨h1, h2, h3⟩ := h
  refine ⟨?_, h2, ?_⟩
  · intro t ht hd
    rcases List.mem_append.mp ht with h4 | h4
    · exact h1 t h4 hd
    · exact absurd hd (hnew t h4)
  · intro t1 ht1 t2 ht2 hd1 hd2
    rcases List.mem_append.mp ht1 with h4 | h4
    · rcases List.mem_append.mp ht2 with h5 | h5
      · exact h3 t1 h4 t2 h5 hd1 hd2
      · exact fun e he hr => absurd hd2 (hnew t2 h5)
    · exact fun e he hr => absurd hd1 (hnew t1 h4)

theorem c9Inv_mono {c : ℤ} {n m : ℕ} {s : SimState} (h : C9Inv c n s)
    (hnm : n ≤ m) : C9Inv c m s :=
  ⟨c9Side_mono h.1 hnm, c9Side_mono h.2 hnm⟩

theorem c9Inv_of_frame {c : ℤ} {n : ℕ} {s s' : SimState}
    (hf : BbFrame s s') (h : C9Inv c n s) : C9Inv c n s' := by
  obtain ⟨⟨new, htr, hnew⟩, e1, e2, e3, e4⟩ := hf
  constructor
  · have h5 := c9Side_append new (fun t ht => (hnew t ht).1) h.1
    rw [htr, e1, e2]
    exact h5
  · have h5 := c9Side_append new (fun t ht => (hnew t ht).2) h.2
    rw [htr, e3, e4]
    exact h5

theorem bbCloseRec_exitReason (d : TDir) (p : Pos) (barIdx : ℕ)
    (price pnlPct pnlUsd : ℚ) (reason : Reason) :
    (bbCloseRec d p barIdx price pnlPct pnlUsd reason).exitReason =
      some reason := rfl

theorem c9Side_close (c : ℤ) (n : ℕ) (d : TDir) (tr : List Trade)
    (p : Pos) (cool cool2 : ℤ) (r : Trade)
    (hrd : r.dir = d) (hre : r.entryBar = p.entryBar)
    (hrx : r.exitBar = some n)
    (hstopc : r.exitReason = some Reason.bbStop → (n : ℤ) + c ≤ cool2)
    (hkeep : ∀ e : ℕ, e ≤ n → (e : ℤ) + c ≤ cool → (e : ℤ) + c ≤ cool2)
    (h : C9Side c (n + 1) d tr (some p) cool) :
    C9Side c (n + 1) d (tr ++ [r]) none cool2 := by
  obtain ⟨h1, h2, h3⟩ := h
  obtain ⟨hpn, hpc⟩ := h2 p rfl
  refine ⟨?_, ?_, ?_⟩
  · intro t ht hd
    rcases List.mem_append.mp ht with hm | hm
    · obtain ⟨hen, hx⟩ := h1 t hm hd
      refine ⟨hen, fun e he hr => ?_⟩
      obtain ⟨hxc, hxn⟩ := hx e he hr
      exact ⟨hkeep e (by omega) hxc, hxn⟩
    · rcases List.mem_singleton.mp hm with rfl
      refine ⟨by rw [hre]; omega, fun e he hr => ?_⟩
      rw [hrx] at he
      obtain rfl := (Option.some_inj.mp he).symm
      exact ⟨by simpa using hstopc hr, by omega⟩
  · intro p' hp'
    cases hp'
  · intro t1 ht1 t2 ht2 hd1 hd2 e he hr
    rcases List.mem_append.mp ht1 with hm1 | hm1 <;>
      rcases List.mem_append.mp ht2 with hm2 | hm2
    · exact h3 t1 hm1 t2 hm2 hd1 hd2 e he hr
    · rcases List.mem_singleton.mp hm2 with rfl
      right
      obtain ⟨hen1, hx1⟩ := h1 t1 hm1 hd1
      have h6 := (hx1 e he hr).1
      rw [hre]
      omega
    · rcases List.mem_singleton.mp hm1 with rfl
      left
      rw [hrx] at he
      obtain rfl := (Option.some_inj.mp he).symm
      obtain ⟨hen2, _⟩ := h1 t2 hm2 hd2
      omega
    · rcases List.mem_singleton.mp hm1 with rfl
      rcases List.mem_singleton.mp hm2 with rfl
      left
      rw [hrx] at he
      obtain rfl := (Option.some_inj.mp he).symm
      rw [hre]
      omega

theorem c9Inv_bbCloseLong (config : Config) (positionSize : ℚ) (n : ℕ)
    (row : Bar) (s : SimState) (hc : 0 < config.rsiBbCooldownDays)
    (h : C9Inv (config.rsiBbCooldownDays : ℤ) (n + 1) s) :
    C9Inv (config.rsiBbCooldownDays : ℤ) (n + 1)
      (bbCloseLongStep config positionSize n row s) := by
  unfold bbCloseLongStep
  rcases hbl : s.bbOpenLong with _ | p
  · exact h
  · dsimp only
    have hL := h.1
    rw [hbl] at hL
    by_cases hst : round2 ((row.close - p.entryPrice) / p.entryPrice * 100) ≤
        -config.rsiBbStopPct
    · split
      · rw [if_pos ⟨hst, hc⟩]
        refine ⟨?_, ?_⟩
        · exact c9Side_close _ n TDir.bbLong s.trades p s.bbLongCooldownUntil
            ((n : ℤ) + (config.rsiBbCooldownDays : ℤ)) _ rfl rfl rfl
            (fun _ => le_refl _) (fun e hen hec => by omega) hL
        · exact c9Side_append [_] (fun t ht => by
            rcases List.mem_singleton.mp ht with rfl
            simp [bbCloseRec]) h.2
      · refine ⟨⟨h.1.1, ?_, h.1.2.2⟩, h.2⟩
        intro p' hp'
        exact h.1.2.1 p' (hbl.trans hp')
    · split
      · have hnc : ¬(round2 ((row.close - p.entryPrice) / p.entryPrice * 100) ≤
            -config.rsiBbStopPct ∧ 0 < config.rsiBbCooldownDays) :=
          fun hx => hst hx.1
        rw [if_neg hnc]
        refine ⟨?_, ?_⟩
        · refine c9Side_close _ n TDir.bbLong s.trades p s.bbLongCooldownUntil
            s.bbLongCooldownUntil _ rfl rfl rfl
            ?_ (fun e hen hec => hec) hL
          intro hr
          rw [bbCloseRec_exitReason] at hr
          have h9 := Option.some_inj.mp hr
          split at h9 <;> cases h9
        · exact c9Side_append [_] (fun t ht => by
            rcases List.mem_singleton.mp ht with rfl
            simp [bbCloseRec]) h.2
      · refine ⟨⟨h.1.1, ?_, h.1.2.2⟩, h.2⟩
        intro p' hp'
        exact h.1.2.1 p' (hbl.trans hp')

theorem c9Inv_bbCloseShort (config : Config) (positionSize : ℚ) (n : ℕ)
    (row : Bar) (s : SimState) (hc : 0 < config.rsiBbCooldownDays)
    (h : C9Inv (config.rsiBbCooldownDays : ℤ) (n + 1) s) :
    C9Inv (config.rsiBbCooldownDays : ℤ) (n + 1)
      (bbCloseShortStep config positionSize n row s) := by
  unfold bbCloseShortStep
  rcases hbs : s.bbOpenShort with _ | p
  · exact h
  · dsimp only
    have hS := h.2
    rw [hbs] at hS
    by_cases hst : round2 ((p.entryPrice - row.close) / p.entryPrice * 100) ≤
        -config.rsiBbStopPct
    · split
      · rw [if_pos ⟨hst, hc⟩]
        refine ⟨?_, ?_⟩
        · exact c9Side_append [_] (fun t ht => by
            rcases List.mem_singleton.mp ht with rfl
            simp [bbCloseRec]) h.1
        · exact c9Side_close _ n TDir.bbShort s.trades p s.bbShortCooldownUntil
            ((n : ℤ) + (config.rsiBbCooldownDays : ℤ)) _ rfl rfl rfl
            (fun _ => le_refl _) (fun e hen hec => by omega) hS
      · refine ⟨h.1, ⟨h.2.1, ?_, h.2.2.2⟩⟩
        intro p' hp'
        exact h.2.2.1 p' (hbs.trans hp')
    · split
      · have hnc : ¬(round2 ((p.entryPrice - row.close) / p.entryPrice * 100) ≤
            -config.rsiBbStopPct ∧ 0 < config.rsiBbCooldownDays) :=
          fun hx => hst hx.1
        rw [if_neg hnc]
        refine ⟨?_, ?_⟩
        · exact c9Side_append [_] (fun t ht => by
            rcases List.mem_singleton.mp ht with rfl
            simp [bbCloseRec]) h.1
        · refine c9Side_close _ n TDir.bbShort s.trades p s.bbShortCooldownUntil
            s.bbShortCooldownUntil _ rfl rfl rfl
            ?_ (fun e hen hec => hec) hS
          intro hr
          rw [bbCloseRec_exitReason] at hr
          have h9 := Option.some_inj.mp hr
          split at h9 <;> cases h9
      · refine ⟨h.1, ⟨h.2.1, ?_, h.2.2.2⟩⟩
        intro p' hp'
        exact h.2.2.1 p' (hbs.trans hp')

theorem c9Inv_bbOpenLong (config : Config) (n : ℕ) (row : Bar)
    (s : SimState) (h : C9Inv (config.rsiBbCooldownDays : ℤ) (n + 1) s) :
    C9Inv (config.rsiBbCooldownDays : ℤ) (n + 1)
      (bbOpenLongStep config n row s) := by
  unfold bbOpenLongStep
  dsimp only
  split
  · rename_i hcond
    refine ⟨⟨h.1.1, ?_, h.1.2.2⟩, h.2⟩
    intro p' hp'
    obtain rfl := (Option.some_inj.mp hp').symm
    exact ⟨Nat.lt_succ_self n, hcond.2.2.2.2⟩
  · exact h

theorem c9Inv_bbOpenShort (config : Config) (n : ℕ) (row : Bar)
    (s : SimState) (h : C9Inv (config.rsiBbCooldownDays : ℤ) (n + 1) s) :
    C9Inv (config.rsiBbCooldownDays : ℤ) (n + 1)
      (bbOpenShortStep config n row s) := by
  unfold bbOpenShortStep
  dsimp only
  split
  · rename_i hcond
    refine ⟨h.1, ⟨h.2.1, ?_, h.2.2.2⟩⟩
    intro p' hp'
    obtain rfl := (Option.some_inj.mp hp').symm
    exact ⟨Nat.lt_succ_self n, hcond.2.2.2.2⟩
  · exact h

theorem c9Inv_bbPhase (config : Config) (positionSize : ℚ) (n : ℕ)
    (row : Bar) (s : SimState) (hc : 0 < config.rsiBbCooldownDays)
    (h : C9Inv (config.rsiBbCooldownDays : ℤ) n s) :
    C9Inv (config.rsiBbCooldownDays : ℤ) (n + 1)
      (bbPhase config positionSize n row s) := by
  unfold bbPhase
  split
  · exact c9Inv_bbOpenShort config n row _
      (c9Inv_bbOpenLong config n row _
        (c9Inv_bbCloseShort config positionSize n row _ hc
          (c9Inv_bbCloseLong config positionSize n row s hc
            (c9Inv_mono h (Nat.le_succ n)))))
  · exact c9Inv_mono h (Nat.le_succ n)

theorem c9Inv_simStep (config : Config) (positionSize : ℚ)
    (isBtc hasBtcDf : Bool) (hc : 0 < config.rsiBbCooldownDays)
    (n : ℕ) (row : Bar) (s : SimState)
    (h : C9Inv (config.rsiBbCooldownDays : ℤ) n s) :
    C9Inv (config.rsiBbCooldownDays : ℤ) (n + 1)
      (simStep config positionSize isBtc hasBtcDf s (n, row)) := by
  unfold simStep
  dsimp only
  rcases hb : btcCrashPhase config isBtc hasBtcDf positionSize n row s
    with _ | s'
  · dsimp only
    refine c9Inv_of_frame (bbFrame_bb2Phase _ _ _ _ _)
      (c9Inv_bbPhase _ _ _ _ _ hc (c9Inv_of_frame ?_ h))
    exact bbFrame_trans (bbFrame_trailingShort _ _ _ _)
      (bbFrame_trans (bbFrame_trailingLong _ _ _ _)
      (bbFrame_trans (bbFrame_ladderPhase _ _ _ _ _)
      (bbFrame_trans (bbFrame_yellowLong _ _ _ _ _ _)
      (bbFrame_trans (bbFrame_yellowShort _ _ _ _ _ _)
      (bbFrame_trans (bbFrame_velocityPhase _ _ _ _ _ _)
      (bbFrame_trans (bbFrame_closeLong _ _ _ _ _)
      (bbFrame_trans (bbFrame_closeShort _ _ _ _ _)
      (bbFrame_trans (bbFrame_confirm _ _ _)
      (bbFrame_trans (bbFrame_openLong _ _ _ _ _)
      (bbFrame_trans (bbFrame_openShort _ _ _ _ _)
      (bbFrame_trans (bbFrame_dcaFillPhase _ _ _ _ _)
        (bbFrame_pullbackPhase _ _ _ _ _))))))))))))
  · dsimp only
    exact c9Inv_mono
      (c9Inv_of_frame (bbFrame_btcCrash config isBtc hasBtcDf positionSize
        n row s s' hb) h) (Nat.le_succ n)

theorem c9Inv_fold (config : Config) (positionSize : ℚ)
    (isBtc hasBtcDf : Bool) (hc : 0 < config.rsiBbCooldownDays)
    (l : List Bar) :
    ∀ (n : ℕ) (s : SimState), C9Inv (config.rsiBbCooldownDays : ℤ) n s →
      C9Inv (config.rsiBbCooldownDays : ℤ) (n + l.length)
        (List.foldl (simStep config positionSize isBtc hasBtcDf) s
          (List.enumFrom n l)) := by
  induction l with
  | nil =>
    intro n s h
    simpa using h
  | cons b l ih =>
    intro n s h
    have h1 := c9Inv_simStep config positionSize isBtc hasBtcDf hc n b s h
    have h2 := ih (n + 1) _ h1
    simp only [List.length_cons]
    rw [show n + (l.length + 1) = (n + 1) + l.length by omega]
    exact h2

theorem c9Side_final {c : ℤ} {n : ℕ} {d : TDir} {tr : List Trade}
    {op : Option Pos} {cool : ℤ} (h : C9Side c n d tr op cool)
    (t1 : Trade) (h1 : t1 ∈ tr) (t2 : Trade)
    (h2mem : t2 ∈ tr ∨ ∃ p, op = some p ∧ t2.entryBar = p.entryBar)
    (hd1 : t1.dir = d) (hd2 : t2.dir = d)
    (hr : t1.exitReason = some Reason.bbStop)
    (i : ℕ) (hi : t1.exitBar = some i) :
    ¬((i : ℤ) < (t2.entryBar : ℤ) ∧ (t2.entryBar : ℤ) ≤ (i : ℤ) + c) := by
  rintro ⟨ha, hb⟩
  rcases h2mem with hm | ⟨p, hp, he⟩
  · rcases h.2.2 t1 h1 t2 hm hd1 hd2 i hi hr with hle | hgt <;> omega
  · obtain ⟨_, hcool⟩ := h.2.1 p hp
    obtain ⟨_, hx⟩ := h.1 t1 h1 hd1
    obtain ⟨hxc, _⟩ := hx i hi hr
    rw [he] at ha hb
    omega

theorem endFlush_c9 (config : Config) (positionSize : ℚ) (lastRow : Bar)
    (s : SimState) :
    ∀ t ∈ endFlush config positionSize lastRow s,
      t ∈ s.trades ∨
      (t.exitReason = none ∧
       (t.dir = TDir.bbLong →
          ∃ p, s.bbOpenLong = some p ∧ t.entryBar = p.entryBar) ∧
       (t.dir = TDir.bbShort →
          ∃ p, s.bbOpenShort = some p ∧ t.entryBar = p.entryBar)) := by
  intro t ht
  unfold endFlush at ht
  dsimp only at ht
  simp only [List.append_assoc, List.mem_append] at ht
  rcases ht with h | ht
  · exact Or.inl h
  right
  rcases ht with h | h | h | h | h | h | h | h
  · split at h
    · rcases List.mem_singleton.mp h with rfl
      exact ⟨rfl, fun hd => absurd hd (by simp), fun hd => absurd hd (by simp)⟩
    · cases h
  · split at h
    · rcases List.mem_singleton.mp h with rfl
      exact ⟨rfl, fun hd => absurd hd (by simp), fun hd => absurd hd (by simp)⟩
    · cases h
  · split at h
    · rename_i p heq
      rcases List.mem_singleton.mp h with rfl
      exact ⟨rfl, fun _ => ⟨p, heq, rfl⟩, fun hd => absurd hd (by simp)⟩
    · cases h
  · split at h
    · rename_i p heq
      rcases List.mem_singleton.mp h with rfl
      exact ⟨rfl, fun hd => absurd hd (by simp), fun _ => ⟨p, heq, rfl⟩⟩
    · cases h
  · split at h
    · rcases List.mem_singleton.mp h with rfl
      exact ⟨rfl, fun hd => absurd hd (by simp), fun hd => absurd hd (by simp)⟩
    · cases h
  · split at h
    · rcases List.mem_singleton.mp h with rfl
      exact ⟨rfl, fun hd => absurd hd (by simp), fun hd => absurd hd (by simp)⟩
    · cases h
  · rcases List.mem_map.mp h with ⟨piece, hp, rfl⟩
    exact ⟨rfl, fun hd => absurd hd (by simp), fun hd => absurd hd (by simp)⟩
  · rcases List.mem_map.mp h with ⟨piece, hp, rfl⟩
    exact ⟨rfl, fun hd => absurd hd (by simp), fun hd => absurd hd (by simp)⟩

/-- **C9** (BB stop cooldown, confirmed).  With a positive configured
cooldown `c`, whenever a complementary-track (BB) record of one
direction is closed by its stop at bar `i`, no BB record of the same
direction has an entry bar `j` with `i < j ≤ i + c` — including the
still-open BB position flushed at the end of the frame; and a close
record carrying the hold-time-expiry or midline-reversion reason leaves
the direction's cooldown marker unchanged. -/
theorem bb_stop_cooldown_blocks_reentry
    (df : List Bar) (positionSize : ℚ) (config : Config)
    (isBtc hasBtcDf : Bool) (hc : 0 < config.rsiBbCooldownDays) :
    (∀ t1 ∈ simulateTrades df positionSize config isBtc hasBtcDf,
     ∀ t2 ∈ simulateTrades df positionSize config isBtc hasBtcDf,
       ((t1.dir = TDir.bbLong ∧ t2.dir = TDir.bbLong) ∨
        (t1.dir = TDir.bbShort ∧ t2.dir = TDir.bbShort)) →
       t1.exitReason = some Reason.bbStop →
       ∀ i, t1.exitBar = some i →
         ¬((i : ℤ) < (t2.entryBar : ℤ) ∧
           (t2.entryBar : ℤ) ≤ (i : ℤ) + (config.rsiBbCooldownDays : ℤ))) ∧
    (∀ (barIdx : ℕ) (row : Bar) (s : SimState) (t : Trade),
       (bbCloseLongStep config positionSize barIdx row s).trades =
         s.trades ++ [t] →
       t.exitReason = some Reason.bbExpiry ∨
         t.exitReason = some Reason.bbTarget →
       (bbCloseLongStep config positionSize barIdx row s).bbLongCooldownUntil
         = s.bbLongCooldownUntil) ∧
    (∀ (barIdx : ℕ) (row : Bar) (s : SimState) (t : Trade),
       (bbCloseShortStep config positionSize barIdx row s).trades =
         s.trades ++ [t] →
       t.exitReason = some Reason.bbExpiry ∨
         t.exitReason = some Reason.bbTarget →
       (bbCloseShortStep config positionSize barIdx row s).bbShortCooldownUntil
         = s.bbShortCooldownUntil) := by
  have hinit : C9Inv (config.rsiBbCooldownDays : ℤ) 0 initState := by
    refine ⟨⟨?_, ?_, ?_⟩, ⟨?_, ?_, ?_⟩⟩
    · intro t ht; cases ht
    · intro p hp; exact absurd hp (by simp [initState])
    · intro t1 ht1; cases ht1
    · intro t ht; cases ht
    · intro p hp; exact absurd hp (by simp [initState])
    · intro t1 ht1; cases ht1
  have hfin : C9Inv (config.rsiBbCooldownDays : ℤ) df.length
      (df.enum.foldl (simStep config positionSize isBtc hasBtcDf)
        initState) := by
    have h0 := c9Inv_fold config positionSize isBtc hasBtcDf hc df 0
      initState hinit
    rw [Nat.zero_add] at h0
    exact h0
  refine ⟨?_, ?_, ?_⟩
  · intro t1 ht1 t2 ht2 hdir hr i hi
    unfold simulateTrades at ht1 ht2
    dsimp only at ht1 ht2
    rcases hlast : df.getLast? with _ | lastRow
    · rw [hlast] at ht1 ht2
      dsimp only at ht1 ht2
      rcases hdir with ⟨hd1, hd2⟩ | ⟨hd1, hd2⟩
      · exact c9Side_final hfin.1 t1 ht1 t2 (Or.inl ht2) hd1 hd2 hr i hi
      · exact c9Side_final hfin.2 t1 ht1 t2 (Or.inl ht2) hd1 hd2 hr i hi
    · rw [hlast] at ht1 ht2
      dsimp only at ht1 ht2
      rcases endFlush_c9 config positionSize lastRow _ t1 ht1 with
        hm1 | ⟨hnone, _, _⟩
      · rcases endFlush_c9 config positionSize lastRow _ t2 ht2 with
          hm2 | ⟨_, hbl2, hbs2⟩
        · rcases hdir with ⟨hd1, hd2⟩ | ⟨hd1, hd2⟩
          · exact c9Side_final hfin.1 t1 hm1 t2 (Or.inl hm2) hd1 hd2 hr i hi
          · exact c9Side_final hfin.2 t1 hm1 t2 (Or.inl hm2) hd1 hd2 hr i hi
        · rcases hdir with ⟨hd1, hd2⟩ | ⟨hd1, hd2⟩
          · exact c9Side_final hfin.1 t1 hm1 t2 (Or.inr (hbl2 hd2)) hd1 hd2
              hr i hi
          · exact c9Side_final hfin.2 t1 hm1 t2 (Or.inr (hbs2 hd2)) hd1 hd2
              hr i hi
      · rw [hnone] at hr
        cases hr
  · intro barIdx row s t htr hexp
    unfold bbCloseLongStep at htr ⊢
    rcases hbl : s.bbOpenLong with _ | p
    · rfl
    · rw [hbl] at htr
      dsimp only at htr
      split at htr
      · rename_i hcond
        dsimp only
        have h9 := List.append_cancel_left htr
        injection h9 with h10 h11
        rw [← h10, bbCloseRec_exitReason] at hexp
        by_cases hst : round2 ((row.close - p.entryPrice) / p.entryPrice
            * 100) ≤ -config.rsiBbStopPct
        · rw [if_pos hst] at hexp
          rcases hexp with h12 | h12 <;> cases Option.some_inj.mp h12
        · have hnc : ¬(round2 ((row.close - p.entryPrice) / p.entryPrice
              * 100) ≤ -config.rsiBbStopPct ∧
              0 < config.rsiBbCooldownDays) := fun hx => hst hx.1
          rw [if_pos hcond, if_neg hnc]
      · have h9 := congrArg List.length htr
        simp at h9
  · intro barIdx row s t htr hexp
    unfold bbCloseShortStep at htr ⊢
    rcases hbs : s.bbOpenShort with _ | p
    · rfl
    · rw [hbs] at htr
      dsimp only at htr
      split at htr
      · rename_i hcond
        dsimp only
        have h9 := List.append_cancel_left htr
        injection h9 with h10 h11
        rw [← h10, bbCloseRec_exitReason] at hexp
        by_cases hst : round2 ((p.entryPrice - row.close) / p.entryPrice
            * 100) ≤ -config.rsiBbStopPct
        · rw [if_pos hst] at hexp
          rcases hexp with h12 | h12 <;> cases Option.some_inj.mp h12
        · have hnc : ¬(round2 ((p.entryPrice - row.close) / p.entryPrice
              * 100) ≤ -config.rsiBbStopPct ∧
              0 < config.rsiBbCooldownDays) := fun hx => hst hx.1
          rw [if_pos hcond, if_neg hnc]
      · have h9 := congrArg List.length htr
        simp at h9

/-- Witness for C9 at a concrete one-bar frame and the improved config,
whose configured BB cooldown is 3 > 0 bars. -/
theorem bb_stop_cooldown_blocks_reentry_witness :
    (∀ t1 ∈ simulateTrades [plainBar] 1000 improvedConfig false false,
     ∀ t2 ∈ simulateTrades [plainBar] 1000 improvedConfig false false,
       ((t1.dir = TDir.bbLong ∧ t2.dir = TDir.bbLong) ∨
        (t1.dir = TDir.bbShort ∧ t2.dir = TDir.bbShort)) →
       t1.exitReason = some Reason.bbStop →
       ∀ i, t1.exitBar = some i →
         ¬((i : ℤ) < (t2.entryBar : ℤ) ∧
           (t2.entryBar : ℤ) ≤ (i : ℤ) +
             (improvedConfig.rsiBbCooldownDays : ℤ))) ∧
    (∀ (barIdx : ℕ) (row : Bar) (s : SimState) (t : Trade),
       (bbCloseLongStep improvedConfig 1000 barIdx row s).trades =
         s.trades ++ [t] →
       t.exitReason = some Reason.bbExpiry ∨
         t.exitReason = some Reason.bbTarget →
       (bbCloseLongStep improvedConfig 1000 barIdx row s).bbLongCooldownUntil
         = s.bbLongCooldownUntil) ∧
    (∀ (barIdx : ℕ) (row : Bar) (s : SimState) (t : Trade),
       (bbCloseShortStep improvedConfig 1000 barIdx row s).trades =
         s.trades ++ [t] →
       t.exitReason = some Reason.bbExpiry ∨
         t.exitReason = some Reason.bbTarget →
       (bbCloseShortStep improvedConfig 1000 barIdx row s).bbShortCooldownUntil
         = s.bbShortCooldownUntil) :=
  bb_stop_cooldown_blocks_reentry [plainBar] 1000 improvedConfig false false
    (by decide)

theorem trimSum_append (a b : List Trade) (c : Color) (bb : ℕ) :
    trimSum (a ++ b) c bb = trimSum a c bb + trimSum b c bb := by
  induction a with
  | nil => simp [trimSum]
  | cons t ts ih =>
    simp only [List.cons_append, trimSum, List.append_eq, ih]
    ring

theorem trimSum_nontrim {l : List Trade} (c : Color) (b : ℕ)
    (h : ∀ t ∈ l, t.dir ≠ TDir.trim) : trimSum l c b = 0 := by
  induction l with
  | nil => rfl
  | cons t ts ih =>
    rw [trimSum, if_neg (fun hx : t.dir = TDir.trim ∧ t.entryColor = c ∧
        t.entryBar = b => h t (List.mem_cons_self t ts) hx.1),
      ih (fun t2 ht2 => h t2 (List.mem_cons_of_mem t ht2)), add_zero]

theorem trimSum_fresh {l : List Trade} (c : Color) {n : ℕ}
    (h : ∀ t ∈ l, t.dir = TDir.trim → t.entryBar < n) :
    trimSum l c n = 0 := by
  induction l with
  | nil => rfl
  | cons t ts ih =>
    rw [trimSum, if_neg (fun hx : t.dir = TDir.trim ∧ t.entryColor = c ∧
        t.entryBar = n =>
        Nat.lt_irrefl n (hx.2.2 ▸ h t (List.mem_cons_self t ts) hx.1)),
      ih (fun t2 ht2 => h t2 (List.mem_cons_of_mem t ht2)), add_zero]

theorem trimSum_matched {l : List Trade} {c : Color} {b : ℕ}
    (h : ∀ t ∈ l, t.dir = TDir.trim ∧ t.entryColor = c ∧ t.entryBar = b) :
    trimSum l c b = (l.map (fun t => t.trimFrac)).sum := by
  induction l with
  | nil => rfl
  | cons t ts ih =>
    rw [trimSum, if_pos (h t (List.mem_cons_self t ts)),
      ih (fun t2 ht2 => h t2 (List.mem_cons_of_mem t ht2))]
    simp

theorem trimSum_other {l : List Trade} {c : Color} {b : ℕ}
    (hmatch : ∀ t ∈ l, t.entryColor = c ∧ t.entryBar = b)
    (c' : Color) (b' : ℕ) (hne : ¬(c' = c ∧ b' = b)) :
    trimSum l c' b' = 0 := by
  induction l with
  | nil => rfl
  | cons t ts ih =>
    rw [trimSum, if_neg (fun hx : t.dir = TDir.trim ∧ t.entryColor = c' ∧
        t.entryBar = b' => hne
        ⟨hx.2.1.symm.trans (hmatch t (List.mem_cons_self t ts)).1,
         hx.2.2.symm.trans (hmatch t (List.mem_cons_self t ts)).2⟩),
      ih (fun t2 ht2 => hmatch t2 (List.mem_cons_of_mem t ht2)), add_zero]

theorem trimFrame_refl (s : SimState) : TrimFrame s s :=
  ⟨⟨[], (List.append_nil _).symm, by intro t ht; cases ht⟩,
   rfl, rfl, rfl, rfl, rfl, rfl, rfl, rfl⟩

theorem trimFrame_trans {s1 s2 s3 : SimState} (h12 : TrimFrame s1 s2)
    (h23 : TrimFrame s2 s3) : TrimFrame s1 s3 := by
  obtain ⟨⟨n1, e1, hp1⟩, f1, f2, f3, f4, f5, f6, f7, f8⟩ := h12
  obtain ⟨⟨n2, e2, hp2⟩, g1, g2, g3, g4, g5, g6, g7, g8⟩ := h23
  refine ⟨⟨n1 ++ n2, ?_, ?_⟩, g1.trans f1, g2.trans f2, g3.trans f3,
    g4.trans f4, g5.trans f5, g6.trans f6, g7.trans f7, g8.trans f8⟩
  · rw [e2, e1, List.append_assoc]
  · intro t ht
    rcases List.mem_append.mp ht with h | h
    exacts [hp1 t h, hp2 t h]

theorem trimInv_of_frame {cfg : Config} {nT nP : ℕ} {s s' : SimState}
    (hf : TrimFrame s s') (h : TrimInv cfg nT nP s) : TrimInv cfg nT nP s' := by
  obtain ⟨⟨new, htr, hnew⟩, e1, e2, e3, e4, e5, e6, e7, e8⟩ := hf
  obtain ⟨hL, hS, hF, hG, hOL, hOS, hD⟩ := h
  have hz : ∀ c b, trimSum s'.trades c b = trimSum s.trades c b := by
    intro c b
    rw [htr, trimSum_append, trimSum_nontrim c b hnew, add_zero]
  have hfl : futureL cfg s' = futureL cfg s := by
    unfold futureL
    rw [e5, e7]
  have hfs : futureS cfg s' = futureS cfg s := by
    unfold futureS
    rw [e6, e8]
  refine ⟨by rw [e3]; exact hL, by rw [e4]; exact hS, ?_, ?_, ?_, ?_, ?_⟩
  · intro t ht hd
    rw [htr] at ht
    rcases List.mem_append.mp ht with hm | hm
    · exact hF t hm hd
    · exact absurd hd (hnew t hm)
  · intro c b
    rw [hz]
    exact hG c b
  · intro p hp
    rw [e1] at hp
    obtain ⟨hb, hbud⟩ := hOL p hp
    rw [hz, e3, hfl]
    exact ⟨hb, hbud⟩
  · intro p hp
    rw [e2] at hp
    obtain ⟨hb, hbud⟩ := hOS p hp
    rw [hz, e4, hfs]
    exact ⟨hb, hbud⟩
  · intro hd
    exact ⟨e5.trans (hD hd).1, e6.trans (hD hd).2⟩

theorem trimFrame_trailingShort (config : Config) (row : Bar)
    (s : SimState) (cr : Color × Reason) :
    TrimFrame s (trailingShortPhase config row s cr).1 := by
  unfold trailingShortPhase
  dsimp only
  repeat' split
  all_goals exact trimFrame_refl s

theorem trimFrame_trailingLong (config : Config) (row : Bar)
    (s : SimState) (cr : Color × Reason) :
    TrimFrame s (trailingLongPhase config row s cr).1 := by
  unfold trailingLongPhase
  dsimp only
  repeat' split
  all_goals exact trimFrame_refl s

theorem trimFrame_confirm (row : Bar) (cr : Color × Reason)
    (s : SimState) : TrimFrame s (confirmPhase row cr s) := by
  unfold confirmPhase confirmGreenStep confirmRedStep
  repeat' split
  all_goals exact trimFrame_refl s

theorem trimFrame_pullbackLong (config : Config) (barIdx : ℕ) (row : Bar)
    (s : SimState) : TrimFrame s (pullbackLongStep config barIdx row s) := by
  unfold pullbackLongStep
  repeat'
    first
    | split
    | (dsimp only; split)
  all_goals
    first
    | exact trimFrame_refl s
    | (refine ⟨⟨_, rfl, ?_⟩, rfl, rfl, rfl, rfl, rfl, rfl, rfl, rfl⟩
       intro t ht
       rcases List.mem_singleton.mp ht with rfl
       simp)

theorem trimFrame_pullbackShort (config : Config) (barIdx : ℕ) (row : Bar)
    (s : SimState) : TrimFrame s (pullbackShortStep config barIdx row s) := by
  unfold pullbackShortStep
  repeat'
    first
    | split
    | (dsimp only; split)
  all_goals
    first
    | exact trimFrame_refl s
    | (refine ⟨⟨_, rfl, ?_⟩, rfl, rfl, rfl, rfl, rfl, rfl, rfl, rfl⟩
       intro t ht
       rcases List.mem_singleton.mp ht with rfl
       simp)

theorem trimFrame_pullbackPhase (config : Config) (barIdx : ℕ) (row : Bar)
    (trimmed : Bool) (s : SimState) :
    TrimFrame s (pullbackPhase config barIdx row trimmed s) := by
  unfold pullbackPhase
  split
  · exact trimFrame_trans (trimFrame_pullbackLong config barIdx row s)
      (trimFrame_pullbackShort config barIdx row _)
  · exact trimFrame_refl s

theorem trimFrame_bbCloseLong (config : Config) (positionSize : ℚ)
    (barIdx : ℕ) (row : Bar) (s : SimState) :
    TrimFrame s (bbCloseLongStep config positionSize barIdx row s) := by
  unfold bbCloseLongStep
  repeat'
    first
    | split
    | (dsimp only; split)
  all_goals
    first
    | exact trimFrame_refl s
    | (refine ⟨⟨_, rfl, ?_⟩, rfl, rfl, rfl, rfl, rfl, rfl, rfl, rfl⟩
       intro t ht
       rcases List.mem_singleton.mp ht with rfl
       simp [bbCloseRec])

theorem trimFrame_bbCloseShort (config : Config) (positionSize : ℚ)
    (barIdx : ℕ) (row : Bar) (s : SimState) :
    TrimFrame s (bbCloseShortStep config positionSize barIdx row s) := by
  unfold bbCloseShortStep
  repeat'
    first
    | split
    | (dsimp only; split)
  all_goals
    first
    | exact trimFrame_refl s
    | (refine ⟨⟨_, rfl, ?_⟩, rfl, rfl, rfl, rfl, rfl, rfl, rfl, rfl⟩
       intro t ht
       rcases List.mem_singleton.mp ht with rfl
       simp [bbCloseRec])

theorem trimFrame_bbOpenLong (config : Config) (barIdx : ℕ) (row : Bar)
    (s : SimState) : TrimFrame s (bbOpenLongStep config barIdx row s) := by
  unfold bbOpenLongStep
  dsimp only
  split <;> exact trimFrame_refl s

theorem trimFrame_bbOpenShort (config : Config) (barIdx : ℕ) (row : Bar)
    (s : SimState) : TrimFrame s (bbOpenShortStep config barIdx row s) := by
  unfold bbOpenShortStep
  dsimp only
  split <;> exact trimFrame_refl s

theorem trimFrame_bbPhase (config : Config) (positionSize : ℚ)
    (barIdx : ℕ) (row : Bar) (s : SimState) :
    TrimFrame s (bbPhase config positionSize barIdx row s) := by
  unfold bbPhase
  split
  · exact trimFrame_trans
      (trimFrame_trans
        (trimFrame_trans
          (trimFrame_bbCloseLong config positionSize barIdx row s)
          (trimFrame_bbCloseShort config positionSize barIdx row _))
        (trimFrame_bbOpenLong config barIdx row _))
      (trimFrame_bbOpenShort config barIdx row _)
  · exact trimFrame_refl s

theorem trimFrame_bb2CloseLong (config : Config) (positionSize : ℚ)
    (barIdx : ℕ) (row : Bar) (s : SimState) :
    TrimFrame s (bb2CloseLongStep config positionSize barIdx row s) := by
  unfold bb2CloseLongStep
  repeat'
    first
    | split
    | (dsimp only; split)
  all_goals
    first
    | exact trimFrame_refl s
    | (refine ⟨⟨_, rfl, ?_⟩, rfl, rfl, rfl, rfl, rfl, rfl, rfl, rfl⟩
       intro t ht
       rcases List.mem_singleton.mp ht with rfl
       simp [bbCloseRec])

theorem trimFrame_bb2CloseShort (config : Config) (positionSize : ℚ)
    (barIdx : ℕ) (row : Bar) (s : SimState) :
    TrimFrame s (bb2CloseShortStep config positionSize barIdx row s) := by
  unfold bb2CloseShortStep
  repeat'
    first
    | split
    | (dsimp only; split)
  all_goals
    first
    | exact trimFrame_refl s
    | (refine ⟨⟨_, rfl, ?_⟩, rfl, rfl, rfl, rfl, rfl, rfl, rfl, rfl⟩
       intro t ht
       rcases List.mem_singleton.mp ht with rfl
       simp [bbCloseRec])

theorem trimFrame_bb2OpenLong (config : Config) (barIdx : ℕ) (row : Bar)
    (s : SimState) : TrimFrame s (bb2OpenLongStep config barIdx row s) := by
  unfold bb2OpenLongStep
  dsimp only
  split <;> exact trimFrame_refl s

theorem trimFrame_bb2OpenShort (config : Config) (barIdx : ℕ) (row : Bar)
    (s : SimState) : TrimFrame s (bb2OpenShortStep config barIdx row s) := by
  unfold bb2OpenShortStep
  dsimp only
  split <;> exact trimFrame_refl s

theorem trimFrame_bb2Phase (config : Config) (positionSize : ℚ)
    (barIdx : ℕ) (row : Bar) (s : SimState) :
    TrimFrame s (bb2Phase config positionSize barIdx row s) := by
  unfold bb2Phase
  split
  · exact trimFrame_trans
      (trimFrame_trans
        (trimFrame_trans
          (trimFrame_bb2CloseLong config positionSize barIdx row s)
          (trimFrame_bb2CloseShort config positionSize barIdx row _))
        (trimFrame_bb2OpenLong config barIdx row _))
      (trimFrame_bb2OpenShort config barIdx row _)
  · exact trimFrame_refl s

theorem trimInv_mono {cfg : Config} {nT nP mT mP : ℕ} {s : SimState}
    (h : TrimInv cfg nT nP s) (hT : nT ≤ mT) (hP : nP ≤ mP) :
    TrimInv cfg mT mP s := by
  obtain ⟨hL, hS, hF, hG, hOL, hOS, hD⟩ := h
  refine ⟨hL, hS, ?_, hG, ?_, ?_, hD⟩
  · intro t ht hd
    exact lt_of_lt_of_le (hF t ht hd) hT
  · intro p hp
    exact ⟨lt_of_lt_of_le (hOL p hp).1 hP, (hOL p hp).2⟩
  · intro p hp
    exact ⟨lt_of_lt_of_le (hOS p hp).1 hP, (hOS p hp).2⟩

theorem futureL_nonneg (cfg : Config) (s : SimState) (hcfg : TrimCfg cfg) :
    0 ≤ futureL cfg s := by
  unfold futureL
  split
  · exact List.sum_nonneg
      (fun q hq => hcfg.2.2.2.2.1 q (List.mem_of_mem_drop hq))
  · exact le_refl 0

theorem futureS_nonneg (cfg : Config) (s : SimState) (hcfg : TrimCfg cfg) :
    0 ≤ futureS cfg s := by
  unfold futureS
  split
  · exact List.sum_nonneg
      (fun q hq => hcfg.2.2.2.2.1 q (List.mem_of_mem_drop hq))
  · exact le_refl 0

theorem trimInv_closeL {cfg : Config} {nT nP : ℕ} {s s' : SimState}
    (hf : CloseLFrame s s') (h : TrimInv cfg nT nP s) :
    TrimInv cfg nT nP s' := by
  obtain ⟨⟨new, htr, hnew⟩, e1, e2, e3, e4, e5, e6, e7⟩ := hf
  obtain ⟨hL, hS, hF, hG, hOL, hOS, hD⟩ := h
  have hz : ∀ c b, trimSum s'.trades c b = trimSum s.trades c b := by
    intro c b
    rw [htr, trimSum_append, trimSum_nontrim c b hnew, add_zero]
  have hfs : futureS cfg s' = futureS cfg s := by
    unfold futureS
    rw [e6, e7]
  refine ⟨by rw [e3]; norm_num, by rw [e4]; exact hS, ?_, ?_, ?_, ?_, ?_⟩
  · intro t ht hd
    rw [htr] at ht
    rcases List.mem_append.mp ht with hm | hm
    · exact hF t hm hd
    · exact absurd hd (hnew t hm)
  · intro c b
    rw [hz]
    exact hG c b
  · intro p hp
    rw [e1] at hp
    cases hp
  · intro p hp
    rw [e2] at hp
    obtain ⟨hb, hbud⟩ := hOS p hp
    rw [hz, e4, hfs]
    exact ⟨hb, hbud⟩
  · intro hd
    refine ⟨?_, e6.trans (hD hd).2⟩
    rcases e5 with h5 | h5
    · exact h5.trans (hD hd).1
    · exact h5

theorem trimInv_closeS {cfg : Config} {nT nP : ℕ} {s s' : SimState}
    (hf : CloseSFrame s s') (h : TrimInv cfg nT nP s) :
    TrimInv cfg nT nP s' := by
  obtain ⟨⟨new, htr, hnew⟩, e1, e2, e3, e4, e5, e6, e7⟩ := hf
  obtain ⟨hL, hS, hF, hG, hOL, hOS, hD⟩ := h
  have hz : ∀ c b, trimSum s'.trades c b = trimSum s.trades c b := by
    intro c b
    rw [htr, trimSum_append, trimSum_nontrim c b hnew, add_zero]
  have hfl : futureL cfg s' = futureL cfg s := by
    unfold futureL
    rw [e6, e7]
  refine ⟨by rw [e4]; exact hL, by rw [e3]; norm_num, ?_, ?_, ?_, ?_, ?_⟩
  · intro t ht hd
    rw [htr] at ht
    rcases List.mem_append.mp ht with hm | hm
    · exact hF t hm hd
    · exact absurd hd (hnew t hm)
  · intro c b
    rw [hz]
    exact hG c b
  · intro p hp
    rw [e2] at hp
    obtain ⟨hb, hbud⟩ := hOL p hp
    rw [hz, e4, hfl]
    exact ⟨hb, hbud⟩
  · intro p hp
    rw [e1] at hp
    cases hp
  · intro hd
    refine ⟨e6.trans (hD hd).1, ?_⟩
    rcases e5 with h5 | h5
    · exact h5.trans (hD hd).2
    · exact h5

theorem trimInv_btcCrash {cfg : Config} {isBtc hasBtcDf : Bool}
    {positionSize : ℚ} {barIdx : ℕ} {row : Bar} {s s' : SimState}
    {nT nP : ℕ}
    (hb : btcCrashPhase cfg isBtc hasBtcDf positionSize barIdx row s =
      some s') (h : TrimInv cfg nT nP s) : TrimInv cfg nT nP s' := by
  unfold btcCrashPhase at hb
  split at hb
  · split at hb
    · split at hb
      · split at hb
        · rcases Option.some_inj.mp hb with rfl
          refine trimInv_closeL ⟨⟨_, rfl, ?_⟩, rfl, rfl, rfl, rfl,
            Or.inl rfl, rfl, rfl⟩ h
          intro t ht
          rcases List.mem_singleton.mp ht with rfl
          simp
        · exact absurd hb (by simp)
      · exact absurd hb (by simp)
    · exact absurd hb (by simp)
  · exact absurd hb (by simp)

theorem trimInv_closeLongPhase {cfg : Config} {positionSize : ℚ}
    {barIdx : ℕ} {row : Bar} {cr : Color × Reason} {s : SimState}
    {nT nP : ℕ} (h : TrimInv cfg nT nP s) :
    TrimInv cfg nT nP (closeLongPhase positionSize barIdx row cr s) := by
  unfold closeLongPhase
  repeat'
    first
    | split
    | (dsimp only; split)
  all_goals
    first
    | exact h
    | (refine trimInv_closeL ⟨⟨_, List.append_assoc _ _ _, ?_⟩, rfl, rfl,
        rfl, rfl, Or.inr rfl, rfl, rfl⟩ h
       intro t ht
       rcases List.mem_append.mp ht with hm | hm
       · rcases List.mem_singleton.mp hm with rfl
         simp
       · rcases List.mem_map.mp hm with ⟨piece, hp, rfl⟩
         simp)

theorem trimInv_closeShortPhase {cfg : Config} {positionSize : ℚ}
    {barIdx : ℕ} {row : Bar} {cr : Color × Reason} {s : SimState}
    {nT nP : ℕ} (h : TrimInv cfg nT nP s) :
    TrimInv cfg nT nP (closeShortPhase positionSize barIdx row cr s) := by
  unfold closeShortPhase
  repeat'
    first
    | split
    | (dsimp only; split)
  all_goals
    first
    | exact h
    | (refine trimInv_closeS ⟨⟨_, List.append_assoc _ _ _, ?_⟩, rfl, rfl,
        rfl, rfl, Or.inr rfl, rfl, rfl⟩ h
       intro t ht
       rcases List.mem_append.mp ht with hm | hm
       · rcases List.mem_singleton.mp hm with rfl
         simp
       · rcases List.mem_map.mp hm with ⟨piece, hp, rfl⟩
         simp)

theorem trimInv_trimLong (cfg : Config) (nT nP : ℕ) (s : SimState)
    (p : Pos) (r : Trade) (trim : ℚ)
    (hp : s.openLong = some p)
    (hrd : r.dir = TDir.trim) (hrc : r.entryColor = Color.green)
    (hrb : r.entryBar = p.entryBar) (hrf : r.trimFrac = trim)
    (htle : trim ≤ s.longRemaining)
    (hpn : nP ≤ nT) (hcfg : TrimCfg cfg)
    (h : TrimInv cfg nT nP s) :
    TrimInv cfg nT nP
      { s with trades := s.trades ++ [r],
               longRemaining := s.longRemaining - trim } := by
  obtain ⟨hL, hS, hF, hG, hOL, hOS, hD⟩ := h
  obtain ⟨hpb, hbud⟩ := hOL p hp
  have hfut := futureL_nonneg cfg s hcfg
  have hone : trimSum [r] Color.green p.entryBar = trim := by
    rw [trimSum, if_pos ⟨hrd, hrc, hrb⟩, trimSum, hrf, add_zero]
  have hother : ∀ c' b', ¬(c' = Color.green ∧ b' = p.entryBar) →
      trimSum [r] c' b' = 0 := fun c' b' hne =>
    trimSum_other (fun t ht => by
      rcases List.mem_singleton.mp ht with rfl
      exact ⟨hrc, hrb⟩) c' b' hne
  refine ⟨by dsimp only; linarith, hS, ?_, ?_, ?_, ?_, hD⟩
  · intro t ht hd
    rcases List.mem_append.mp ht with hm | hm
    · exact hF t hm hd
    · rcases List.mem_singleton.mp hm with rfl
      rw [hrb]
      exact lt_of_lt_of_le hpb hpn
  · intro c b
    dsimp only
    rw [trimSum_append]
    by_cases hk : c = Color.green ∧ b = p.entryBar
    · obtain ⟨rfl, rfl⟩ := hk
      rw [hone]
      linarith
    · rw [hother c b hk, add_zero]
      exact hG c b
  · intro p' hp'
    obtain rfl := Option.some_inj.mp (hp.symm.trans hp')
    refine ⟨hpb, ?_⟩
    show trimSum (s.trades ++ [r]) Color.green p.entryBar +
      (s.longRemaining - trim) + futureL cfg s ≤ 1
    rw [trimSum_append, hone]
    linarith
  · intro p' hp'
    obtain ⟨hb, hbud2⟩ := hOS p' hp'
    refine ⟨hb, ?_⟩
    show trimSum (s.trades ++ [r]) Color.red p'.entryBar +
      s.shortRemaining + futureS cfg s ≤ 1
    rw [trimSum_append,
      hother Color.red p'.entryBar (fun hx => by cases hx.1), add_zero]
    exact hbud2

theorem trimInv_trimShort (cfg : Config) (nT nP : ℕ) (s : SimState)
    (p : Pos) (r : Trade) (trim : ℚ)
    (hp : s.openShort = some p)
    (hrd : r.dir = TDir.trim) (hrc : r.entryColor = Color.red)
    (hrb : r.entryBar = p.entryBar) (hrf : r.trimFrac = trim)
    (htle : trim ≤ s.shortRemaining)
    (hpn : nP ≤ nT) (hcfg : TrimCfg cfg)
    (h : TrimInv cfg nT nP s) :
    TrimInv cfg nT nP
      { s with trades := s.trades ++ [r],
               shortRemaining := s.shortRemaining - trim } := by
  obtain ⟨hL, hS, hF, hG, hOL, hOS, hD⟩ := h
  obtain ⟨hpb, hbud⟩ := hOS p hp
  have hfut := futureS_nonneg cfg s hcfg
  have hone : trimSum [r] Color.red p.entryBar = trim := by
    rw [trimSum, if_pos ⟨hrd, hrc, hrb⟩, trimSum, hrf, add_zero]
  have hother : ∀ c' b', ¬(c' = Color.red ∧ b' = p.entryBar) →
      trimSum [r] c' b' = 0 := fun c' b' hne =>
    trimSum_other (fun t ht => by
      rcases List.mem_singleton.mp ht with rfl
      exact ⟨hrc, hrb⟩) c' b' hne
  refine ⟨hL, by dsimp only; linarith, ?_, ?_, ?_, ?_, hD⟩
  · intro t ht hd
    rcases List.mem_append.mp ht with hm | hm
    · exact hF t hm hd
    · rcases List.mem_singleton.mp hm with rfl
      rw [hrb]
      exact lt_of_lt_of_le hpb hpn
  · intro c b
    dsimp only
    rw [trimSum_append]
    by_cases hk : c = Color.red ∧ b = p.entryBar
    · obtain ⟨rfl, rfl⟩ := hk
      rw [hone]
      linarith
    · rw [hother c b hk, add_zero]
      exact hG c b
  · intro p' hp'
    obtain ⟨hb, hbud2⟩ := hOL p' hp'
    refine ⟨hb, ?_⟩
    show trimSum (s.trades ++ [r]) Color.green p'.entryBar +
      s.longRemaining + futureL cfg s ≤ 1
    rw [trimSum_append,
      hother Color.green p'.entryBar (fun hx => by cases hx.1), add_zero]
    exact hbud2
  · intro p' hp'
    obtain rfl := Option.some_inj.mp (hp.symm.trans hp')
    refine ⟨hpb, ?_⟩
    show trimSum (s.trades ++ [r]) Color.red p.entryBar +
      (s.shortRemaining - trim) + futureS cfg s ≤ 1
    rw [trimSum_append, hone]
    linarith

set_option maxHeartbeats 1000000 in
theorem trimInv_yellowLong (cfg : Config) (positionSize : ℚ)
    (barIdx : ℕ) (row : Bar) (trimmed : Bool) (s : SimState)
    (nT nP : ℕ) (hpn : nP ≤ nT) (hcfg : TrimCfg cfg)
    (h : TrimInv cfg nT nP s) :
    TrimInv cfg nT nP
      (yellowLongPhase cfg positionSize barIdx row trimmed s) := by
  unfold yellowLongPhase
  rcases hp : s.openLong with _ | p
  · exact h
  · dsimp only
    rw [← hp]
    by_cases hgate : 1/10 < s.longRemaining ∧ trimmed = false
    · rw [if_pos hgate]
      rcases hev : checkYellowEvents row.rsi14 PrimDir.long cfg with _ | ev
      · exact h
      · dsimp only
        rcases hmode : cfg.trimMode
        · dsimp only
          have hraw0 : 0 ≤ (if ev = Reason.strongTakeProfit then
              cfg.trimPctOrange else cfg.trimPctYellow) := by
            split
            · exact hcfg.2.2.1
            · exact hcfg.1
          have hraw99 : (if ev = Reason.strongTakeProfit then
              cfg.trimPctOrange else cfg.trimPctYellow) ≤ 99/100 := by
            split
            · exact hcfg.2.2.2.1
            · exact hcfg.2.1
          have htle : round4 (s.longRemaining *
              (if ev = Reason.strongTakeProfit then cfg.trimPctOrange
               else cfg.trimPctYellow)) ≤ s.longRemaining := by
            have h1 := round4_le (s.longRemaining *
              (if ev = Reason.strongTakeProfit then cfg.trimPctOrange
               else cfg.trimPctYellow))
            have h2 : s.longRemaining *
                (if ev = Reason.strongTakeProfit then cfg.trimPctOrange
                 else cfg.trimPctYellow) ≤ s.longRemaining * (99/100) :=
              mul_le_mul_of_nonneg_left hraw99 (by linarith [hgate.1])
            linarith [hgate.1]
          by_cases hg2 : 1/20 < round4 (s.longRemaining *
              (if ev = Reason.strongTakeProfit then cfg.trimPctOrange
               else cfg.trimPctYellow))
          · rw [if_pos hg2]
            refine trimInv_trimLong cfg nT nP s p _ _ hp ?_ ?_ ?_ ?_
              htle hpn hcfg h <;> rfl
          · rw [if_neg hg2]
            exact h
        · dsimp only
          by_cases hg2 : 1/20 <
              min (if ev = Reason.strongTakeProfit then cfg.trimPctOrange
                   else cfg.trimPctYellow) s.longRemaining
          · rw [if_pos hg2]
            refine trimInv_trimLong cfg nT nP s p _ _ hp ?_ ?_ ?_ ?_
              (min_le_right _ _) hpn hcfg h <;> rfl
          · rw [if_neg hg2]
            exact h
    · rw [if_neg hgate]
      exact h

set_option maxHeartbeats 1000000 in
theorem trimInv_yellowShort (cfg : Config) (positionSize : ℚ)
    (barIdx : ℕ) (row : Bar) (trimmed : Bool) (s : SimState)
    (nT nP : ℕ) (hpn : nP ≤ nT) (hcfg : TrimCfg cfg)
    (h : TrimInv cfg nT nP s) :
    TrimInv cfg nT nP
      (yellowShortPhase cfg positionSize barIdx row trimmed s) := by
  unfold yellowShortPhase
  rcases hp : s.openShort with _ | p
  · exact h
  · dsimp only
    rw [← hp]
    by_cases hgate : 1/10 < s.shortRemaining ∧ trimmed = false
    · rw [if_pos hgate]
      rcases hev : checkYellowEvents row.rsi14 PrimDir.short cfg with _ | ev
      · exact h
      · dsimp only
        rcases hmode : cfg.trimMode
        · dsimp only
          have hraw0 : 0 ≤ (if ev = Reason.strongTakeProfit then
              cfg.trimPctOrange else cfg.trimPctYellow) := by
            split
            · exact hcfg.2.2.1
            · exact hcfg.1
          have hraw99 : (if ev = Reason.strongTakeProfit then
              cfg.trimPctOrange else cfg.trimPctYellow) ≤ 99/100 := by
            split
            · exact hcfg.2.2.2.1
            · exact hcfg.2.1
          have htle : round4 (s.shortRemaining *
              (if ev = Reason.strongTakeProfit then cfg.trimPctOrange
               else cfg.trimPctYellow)) ≤ s.shortRemaining := by
            have h1 := round4_le (s.shortRemaining *
              (if ev = Reason.strongTakeProfit then cfg.trimPctOrange
               else cfg.trimPctYellow))
            have h2 : s.shortRemaining *
                (if ev = Reason.strongTakeProfit then cfg.trimPctOrange
                 else cfg.trimPctYellow) ≤ s.shortRemaining * (99/100) :=
              mul_le_mul_of_nonneg_left hraw99 (by linarith [hgate.1])
            linarith [hgate.1]
          by_cases hg2 : 1/20 < round4 (s.shortRemaining *
              (if ev = Reason.strongTakeProfit then cfg.trimPctOrange
               else cfg.trimPctYellow))
          · rw [if_pos hg2]
            refine trimInv_trimShort cfg nT nP s p _ _ hp ?_ ?_ ?_ ?_
              htle hpn hcfg h <;> rfl
          · rw [if_neg hg2]
            exact h
        · dsimp only
          by_cases hg2 : 1/20 <
              min (if ev = Reason.strongTakeProfit then cfg.trimPctOrange
                   else cfg.trimPctYellow) s.shortRemaining
          · rw [if_pos hg2]
            refine trimInv_trimShort cfg nT nP s p _ _ hp ?_ ?_ ?_ ?_
              (min_le_right _ _) hpn hcfg h <;> rfl
          · rw [if_neg hg2]
            exact h
    · rw [if_neg hgate]
      exact h

theorem trimInv_velocityLong (cfg : Config) (positionSize : ℚ)
    (barIdx : ℕ) (row : Bar) (delta : ℚ) (s : SimState)
    (nT nP : ℕ) (hpn : nP ≤ nT) (hcfg : TrimCfg cfg)
    (h : TrimInv cfg nT nP s) :
    TrimInv cfg nT nP
      (velocityLongStep cfg positionSize barIdx row delta s) := by
  unfold velocityLongStep
  rcases hp : s.openLong with _ | p
  · exact h
  · dsimp only
    rw [← hp]
    split
    · split
      · refine trimInv_closeL ⟨⟨_, rfl, ?_⟩, rfl, rfl, rfl, rfl,
          Or.inl rfl, rfl, rfl⟩ h
        intro t ht
        rcases List.mem_singleton.mp ht with rfl
        simp
      · split
        · refine trimInv_trimLong cfg nT nP s p _ _ hp ?_ ?_ ?_ ?_
            (min_le_right _ _) hpn hcfg h <;> rfl
        · exact h
    · exact h

theorem trimInv_velocityShort (cfg : Config) (positionSize : ℚ)
    (barIdx : ℕ) (row : Bar) (delta : ℚ) (s : SimState)
    (nT nP : ℕ) (hpn : nP ≤ nT) (hcfg : TrimCfg cfg)
    (h : TrimInv cfg nT nP s) :
    TrimInv cfg nT nP
      (velocityShortStep cfg positionSize barIdx row delta s) := by
  unfold velocityShortStep
  rcases hp : s.openShort with _ | p
  · exact h
  · dsimp only
    rw [← hp]
    split
    · split
      · refine trimInv_closeS ⟨⟨_, rfl, ?_⟩, rfl, rfl, rfl, rfl,
          Or.inl rfl, rfl, rfl⟩ h
        intro t ht
        rcases List.mem_singleton.mp ht with rfl
        simp
      · split
        · refine trimInv_trimShort cfg nT nP s p _ _ hp ?_ ?_ ?_ ?_
            (min_le_right _ _) hpn hcfg h <;> rfl
        · exact h
    · exact h

theorem trimInv_velocityPhase (cfg : Config) (positionSize : ℚ)
    (barIdx : ℕ) (row : Bar) (trimmed : Bool) (s : SimState)
    (nT nP : ℕ) (hpn : nP ≤ nT) (hcfg : TrimCfg cfg)
    (h : TrimInv cfg nT nP s) :
    TrimInv cfg nT nP
      (velocityPhase cfg positionSize barIdx row trimmed s) := by
  unfold velocityPhase
  repeat'
    first
    | split
    | (dsimp only; split)
  all_goals
    first
    | exact h
    | exact trimInv_velocityShort cfg positionSize barIdx row _ _ nT nP
        hpn hcfg
        (trimInv_velocityLong cfg positionSize barIdx row _ s nT nP
          hpn hcfg h)

theorem trimInv_ladderL {cfg : Config} {nT nP : ℕ} {s s' : SimState}
    (p : Pos) (added : List Trade)
    (hp : s.openLong = some p)
    (htr : s'.trades = s.trades ++ added)
    (hadded : ∀ t ∈ added, t.dir = TDir.trim ∧
      t.entryColor = Color.green ∧ t.entryBar = p.entryBar)
    (hrem : s'.longRemaining =
      s.longRemaining - (added.map (fun t => t.trimFrac)).sum)
    (hrnn : 0 ≤ s'.longRemaining)
    (e1 : s'.openLong = s.openLong) (e2 : s'.openShort = s.openShort)
    (e3 : s'.shortRemaining = s.shortRemaining)
    (e4 : s'.dcaActiveLong = s.dcaActiveLong)
    (e5 : s'.dcaActiveShort = s.dcaActiveShort)
    (e6 : s'.dcaTrancheIdxLong = s.dcaTrancheIdxLong)
    (e7 : s'.dcaTrancheIdxShort = s.dcaTrancheIdxShort)
    (hpn : nP ≤ nT) (hcfg : TrimCfg cfg) (h : TrimInv cfg nT nP s) :
    TrimInv cfg nT nP s' := by
  obtain ⟨hL, hS, hF, hG, hOL, hOS, hD⟩ := h
  obtain ⟨hpb, hbud⟩ := hOL p hp
  have hfut := futureL_nonneg cfg s hcfg
  have hsig : (added.map (fun t => t.trimFrac)).sum ≤ s.longRemaining := by
    rw [hrem] at hrnn
    linarith
  have hmt : trimSum added Color.green p.entryBar =
      (added.map (fun t => t.trimFrac)).sum := trimSum_matched hadded
  have hoth : ∀ c' b', ¬(c' = Color.green ∧ b' = p.entryBar) →
      trimSum added c' b' = 0 := fun c' b' hne =>
    trimSum_other (fun t ht => ⟨(hadded t ht).2.1, (hadded t ht).2.2⟩)
      c' b' hne
  have hfl : futureL cfg s' = futureL cfg s := by
    unfold futureL
    rw [e4, e6]
  have hfs : futureS cfg s' = futureS cfg s := by
    unfold futureS
    rw [e5, e7]
  refine ⟨hrnn, by rw [e3]; exact hS, ?_, ?_, ?_, ?_, ?_⟩
  · intro t ht hd
    rw [htr] at ht
    rcases List.mem_append.mp ht with hm | hm
    · exact hF t hm hd
    · rw [(hadded t hm).2.2]
      exact lt_of_lt_of_le hpb hpn
  · intro c b
    rw [htr, trimSum_append]
    by_cases hk : c = Color.green ∧ b = p.entryBar
    · obtain ⟨rfl, rfl⟩ := hk
      rw [hmt]
      linarith
    · rw [hoth c b hk, add_zero]
      exact hG c b
  · intro p' hp'
    obtain rfl := Option.some_inj.mp (hp.symm.trans (e1.symm.trans hp'))
    refine ⟨hpb, ?_⟩
    rw [htr, trimSum_append, hmt, hrem, hfl]
    linarith
  · intro p' hp'
    obtain ⟨hb, hbud2⟩ := hOS p' (e2.symm.trans hp')
    refine ⟨hb, ?_⟩
    rw [htr, trimSum_append,
      hoth Color.red p'.entryBar (fun hx => by cases hx.1), add_zero, e3,
      hfs]
    exact hbud2
  · intro hd
    exact ⟨e4.trans (hD hd).1, e5.trans (hD hd).2⟩

theorem trimInv_ladderS {cfg : Config} {nT nP : ℕ} {s s' : SimState}
    (p : Pos) (added : List Trade)
    (hp : s.openShort = some p)
    (htr : s'.trades = s.trades ++ added)
    (hadded : ∀ t ∈ added, t.dir = TDir.trim ∧
      t.entryColor = Color.red ∧ t.entryBar = p.entryBar)
    (hrem : s'.shortRemaining =
      s.shortRemaining - (added.map (fun t => t.trimFrac)).sum)
    (hrnn : 0 ≤ s'.shortRemaining)
    (e1 : s'.openShort = s.openShort) (e2 : s'.openLong = s.openLong)
    (e3 : s'.longRemaining = s.longRemaining)
    (e4 : s'.dcaActiveLong = s.dcaActiveLong)
    (e5 : s'.dcaActiveShort = s.dcaActiveShort)
    (e6 : s'.dcaTrancheIdxLong = s.dcaTrancheIdxLong)
    (e7 : s'.dcaTrancheIdxShort = s.dcaTrancheIdxShort)
    (hpn : nP ≤ nT) (hcfg : TrimCfg cfg) (h : TrimInv cfg nT nP s) :
    TrimInv cfg nT nP s' := by
  obtain ⟨hL, hS, hF, hG, hOL, hOS, hD⟩ := h
  obtain ⟨hpb, hbud⟩ := hOS p hp
  have hfut := futureS_nonneg cfg s hcfg
  have hsig : (added.map (fun t => t.trimFrac)).sum ≤ s.shortRemaining := by
    rw [hrem] at hrnn
    linarith
  have hmt : trimSum added Color.red p.entryBar =
      (added.map (fun t => t.trimFrac)).sum := trimSum_matched hadded
  have hoth : ∀ c' b', ¬(c' = Color.red ∧ b' = p.entryBar) →
      trimSum added c' b' = 0 := fun c' b' hne =>
    trimSum_other (fun t ht => ⟨(hadded t ht).2.1, (hadded t ht).2.2⟩)
      c' b' hne
  have hfl : futureL cfg s' = futureL cfg s := by
    unfold futureL
    rw [e4, e6]
  have hfs : futureS cfg s' = futureS cfg s := by
    unfold futureS
    rw [e5, e7]
  refine ⟨by rw [e3]; exact hL, hrnn, ?_, ?_, ?_, ?_, ?_⟩
  · intro t ht hd
    rw [htr] at ht
    rcases List.mem_append.mp ht with hm | hm
    · exact hF t hm hd
    · rw [(hadded t hm).2.2]
      exact lt_of_lt_of_le hpb hpn
  · intro c b
    rw [htr, trimSum_append]
    by_cases hk : c = Color.red ∧ b = p.entryBar
    · obtain ⟨rfl, rfl⟩ := hk
      rw [hmt]
      linarith
    · rw [hoth c b hk, add_zero]
      exact hG c b
  · intro p' hp'
    obtain ⟨hb, hbud2⟩ := hOL p' (e2.symm.trans hp')
    refine ⟨hb, ?_⟩
    rw [htr, trimSum_append,
      hoth Color.green p'.entryBar (fun hx => by cases hx.1), add_zero, e3,
      hfl]
    exact hbud2
  · intro p' hp'
    obtain rfl := Option.some_inj.mp (hp.symm.trans (e1.symm.trans hp'))
    refine ⟨hpb, ?_⟩
    rw [htr, trimSum_append, hmt, hrem, hfs]
    linarith
  · intro hd
    exact ⟨e4.trans (hD hd).1, e5.trans (hD hd).2⟩

theorem trimInv_ladderLong (cfg : Config) (positionSize : ℚ)
    (barIdx : ℕ) (row : Bar) (s : SimState)
    (nT nP : ℕ) (hpn : nP ≤ nT) (hcfg : TrimCfg cfg)
    (h : TrimInv cfg nT nP s) :
    TrimInv cfg nT nP (ladderLongStep cfg positionSize barIdx row s).1 := by
  unfold ladderLongStep
  rcases hp : s.openLong with _ | p
  · exact h
  · dsimp only
    rw [← hp]
    split
    · obtain ⟨added, h1, h2, h3, h4⟩ := ladderLoop_spec Color.green
        Reason.emaCrossUp p barIdx row.close positionSize
        ((row.close - p.entryPrice) / p.entryPrice * 100)
        ((cfg.profitLadderLevels.zip cfg.profitLadderFractions).enum)
        s.trades s.longRemaining s.ladderTrimsLong false
      exact trimInv_ladderL p added hp h1
        (fun t ht => ⟨(h2 t ht).1, (h2 t ht).2.1, (h2 t ht).2.2.1⟩)
        h3 (h4 h.1) rfl rfl rfl rfl rfl rfl rfl hpn hcfg h
    · exact h

theorem trimInv_ladderShort (cfg : Config) (positionSize : ℚ)
    (barIdx : ℕ) (row : Bar) (st : SimState × Bool)
    (nT nP : ℕ) (hpn : nP ≤ nT) (hcfg : TrimCfg cfg)
    (h : TrimInv cfg nT nP st.1) :
    TrimInv cfg nT nP
      (ladderShortStep cfg positionSize barIdx row st).1 := by
  unfold ladderShortStep
  rcases hp : st.1.openShort with _ | p
  · exact h
  · dsimp only
    split
    · obtain ⟨added, h1, h2, h3, h4⟩ := ladderLoop_spec Color.red
        Reason.emaCrossDown p barIdx row.close positionSize
        ((p.entryPrice - row.close) / p.entryPrice * 100)
        (((cfg.shortLadderLevels.getD cfg.profitLadderLevels).zip
          (cfg.shortLadderFractions.getD cfg.profitLadderFractions)).enum)
        st.1.trades st.1.shortRemaining st.1.ladderTrimsShort st.2
      exact trimInv_ladderS p added hp h1
        (fun t ht => ⟨(h2 t ht).1, (h2 t ht).2.1, (h2 t ht).2.2.1⟩)
        h3 (h4 h.2.1) rfl rfl rfl rfl rfl rfl rfl hpn hcfg h
    · exact h

theorem trimInv_ladderPhase (cfg : Config) (positionSize : ℚ)
    (barIdx : ℕ) (row : Bar) (s : SimState)
    (nT nP : ℕ) (hpn : nP ≤ nT) (hcfg : TrimCfg cfg)
    (h : TrimInv cfg nT nP s) :
    TrimInv cfg nT nP (ladderPhase cfg positionSize barIdx row s).1 :=
  trimInv_ladderShort cfg positionSize barIdx row _ nT nP hpn hcfg
    (trimInv_ladderLong cfg positionSize barIdx row s nT nP hpn hcfg h)

theorem trimSum_dcaEntry (c0 : Color) (bi : ℕ) (pr : ℚ) (k nn : ℕ)
    (c : Color) (b : ℕ) : trimSum [dcaEntryRec c0 bi pr k nn] c b = 0 := by
  simp [trimSum, dcaEntryRec]

theorem trimInv_openLong (cfg : Config) (n : ℕ) (row : Bar)
    (cr : Color × Reason) (s : SimState) (nT nP : ℕ)
    (hnt : nT ≤ n) (hnp : nP ≤ n + 1) (hcfg : TrimCfg cfg)
    (h : TrimInv cfg nT nP s) :
    TrimInv cfg nT (n + 1) (openLongPhase cfg n row cr s) := by
  have hmono := trimInv_mono h (le_refl nT) hnp
  obtain ⟨hL, hS, hF, hG, hOL, hOS, hD⟩ := h
  have hfreshn : ∀ t ∈ s.trades, t.dir = TDir.trim → t.entryBar < n :=
    fun t ht hd => lt_of_lt_of_le (hF t ht hd) hnt
  unfold openLongPhase
  split
  · split
    · split
      · exact hmono
      · dsimp only
        split
        · rename_i hdca
          rcases htr : cfg.dcaTranches with _ | ⟨f, rest⟩
          · refine ⟨by norm_num, hS, ?_, ?_, ?_, ?_, ?_⟩
            · intro t ht hd
              rcases List.mem_append.mp ht with hm | hm
              · exact hF t hm hd
              · rcases List.mem_singleton.mp hm with rfl
                exact absurd hd (by simp [dcaEntryRec])
            · intro c b
              rw [trimSum_append, trimSum_dcaEntry, add_zero]
              exact hG c b
            · intro p' hp'
              obtain rfl := (Option.some_inj.mp hp').symm
              refine ⟨Nat.lt_succ_self n, ?_⟩
              show trimSum _ Color.green n + 1 +
                (cfg.dcaTranches.drop 1).sum ≤ 1
              rw [htr, trimSum_append, trimSum_fresh _ hfreshn,
                trimSum_dcaEntry]
              norm_num
            · intro p' hp'
              obtain ⟨hb, hbud2⟩ := hOS p' hp'
              refine ⟨lt_of_lt_of_le hb hnp, ?_⟩
              show trimSum _ Color.red p'.entryBar + s.shortRemaining +
                futureS cfg s ≤ 1
              rw [trimSum_append, trimSum_dcaEntry, add_zero]
              exact hbud2
            · intro hd
              rw [hd] at hdca
              cases hdca
          · have hf0 : 0 ≤ f := hcfg.2.2.2.2.1 f (by
              rw [htr]
              exact List.mem_cons_self f rest)
            have hsum1 : f + rest.sum ≤ 1 := by
              have h6 := hcfg.2.2.2.2.2
              rw [htr, List.sum_cons] at h6
              exact h6
            refine ⟨hf0, hS, ?_, ?_, ?_, ?_, ?_⟩
            · intro t ht hd
              rcases List.mem_append.mp ht with hm | hm
              · exact hF t hm hd
              · rcases List.mem_singleton.mp hm with rfl
                exact absurd hd (by simp [dcaEntryRec])
            · intro c b
              rw [trimSum_append, trimSum_dcaEntry, add_zero]
              exact hG c b
            · intro p' hp'
              obtain rfl := (Option.some_inj.mp hp').symm
              refine ⟨Nat.lt_succ_self n, ?_⟩
              show trimSum _ Color.green n + f +
                (cfg.dcaTranches.drop 1).sum ≤ 1
              rw [htr, trimSum_append, trimSum_fresh _ hfreshn,
                trimSum_dcaEntry]
              show (0 : ℚ) + 0 + f + rest.sum ≤ 1
              linarith
            · intro p' hp'
              obtain ⟨hb, hbud2⟩ := hOS p' hp'
              refine ⟨lt_of_lt_of_le hb hnp, ?_⟩
              show trimSum _ Color.red p'.entryBar + s.shortRemaining +
                futureS cfg s ≤ 1
              rw [trimSum_append, trimSum_dcaEntry, add_zero]
              exact hbud2
            · intro hd
              rw [hd] at hdca
              cases hdca
        · rename_i hndca
          have hen : cfg.dcaEnabled = false := by
            rcases hx : cfg.dcaEnabled
            · rfl
            · exact absurd hx hndca
          have hfl0 : futureL cfg s = 0 := by
            unfold futureL
            rw [(hD hen).1]
            simp
          refine ⟨by norm_num, hS, ?_, hG, ?_, ?_, ?_⟩
          · intro t ht hd
            exact hF t ht hd
          · intro p' hp'
            obtain rfl := (Option.some_inj.mp hp').symm
            refine ⟨Nat.lt_succ_self n, ?_⟩
            show trimSum s.trades Color.green n + 1 + futureL cfg s ≤ 1
            rw [trimSum_fresh _ hfreshn, hfl0]
            norm_num
          · intro p' hp'
            obtain ⟨hb, hbud2⟩ := hOS p' hp'
            refine ⟨lt_of_lt_of_le hb hnp, ?_⟩
            show trimSum s.trades Color.red p'.entryBar +
              s.shortRemaining + futureS cfg s ≤ 1
            exact hbud2
          · intro hd
            exact hD hd
    · exact hmono
  · exact hmono

theorem trimInv_openShort (cfg : Config) (n : ℕ) (row : Bar)
    (cr : Color × Reason) (s : SimState) (nT nP : ℕ)
    (hnt : nT ≤ n) (hnp : nP ≤ n + 1) (hcfg : TrimCfg cfg)
    (h : TrimInv cfg nT nP s) :
    TrimInv cfg nT (n + 1) (openShortPhase cfg n row cr s) := by
  have hmono := trimInv_mono h (le_refl nT) hnp
  obtain ⟨hL, hS, hF, hG, hOL, hOS, hD⟩ := h
  have hfreshn : ∀ t ∈ s.trades, t.dir = TDir.trim → t.entryBar < n :=
    fun t ht hd => lt_of_lt_of_le (hF t ht hd) hnt
  unfold openShortPhase
  split
  · split
    · split
      · exact hmono
      · dsimp only
        split
        · rename_i hdca
          rcases htr : cfg.dcaTranches with _ | ⟨f, rest⟩
          · refine ⟨hL, by norm_num, ?_, ?_, ?_, ?_, ?_⟩
            · intro t ht hd
              rcases List.mem_append.mp ht with hm | hm
              · exact hF t hm hd
              · rcases List.mem_singleton.mp hm with rfl
                exact absurd hd (by simp [dcaEntryRec])
            · intro c b
              rw [trimSum_append, trimSum_dcaEntry, add_zero]
              exact hG c b
            · intro p' hp'
              obtain ⟨hb, hbud2⟩ := hOL p' hp'
              refine ⟨lt_of_lt_of_le hb hnp, ?_⟩
              show trimSum _ Color.green p'.entryBar + s.longRemaining +
                futureL cfg s ≤ 1
              rw [trimSum_append, trimSum_dcaEntry, add_zero]
              exact hbud2
            · intro p' hp'
              obtain rfl := (Option.some_inj.mp hp').symm
              refine ⟨Nat.lt_succ_self n, ?_⟩
              show trimSum _ Color.red n + 1 +
                (cfg.dcaTranches.drop 1).sum ≤ 1
              rw [htr, trimSum_append, trimSum_fresh _ hfreshn,
                trimSum_dcaEntry]
              norm_num
            · intro hd
              rw [hd] at hdca
              cases hdca
          · have hf0 : 0 ≤ f := hcfg.2.2.2.2.1 f (by
              rw [htr]
              exact List.mem_cons_self f rest)
            have hsum1 : f + rest.sum ≤ 1 := by
              have h6 := hcfg.2.2.2.2.2
              rw [htr, List.sum_cons] at h6
              exact h6
            refine ⟨hL, hf0, ?_, ?_, ?_, ?_, ?_⟩
            · intro t ht hd
              rcases List.mem_append.mp ht with hm | hm
              · exact hF t hm hd
              · rcases List.mem_singleton.mp hm with rfl
                exact absurd hd (by simp [dcaEntryRec])
            · intro c b
              rw [trimSum_append, trimSum_dcaEntry, add_zero]
              exact hG c b
            · intro p' hp'
              obtain ⟨hb, hbud2⟩ := hOL p' hp'
              refine ⟨lt_of_lt_of_le hb hnp, ?_⟩
              show trimSum _ Color.green p'.entryBar + s.longRemaining +
                futureL cfg s ≤ 1
              rw [trimSum_append, trimSum_dcaEntry, add_zero]
              exact hbud2
            · intro p' hp'
              obtain rfl := (Option.some_inj.mp hp').symm
              refine ⟨Nat.lt_succ_self n, ?_⟩
              show trimSum _ Color.red n + f +
                (cfg.dcaTranches.drop 1).sum ≤ 1
              rw [htr, trimSum_append, trimSum_fresh _ hfreshn,
                trimSum_dcaEntry]
              show (0 : ℚ) + 0 + f + rest.sum ≤ 1
              linarith
            · intro hd
              rw [hd] at hdca
              cases hdca
        · rename_i hndca
          have hen : cfg.dcaEnabled = false := by
            rcases hx : cfg.dcaEnabled
            · rfl
            · exact absurd hx hndca
          have hfs0 : futureS cfg s = 0 := by
            unfold futureS
            rw [(hD hen).2]
            simp
          refine ⟨hL, by norm_num, ?_, hG, ?_, ?_, ?_⟩
          · intro t ht hd
            exact hF t ht hd
          · intro p' hp'
            obtain ⟨hb, hbud2⟩ := hOL p' hp'
            refine ⟨lt_of_lt_of_le hb hnp, ?_⟩
            show trimSum s.trades Color.green p'.entryBar +
              s.longRemaining + futureL cfg s ≤ 1
            exact hbud2
          · intro p' hp'
            obtain rfl := (Option.some_inj.mp hp').symm
            refine ⟨Nat.lt_succ_self n, ?_⟩
            show trimSum s.trades Color.red n + 1 + futureS cfg s ≤ 1
            rw [trimSum_fresh _ hfreshn, hfs0]
            norm_num
          · intro hd
            exact hD hd
    · exact hmono
  · exact hmono

theorem trimInv_dcaFillLong (cfg : Config) (barIdx : ℕ) (row : Bar)
    (s : SimState) (nT nP : ℕ) (hcfg : TrimCfg cfg)
    (h : TrimInv cfg nT nP s) :
    TrimInv cfg nT nP (dcaFillLongStep cfg barIdx row s) := by
  unfold dcaFillLongStep
  rcases hp : s.openLong with _ | p
  · exact h
  · dsimp only
    rw [← hp]
    obtain ⟨hL, hS, hF, hG, hOL, hOS, hD⟩ := h
    split
    · rename_i hcond
      obtain ⟨hact, hidx, hint⟩ := hcond
      have htf0 : 0 ≤ cfg.dcaTranches.getD s.dcaTrancheIdxLong 0 := by
        rw [List.getD_eq_getElem cfg.dcaTranches 0 hidx]
        exact hcfg.2.2.2.2.1 _ (List.getElem_mem hidx)
      have hacc : cfg.dcaTranches.getD s.dcaTrancheIdxLong 0 +
          (cfg.dcaTranches.drop (s.dcaTrancheIdxLong + 1)).sum =
          (cfg.dcaTranches.drop s.dcaTrancheIdxLong).sum := by
        rw [List.getD_eq_getElem cfg.dcaTranches 0 hidx,
          List.drop_eq_getElem_cons hidx, List.sum_cons]
      have hnn2 : 0 ≤ (cfg.dcaTranches.drop (s.dcaTrancheIdxLong + 1)).sum :=
        List.sum_nonneg (fun q hq =>
          hcfg.2.2.2.2.1 q (List.mem_of_mem_drop hq))
      have hfutold : futureL cfg s =
          (cfg.dcaTranches.drop s.dcaTrancheIdxLong).sum := by
        unfold futureL
        rw [hact]
        simp
      split
      · obtain ⟨hpb, hbud⟩ := hOL p hp
        rw [hfutold] at hbud
        refine ⟨?_, hS, ?_, ?_, ?_, ?_, ?_⟩
        · show (0 : ℚ) ≤ s.longRemaining +
            cfg.dcaTranches.getD s.dcaTrancheIdxLong 0
          linarith
        · intro t ht hd
          rcases List.mem_append.mp ht with hm | hm
          · exact hF t hm hd
          · rcases List.mem_singleton.mp hm with rfl
            exact absurd hd (by simp [dcaEntryRec])
        · intro c b
          rw [trimSum_append, trimSum_dcaEntry, add_zero]
          exact hG c b
        · intro p' hp'
          obtain rfl := (Option.some_inj.mp hp').symm
          refine ⟨hpb, ?_⟩
          show trimSum _ Color.green p.entryBar +
            (s.longRemaining + cfg.dcaTranches.getD s.dcaTrancheIdxLong 0) +
            (if (decide (s.dcaTrancheIdxLong + 1 < cfg.dcaTranches.length)
                = true)
             then (cfg.dcaTranches.drop (s.dcaTrancheIdxLong + 1)).sum
             else 0) ≤ 1
          rw [trimSum_append, trimSum_dcaEntry, add_zero]
          by_cases hlt : s.dcaTrancheIdxLong + 1 < cfg.dcaTranches.length
          · rw [if_pos (decide_eq_true hlt)]
            linarith
          · rw [if_neg (by simp only [decide_eq_true_eq]; exact hlt)]
            linarith
        · intro p' hp'
          obtain ⟨hb, hbud2⟩ := hOS p' hp'
          refine ⟨hb, ?_⟩
          show trimSum _ Color.red p'.entryBar + s.shortRemaining +
            futureS cfg s ≤ 1
          rw [trimSum_append, trimSum_dcaEntry, add_zero]
          exact hbud2
        · intro hd
          exact absurd ((hD hd).1.symm.trans hact) (by simp)
      · split
        · refine ⟨hL, hS, hF, hG, ?_, ?_, ?_⟩
          · intro p' hp'
            obtain ⟨hb, hbud⟩ := hOL p' hp'
            refine ⟨hb, ?_⟩
            show trimSum s.trades Color.green p'.entryBar +
              s.longRemaining + (0 : ℚ) ≤ 1
            have := futureL_nonneg cfg s hcfg
            linarith
          · intro p' hp'
            obtain ⟨hb, hbud⟩ := hOS p' hp'
            exact ⟨hb, hbud⟩
          · intro hd
            exact ⟨rfl, (hD hd).2⟩
        · exact ⟨hL, hS, hF, hG, hOL, hOS, hD⟩
    · exact ⟨hL, hS, hF, hG, hOL, hOS, hD⟩

theorem trimInv_dcaFillShort (cfg : Config) (barIdx : ℕ) (row : Bar)
    (s : SimState) (nT nP : ℕ) (hcfg : TrimCfg cfg)
    (h : TrimInv cfg nT nP s) :
    TrimInv cfg nT nP (dcaFillShortStep cfg barIdx row s) := by
  unfold dcaFillShortStep
  rcases hp : s.openShort with _ | p
  · exact h
  · dsimp only
    rw [← hp]
    obtain ⟨hL, hS, hF, hG, hOL, hOS, hD⟩ := h
    split
    · rename_i hcond
      obtain ⟨hact, hidx, hint⟩ := hcond
      have htf0 : 0 ≤ cfg.dcaTranches.getD s.dcaTrancheIdxShort 0 := by
        rw [List.getD_eq_getElem cfg.dcaTranches 0 hidx]
        exact hcfg.2.2.2.2.1 _ (List.getElem_mem hidx)
      have hacc : cfg.dcaTranches.getD s.dcaTrancheIdxShort 0 +
          (cfg.dcaTranches.drop (s.dcaTrancheIdxShort + 1)).sum =
          (cfg.dcaTranches.drop s.dcaTrancheIdxShort).sum := by
        rw [List.getD_eq_getElem cfg.dcaTranches 0 hidx,
          List.drop_eq_getElem_cons hidx, List.sum_cons]
      have hnn2 : 0 ≤
          (cfg.dcaTranches.drop (s.dcaTrancheIdxShort + 1)).sum :=
        List.sum_nonneg (fun q hq =>
          hcfg.2.2.2.2.1 q (List.mem_of_mem_drop hq))
      have hfutold : futureS cfg s =
          (cfg.dcaTranches.drop s.dcaTrancheIdxShort).sum := by
        unfold futureS
        rw [hact]
        simp
      split
      · obtain ⟨hpb, hbud⟩ := hOS p hp
        rw [hfutold] at hbud
        refine ⟨hL, ?_, ?_, ?_, ?_, ?_, ?_⟩
        · show (0 : ℚ) ≤ s.shortRemaining +
            cfg.dcaTranches.getD s.dcaTrancheIdxShort 0
          linarith
        · intro t ht hd
          rcases List.mem_append.mp ht with hm | hm
          · exact hF t hm hd
          · rcases List.mem_singleton.mp hm with rfl
            exact absurd hd (by simp [dcaEntryRec])
        · intro c b
          rw [trimSum_append, trimSum_dcaEntry, add_zero]
          exact hG c b
        · intro p' hp'
          obtain ⟨hb, hbud2⟩ := hOL p' hp'
          refine ⟨hb, ?_⟩
          show trimSum _ Color.green p'.entryBar + s.longRemaining +
            futureL cfg s ≤ 1
          rw [trimSum_append, trimSum_dcaEntry, add_zero]
          exact hbud2
        · intro p' hp'
          obtain rfl := (Option.some_inj.mp hp').symm
          refine ⟨hpb, ?_⟩
          show trimSum _ Color.red p.entryBar +
            (s.shortRemaining + cfg.dcaTranches.getD s.dcaTrancheIdxShort 0) +
            (if (decide (s.dcaTrancheIdxShort + 1 < cfg.dcaTranches.length)
                = true)
             then (cfg.dcaTranches.drop (s.dcaTrancheIdxShort + 1)).sum
             else 0) ≤ 1
          rw [trimSum_append, trimSum_dcaEntry, add_zero]
          by_cases hlt : s.dcaTrancheIdxShort + 1 < cfg.dcaTranches.length
          · rw [if_pos (decide_eq_true hlt)]
            linarith
          · rw [if_neg (by simp only [decide_eq_true_eq]; exact hlt)]
            linarith
        · intro hd
          exact absurd ((hD hd).2.symm.trans hact) (by simp)
      · split
        · refine ⟨hL, hS, hF, hG, ?_, ?_, ?_⟩
          · intro p' hp'
            obtain ⟨hb, hbud⟩ := hOL p' hp'
            exact ⟨hb, hbud⟩
          · intro p' hp'
            obtain ⟨hb, hbud⟩ := hOS p' hp'
            refine ⟨hb, ?_⟩
            show trimSum s.trades Color.red p'.entryBar +
              s.shortRemaining + (0 : ℚ) ≤ 1
            have := futureS_nonneg cfg s hcfg
            linarith
          · intro hd
            exact ⟨(hD hd).1, rfl⟩
        · exact ⟨hL, hS, hF, hG, hOL, hOS, hD⟩
    · exact ⟨hL, hS, hF, hG, hOL, hOS, hD⟩

theorem trimInv_dcaFillPhase (cfg : Config) (barIdx : ℕ) (row : Bar)
    (trimmed : Bool) (s : SimState) (nT nP : ℕ) (hcfg : TrimCfg cfg)
    (h : TrimInv cfg nT nP s) :
    TrimInv cfg nT nP (dcaFillPhase cfg barIdx row trimmed s) := by
  unfold dcaFillPhase
  split
  · exact trimInv_dcaFillShort cfg barIdx row _ nT nP hcfg
      (trimInv_dcaFillLong cfg barIdx row s nT nP hcfg h)
  · exact h

theorem trimInv_simStep (config : Config) (positionSize : ℚ)
    (isBtc hasBtcDf : Bool) (hcfg : TrimCfg config)
    (n : ℕ) (row : Bar) (s : SimState)
    (h : TrimInv config n n s) :
    TrimInv config (n + 1) (n + 1)
      (simStep config positionSize isBtc hasBtcDf s (n, row)) := by
  unfold simStep
  dsimp only
  rcases hb : btcCrashPhase config isBtc hasBtcDf positionSize n row s
    with _ | s'
  · dsimp only
    exact trimInv_mono
      (trimInv_of_frame (trimFrame_bb2Phase _ _ _ _ _)
        (trimInv_of_frame (trimFrame_bbPhase _ _ _ _ _)
          (trimInv_of_frame (trimFrame_pullbackPhase _ _ _ _ _)
            (trimInv_dcaFillPhase _ _ _ _ _ n (n + 1) hcfg
              (trimInv_openShort _ n _ _ _ n (n + 1) (le_refl n)
                  (le_refl (n + 1)) hcfg
                (trimInv_openLong _ n _ _ _ n n (le_refl n)
                    (Nat.le_succ n) hcfg
                  (trimInv_of_frame (trimFrame_confirm _ _ _)
                    (trimInv_closeShortPhase
                      (trimInv_closeLongPhase
                        (trimInv_velocityPhase _ _ _ _ _ _ n n (le_refl n)
                            hcfg
                          (trimInv_yellowShort _ _ _ _ _ _ n n (le_refl n)
                              hcfg
                            (trimInv_yellowLong _ _ _ _ _ _ n n (le_refl n)
                                hcfg
                              (trimInv_ladderPhase _ _ _ _ _ n n (le_refl n)
                                  hcfg
                                (trimInv_of_frame
                                  (trimFrame_trailingLong _ _ _ _)
                                  (trimInv_of_frame
                                    (trimFrame_trailingShort _ _ _ _)
                                    h)))))))))))))))
      (Nat.le_succ n) (le_refl (n + 1))
  · dsimp only
    exact trimInv_mono (trimInv_btcCrash hb h) (Nat.le_succ n)
      (Nat.le_succ n)

theorem trimInv_fold (config : Config) (positionSize : ℚ)
    (isBtc hasBtcDf : Bool) (hcfg : TrimCfg config) (l : List Bar) :
    ∀ (n : ℕ) (s : SimState), TrimInv config n n s →
      TrimInv config (n + l.length) (n + l.length)
        (List.foldl (simStep config positionSize isBtc hasBtcDf) s
          (List.enumFrom n l)) := by
  induction l with
  | nil =>
    intro n s h
    simpa using h
  | cons b l ih =>
    intro n s h
    have h1 := trimInv_simStep config positionSize isBtc hasBtcDf hcfg n b
      s h
    have h2 := ih (n + 1) _ h1
    simp only [List.length_cons]
    rw [show n + (l.length + 1) = (n + 1) + l.length by omega]
    exact h2

theorem trimInv_scanl (config : Config) (positionSize : ℚ)
    (isBtc hasBtcDf : Bool) (hcfg : TrimCfg config) (l : List Bar) :
    ∀ (n : ℕ) (s : SimState), TrimInv config n n s →
      ∀ s' ∈ (List.enumFrom n l).scanl
          (simStep config positionSize isBtc hasBtcDf) s,
        0 ≤ s'.longRemaining ∧ 0 ≤ s'.shortRemaining := by
  induction l with
  | nil =>
    intro n s h s' hm
    rcases List.mem_singleton.mp hm with rfl
    exact ⟨h.1, h.2.1⟩
  | cons b l ih =>
    intro n s h s' hm
    rw [show List.enumFrom n (b :: l) =
      (n, b) :: List.enumFrom (n + 1) l from rfl, List.scanl_cons] at hm
    rcases List.mem_cons.mp hm with rfl | hm2
    · exact ⟨h.1, h.2.1⟩
    · exact ih (n + 1) _
        (trimInv_simStep config positionSize isBtc hasBtcDf hcfg n b s h)
        s' hm2

theorem trimSum_eq_left {a rest : List Trade} (c : Color) (b : ℕ)
    (h : ∀ t ∈ rest, t.dir ≠ TDir.trim) :
    trimSum (a ++ rest) c b = trimSum a c b := by
  rw [trimSum_append, trimSum_nontrim c b h, add_zero]

theorem endFlush_trimSum (config : Config) (positionSize : ℚ)
    (lastRow : Bar) (s : SimState) (c : Color) (b : ℕ) :
    trimSum (endFlush config positionSize lastRow s) c b =
      trimSum s.trades c b := by
  unfold endFlush
  dsimp only
  simp only [List.append_assoc]
  apply trimSum_eq_left
  intro t ht
  simp only [List.mem_append] at ht
  rcases ht with h | h | h | h | h | h | h | h
  · split at h
    · rcases List.mem_singleton.mp h with rfl
      simp
    · cases h
  · split at h
    · rcases List.mem_singleton.mp h with rfl
      simp
    · cases h
  · split at h
    · rcases List.mem_singleton.mp h with rfl
      simp
    · cases h
  · split at h
    · rcases List.mem_singleton.mp h with rfl
      simp
    · cases h
  · split at h
    · rcases List.mem_singleton.mp h with rfl
      simp
    · cases h
  · split at h
    · rcases List.mem_singleton.mp h with rfl
      simp
    · cases h
  · rcases List.mem_map.mp h with ⟨piece, hp, rfl⟩
    simp
  · rcases List.mem_map.mp h with ⟨piece, hp, rfl⟩
    simp

/-- **C3** (trim-fraction conservation, confirmed under the natural
configuration sanity bounds).  With the yellow/orange trim percentages
fractions at most 99% and the DCA tranche fractions nonnegative summing
to at most 1 — in any trim mode, with or without the ladder, yellow
events, velocity trims and DCA fills — the exact trimmed fractions
recorded for any one primary position (keyed by its entry colour and
entry bar) sum to at most 1, and the remaining fractions of both sides
are nonnegative at every point of the bar walk. -/
theorem trim_fraction_conservation
    (df : List Bar) (positionSize : ℚ) (config : Config)
    (isBtc hasBtcDf : Bool) (hcfg : TrimCfg config) :
    (∀ c b, trimSum (simulateTrades df positionSize config isBtc hasBtcDf)
      c b ≤ 1) ∧
    (∀ s ∈ simStates df positionSize config isBtc hasBtcDf,
       0 ≤ s.longRemaining ∧ 0 ≤ s.shortRemaining) := by
  have hinit : TrimInv config 0 0 initState := by
    refine ⟨by norm_num [initState], by norm_num [initState], ?_, ?_, ?_,
      ?_, ?_⟩
    · intro t ht
      cases ht
    · intro c b
      simp [trimSum]
    · intro p hp
      exact absurd hp (by simp [initState])
    · intro p hp
      exact absurd hp (by simp [initState])
    · intro hd
      exact ⟨rfl, rfl⟩
  have hfin : TrimInv config df.length df.length
      (df.enum.foldl (simStep config positionSize isBtc hasBtcDf)
        initState) := by
    have h0 := trimInv_fold config positionSize isBtc hasBtcDf hcfg df 0
      initState hinit
    rw [Nat.zero_add] at h0
    exact h0
  constructor
  · intro c b
    unfold simulateTrades
    dsimp only
    rcases hlast : df.getLast? with _ | lastRow
    · exact hfin.2.2.2.1 c b
    · rw [endFlush_trimSum]
      exact hfin.2.2.2.1 c b
  · intro s hm
    exact trimInv_scanl config positionSize isBtc hasBtcDf hcfg df 0
      initState hinit s hm

/-- Witness for C3 at a concrete one-bar frame and the improved config,
whose trim percentages are 25% / 50% and whose DCA tranches are four
quarters. -/
theorem trim_fraction_conservation_witness :
    (∀ c b, trimSum (simulateTrades [plainBar] 1000 improvedConfig
      false false) c b ≤ 1) ∧
    (∀ s ∈ simStates [plainBar] 1000 improvedConfig false false,
       0 ≤ s.longRemaining ∧ 0 ≤ s.shortRemaining) :=
  trim_fraction_conservation [plainBar] 1000 improvedConfig false false
    (by
      refine ⟨by norm_num [improvedConfig], by norm_num [improvedConfig],
        by norm_num [improvedConfig], by norm_num [improvedConfig], ?_,
        by norm_num [improvedConfig]⟩
      intro q hq
      rw [show improvedConfig.dcaTranches =
        [1/4, 1/4, 1/4, 1/4] from by norm_num [improvedConfig]] at hq
      simp only [List.mem_cons, List.not_mem_nil, or_false] at hq
      rcases hq with rfl | rfl | rfl | rfl <;> norm_num)

end Vela
